import Mathlib

/-!
School management: the Record API over the `schools` table.

A shallow embedding of the request handlers of
`src/app/api/schools/route.js` (namespace `Schools`: `POST`, `GET`) and
`src/app/api/schools/[id]/route.js` (namespace `SchoolById`: `GET`, `PUT`,
`DELETE`), of `initializeDatabase` of `src/lib/db.js`, and of the rules of the
client pages (namespaces `AddSchool`, `EditSchool`, `ShowSchools`), together
with the pieces of JavaScript they rely on (truthiness, anchored regular
expressions, `parseInt`, `String.prototype.replace`) and the SQL statements
they send.

Conventions of the embedding.

* A JSON string is a `String`; a field that is absent or `null` is `none`.
  The handlers are embedded for request bodies that parse as JSON objects
  whose seven fields are strings, `null` or absent (the body shape of the
  HTTP surface). Strings with an unpaired surrogate are not represented.
* The regular expressions of the source carry no flags and are anchored by
  `^` and `$`; their character classes treat both halves of a surrogate pair
  alike, so matching over `Char`s agrees with matching over UTF-16 code units.
* `parseInt` yields an exact integer. JavaScript rounds beyond `2^53`; the
  ids of an `INT` column lie far below, so no comparison with a row id
  observes the rounding.
* The database is a list of rows with an `AUTO_INCREMENT` counter, or is
  down, in which case every statement throws. Text columns are compared by
  exact equality and hold any string. `NOW()` is the `now` argument of a
  handler. Requests are handled one after the other.
-/

namespace SchoolManagement

/-! ## JavaScript character classes -/

/-- The class `\s` of a JavaScript regular expression, which is also the set
of characters `parseInt` skips at the start of its argument: the white space
and line terminator code points of ECMAScript. -/
def isJsWhitespace (c : Char) : Bool :=
  let n := c.toNat
  n == 0x09 || n == 0x0A || n == 0x0B || n == 0x0C || n == 0x0D || n == 0x20 ||
  n == 0xA0 || n == 0x1680 || (0x2000 ≤ n && n ≤ 0x200A) || n == 0x2028 ||
  n == 0x2029 || n == 0x202F || n == 0x205F || n == 0x3000 || n == 0xFEFF

/-- The class `\d` of a JavaScript regular expression: `0` to `9`. -/
def isJsDigit (c : Char) : Bool :=
  0x30 ≤ c.toNat && c.toNat ≤ 0x39

/-- The class `[^\s@]` used three times by the email pattern. -/
def notSpaceAt (c : Char) : Bool :=
  !(isJsWhitespace c || c == '@')

/-! ## Regular expressions, matched by derivatives -/

/-- Syntax of the regular expressions that occur in the source. -/
inductive Regex where
  | empty : Regex
  | eps : Regex
  | cls : (Char → Bool) → Regex
  | seq : Regex → Regex → Regex
  | alt : Regex → Regex → Regex
  | star : Regex → Regex

namespace Regex

/-- Whether the expression matches the empty string. -/
def nullable : Regex → Bool
  | empty => false
  | eps => true
  | cls _ => false
  | seq a b => a.nullable && b.nullable
  | alt a b => a.nullable || b.nullable
  | star _ => true

/-- Derivative of an expression by one character. -/
def deriv : Regex → Char → Regex
  | empty, _ => empty
  | eps, _ => empty
  | cls p, c => if p c then eps else empty
  | seq a b, c =>
    if a.nullable then alt (seq (a.deriv c) b) (b.deriv c) else seq (a.deriv c) b
  | alt a b, c => alt (a.deriv c) (b.deriv c)
  | star a, c => seq (a.deriv c) (star a)

/-- Whether the whole list of characters matches the expression. -/
def rmatch : Regex → List Char → Bool
  | r, [] => r.nullable
  | r, c :: cs => rmatch (r.deriv c) cs

/-- The expression `r+`. -/
def plus (r : Regex) : Regex := seq r (star r)

/-- The expression `r{n}`. -/
def rep : Nat → Regex → Regex
  | 0, _ => eps
  | n + 1, r => seq r (rep n r)

/-- A single literal character. -/
def chr (c : Char) : Regex := cls (fun d => d == c)

/-- `RegExp.prototype.test` for a pattern written `/^r$/`. -/
def test (r : Regex) (s : String) : Bool := r.rmatch s.data

/-- Declarative meaning of an expression: the strings it matches. -/
inductive Matches : Regex → List Char → Prop
  | eps : Matches Regex.eps []
  | cls (p : Char → Bool) (c : Char) : p c = true → Matches (Regex.cls p) [c]
  | seq (a b : Regex) (s t : List Char) :
      Matches a s → Matches b t → Matches (Regex.seq a b) (s ++ t)
  | altL (a b : Regex) (s : List Char) : Matches a s → Matches (Regex.alt a b) s
  | altR (a b : Regex) (s : List Char) : Matches b s → Matches (Regex.alt a b) s
  | starNil (a : Regex) : Matches (Regex.star a) []
  | starCons (a : Regex) (s t : List Char) :
      Matches a s → Matches (Regex.star a) t → Matches (Regex.star a) (s ++ t)

end Regex

/-- The pattern `/^[^\s@]+@[^\s@]+\.[^\s@]+$/` of both route files. -/
def emailRegex : Regex :=
  .seq (.plus (.cls notSpaceAt))
    (.seq (.chr '@')
      (.seq (.plus (.cls notSpaceAt))
        (.seq (.chr '.') (.plus (.cls notSpaceAt)))))

/-- The pattern `/^\d{10}$/` of both route files. -/
def phoneRegex : Regex := .rep 10 (.cls isJsDigit)

/-- The call `contact.replace(/\D/g, '')`: every character that is not a digit
is deleted. -/
def stripNonDigits (s : String) : String :=
  String.mk (s.data.filter isJsDigit)

/-! ## JavaScript truthiness and `parseInt` -/

/-- Truthiness of a value that is a string, `null` or `undefined`: only a
non-empty string is truthy. -/
def truthy : Option String → Bool
  | some s => s != ""
  | none => false

/-- The expression `x || null`. -/
def orNull (x : Option String) : Option String :=
  if truthy x then x else none

/-- The string a variable holds once its truthiness has been checked. -/
def strOf (x : Option String) : String := x.getD ""

/-- Value of a character as a digit in a radix up to 36. -/
def digitValue (c : Char) : Option Nat :=
  let n := c.toNat
  if 0x30 ≤ n && n ≤ 0x39 then some (n - 0x30)
  else if 0x61 ≤ n && n ≤ 0x7A then some (n - 0x61 + 10)
  else if 0x41 ≤ n && n ≤ 0x5A then some (n - 0x41 + 10)
  else none

/-- Whether a character is a digit of the radix. -/
def isRadixDigit (radix : Nat) (c : Char) : Bool :=
  match digitValue c with
  | some d => d < radix
  | none => false

/-- The number written by a list of digits of the radix. -/
def digitsValue (radix : Nat) (ds : List Char) : Nat :=
  ds.foldl (fun acc c => acc * radix + (digitValue c).getD 0) 0

/-- The sign step of `parseInt`: a leading `-` or `+` is consumed. -/
def parseSign : List Char → Bool × List Char
  | '-' :: t => (true, t)
  | '+' :: t => (false, t)
  | cs => (false, cs)

/-- The prefix step of `parseInt` called without a radix: `0x` or `0X` selects
radix 16 and is consumed, otherwise the radix is 10. -/
def parseRadix : List Char → Nat × List Char
  | '0' :: 'x' :: t => (16, t)
  | '0' :: 'X' :: t => (16, t)
  | cs => (10, cs)

/-- The call `parseInt(s)` with no radix; `none` stands for `NaN`. -/
def parseInt (s : String) : Option Int :=
  let trimmed := s.data.dropWhile isJsWhitespace
  let (negative, unsigned) := parseSign trimmed
  let (radix, rest) := parseRadix unsigned
  let z := rest.takeWhile (isRadixDigit radix)
  if z.isEmpty then none
  else
    let m : Int := (digitsValue radix z : Nat)
    some (if negative then -m else m)

/-- The function `isNaN` on a result of `parseInt`. -/
def isNaN (x : Option Int) : Bool := x.isNone

/-! ## The store -/

/-- A row of the `schools` table, with the columns the route handlers name. -/
structure School where
  id : Nat
  name : String
  address : String
  city : String
  state : String
  contact : String
  email_id : String
  image : Option String
  created_at : Nat
  updated_at : Nat
  deriving DecidableEq, Repr

/-- Modelled from the spec: the database behind the connection pool, which the
repository reaches only through SQL text. It is either up, holding the rows of
`schools` in insertion order and the next `AUTO_INCREMENT` value, or down, in
which case every statement throws an error with the given message. -/
inductive Db where
  | up (rows : List School) (nextId : Nat)
  | down (message : String)
  deriving DecidableEq, Repr

/-- The rows of a store; a store that is down shows none. -/
def Db.rows : Db → List School
  | .up rows _ => rows
  | .down _ => []

/-- What the primary key and the `AUTO_INCREMENT` counter guarantee: the ids
of the rows are pairwise distinct and all below the next id to be assigned. -/
def Db.WellFormed : Db → Prop
  | .up rows nextId => (rows.map School.id).Nodup ∧ ∀ r ∈ rows, r.id < nextId
  | .down _ => True

/-- The rows have pairwise distinct emails. -/
def EmailsUnique (rows : List School) : Prop :=
  (rows.map School.email_id).Nodup

/-! ## Requests and responses -/

/-- The fields the handlers destructure from the JSON body. -/
structure Payload where
  name : Option String := none
  address : Option String := none
  city : Option String := none
  state : Option String := none
  contact : Option String := none
  email_id : Option String := none
  image : Option String := none
  deriving DecidableEq, Repr

/-- The columns `id, name, address, city, state, contact, email_id, image`: the
`school` object of the body of a 201 response and an entry of the list that
`GET /api/schools` returns. -/
structure SchoolBody where
  id : Nat
  name : String
  address : String
  city : String
  state : String
  contact : String
  email_id : String
  image : Option String
  deriving DecidableEq, Repr

/-- A response of `NextResponse.json`: the status and the body, whose keys are
all optional. A key the handler does not write is `none`. -/
structure Response where
  status : Nat
  success : Option Bool := none
  error : Option String := none
  message : Option String := none
  school : Option SchoolBody := none
  data : Option School := none
  schools : Option (List SchoolBody) := none
  deriving DecidableEq, Repr

/-- The guard `!name || !address || !city || !state || !contact || !email_id`. -/
def missingRequired (body : Payload) : Bool :=
  !truthy body.name || !truthy body.address || !truthy body.city ||
  !truthy body.state || !truthy body.contact || !truthy body.email_id

/-! ## `POST /api/schools` -/

namespace Schools

/-- The handler `POST` of `src/app/api/schools/route.js`. When the store is
down `pool.execute` throws and the `catch` block answers with the message of
the error. -/
def POST (now : Nat) (body : Payload) (db : Db) : Response × Db :=
  if missingRequired body then
    ({ status := 400, error := some "All required fields must be provided" }, db)
  else if !emailRegex.test (strOf body.email_id) then
    ({ status := 400, error := some "Invalid email address" }, db)
  else if !phoneRegex.test (strOf body.contact) then
    ({ status := 400, error := some "Contact must be a valid 10-digit number" }, db)
  else
    match db with
    | .down message => ({ status := 500, error := some message }, db)
    | .up rows nextId =>
      let existing := rows.filter (fun r => r.email_id == strOf body.email_id)
      if existing.length > 0 then
        ({ status := 409, error := some "A school with this email already exists" }, db)
      else
        let row : School :=
          { id := nextId, name := strOf body.name, address := strOf body.address,
            city := strOf body.city, state := strOf body.state,
            contact := strOf body.contact, email_id := strOf body.email_id,
            image := orNull body.image, created_at := now, updated_at := now }
        ({ status := 201, success := some true,
           message := some "School added successfully",
           school := some
             { id := nextId, name := strOf body.name, address := strOf body.address,
               city := strOf body.city, state := strOf body.state,
               contact := strOf body.contact, email_id := strOf body.email_id,
               image := orNull body.image } },
         .up (rows ++ [row]) (nextId + 1))

end Schools

/-! ## `GET`, `PUT /api/schools/[id]` -/

namespace SchoolById

/-- The handler `GET` of `src/app/api/schools/[id]/route.js`. Past the guard
`parseInt` has returned a number, so the last case is that of a store that is
down, where `pool.execute` throws and the `catch` block answers. -/
def GET (id : Option String) (db : Db) : Response × Db :=
  if !truthy id || isNaN (parseInt (strOf id)) then
    ({ status := 400, success := some false,
       error := some "Valid school ID is required" }, db)
  else
    match db, parseInt (strOf id) with
    | .up rows _, some n =>
      match rows.filter (fun r => (r.id : Int) == n) with
      | [] => ({ status := 404, success := some false,
                 error := some "School not found" }, db)
      | school :: _ => ({ status := 200, success := some true, data := some school }, db)
    | _, _ => ({ status := 500, success := some false,
                 error := some "Failed to fetch school" }, db)

end SchoolById

/-- The statement `UPDATE schools SET ... , updated_at = NOW() WHERE id = ?`. -/
def updateRow (now : Nat) (n : Int) (body : Payload) (cleanPhone : String)
    (r : School) : School :=
  if (r.id : Int) == n then
    { r with name := strOf body.name, address := strOf body.address,
             city := strOf body.city, state := strOf body.state,
             contact := cleanPhone, email_id := strOf body.email_id,
             image := orNull body.image, updated_at := now }
  else r

namespace SchoolById

/-- The handler `PUT` of `src/app/api/schools/[id]/route.js`. Past the guards
`parseInt` has returned a number, so the last case is that of a store that is
down, where `pool.execute` throws and the `catch` block answers. -/
def PUT (now : Nat) (id : Option String) (body : Payload) (db : Db) : Response × Db :=
  if !truthy id || missingRequired body then
    ({ status := 400, success := some false,
       error := some "All fields and ID are required for update" }, db)
  else if isNaN (parseInt (strOf id)) then
    ({ status := 400, success := some false,
       error := some "Valid school ID is required" }, db)
  else if !emailRegex.test (strOf body.email_id) then
    ({ status := 400, success := some false,
       error := some "Invalid email address format" }, db)
  else
    let cleanPhone := stripNonDigits (strOf body.contact)
    if !phoneRegex.test cleanPhone then
      ({ status := 400, success := some false,
         error := some "Contact number must be a valid 10-digit number" }, db)
    else
      match db, parseInt (strOf id) with
      | .up rows nextId, some n =>
        let existingSchool := rows.filter (fun r => (r.id : Int) == n)
        if existingSchool.length == 0 then
          ({ status := 404, success := some false,
             error := some "School not found" }, db)
        else
          let duplicates :=
            rows.filter (fun r => r.email_id == strOf body.email_id && (r.id : Int) != n)
          if duplicates.length > 0 then
            ({ status := 409, success := some false,
               error := some "A school with this email already exists" }, db)
          else
            ({ status := 200, success := some true,
               message := some "School updated successfully" },
             .up (rows.map (updateRow now n body cleanPhone)) nextId)
      | _, _ => ({ status := 500, success := some false,
                   error := some "Failed to update school" }, db)

end SchoolById

/-! ## The email rule in words -/

/-- The email rule as the specification words it: no white space, exactly one
`@`, a non-empty part before the `@`, and in the part after the `@` a `.` that
is neither its first nor its last character. -/
def emailRule (s : String) : Bool :=
  let before := s.data.takeWhile (fun c => c != '@')
  let after := (s.data.dropWhile (fun c => c != '@')).drop 1
  s.data.all (fun c => !isJsWhitespace c) && s.data.count '@' == 1 &&
    !before.isEmpty && ((after.drop 1).dropLast).contains '.'

/-! ## Sample requests -/

/-- The create payload of the concrete scenario of the specification. -/
def samplePayload : Payload :=
  { name := some "X", address := some "Y", city := some "Z", state := some "W",
    contact := some "1234567890", email_id := some "x@y.com" }

/-- The row the sample payload creates in an empty table at time 5. -/
def sampleRow : School :=
  { id := 1, name := "X", address := "Y", city := "Z", state := "W",
    contact := "1234567890", email_id := "x@y.com", image := none,
    created_at := 5, updated_at := 5 }

/-! ## The guards that precede the first query -/

/-- The guards of `POST` that precede its first query: required fields, email
pattern, phone pattern. -/
def postInvalid (body : Payload) : Bool :=
  missingRequired body || !emailRegex.test (strOf body.email_id) ||
    !phoneRegex.test (strOf body.contact)

/-- The guards of `PUT` that precede its first query: path id and required
fields, `parseInt` of the id, email pattern, phone pattern of the stripped
contact. -/
def putInvalid (id : Option String) (body : Payload) : Bool :=
  !truthy id || missingRequired body || isNaN (parseInt (strOf id)) ||
    !emailRegex.test (strOf body.email_id) ||
    !phoneRegex.test (stripNonDigits (strOf body.contact))

/-! ## `GET /api/schools` -/

/-- The select list `id, name, address, city, state, contact, email_id, image`
applied to a row. -/
def School.columns (r : School) : SchoolBody :=
  { id := r.id, name := r.name, address := r.address, city := r.city, state := r.state,
    contact := r.contact, email_id := r.email_id, image := r.image }

/-- The order of `ORDER BY created_at DESC`: the row created later comes first. -/
def CreatedDesc (a b : School) : Prop := b.created_at ≤ a.created_at

instance : DecidableRel CreatedDesc := fun a b => Nat.decLe b.created_at a.created_at

instance : IsTotal School CreatedDesc := ⟨fun a b => Nat.le_total b.created_at a.created_at⟩

instance : IsTrans School CreatedDesc := ⟨fun _ _ _ hab hbc => Nat.le_trans hbc hab⟩

/-- Modelled from the spec: the clause `ORDER BY created_at DESC`. SQL leaves
the order of rows with equal `created_at` open; here they keep the order of
insertion. -/
def orderByCreatedAtDesc (rows : List School) : List School :=
  rows.insertionSort CreatedDesc

namespace Schools

/-- The handler `GET` of `src/app/api/schools/route.js`; `NextResponse.json`
without a status answers 200. -/
def GET (db : Db) : Response × Db :=
  match db with
  | .up rows _ =>
    ({ status := 200, success := some true,
       schools := some ((orderByCreatedAtDesc rows).map School.columns) }, db)
  | .down _ => ({ status := 500, error := some "Failed to fetch schools" }, db)

end Schools

/-! ## `DELETE /api/schools/[id]` -/

namespace SchoolById

/-- The handler `DELETE` of `src/app/api/schools/[id]/route.js`. Past the guard
`parseInt` has returned a number, so the last case is that of a store that is
down, where `pool.execute` throws and the `catch` block answers. -/
def DELETE (id : Option String) (db : Db) : Response × Db :=
  if !truthy id || isNaN (parseInt (strOf id)) then
    ({ status := 400, success := some false,
       error := some "Valid school ID is required for deletion" }, db)
  else
    match db, parseInt (strOf id) with
    | .up rows nextId, some n =>
      match rows.filter (fun r => (r.id : Int) == n) with
      | [] => ({ status := 404, success := some false,
                 error := some "School not found" }, db)
      | school :: _ =>
        ({ status := 200, success := some true,
           message := some ("School \"" ++ school.name ++ "\" deleted successfully") },
         .up (rows.filter (fun r => !((r.id : Int) == n))) nextId)
    | _, _ => ({ status := 500, success := some false,
                 error := some "Failed to delete school" }, db)

end SchoolById

/-! ## `initializeDatabase` of `src/lib/db.js` -/

/-- A row of the seed array, in the column order of the `INSERT`:
school_name, address, city, state, contact_number, image, email_address. -/
structure SeedRow where
  school_name : String
  address : String
  city : String
  state : String
  contact_number : String
  image : String
  email_address : String
  deriving DecidableEq, Repr

/-- The array `schools` of `initializeDatabase`. -/
def schools : List SeedRow :=
  [ ⟨"La Martiniere College", "Hazratganj", "Lucknow", "Uttar Pradesh", "+91 91234 56789",
      "https://upload.wikimedia.org/wikipedia/commons/0/0a/La_Martiniere_College%2C_Lucknow.jpg",
      "info@lamartiniere.edu.in"⟩,
    ⟨"Jagran Public School", "Gomti Nagar", "Lucknow", "Uttar Pradesh", "+91 92345 67890",
      "https://www.uniformapp.in/images/school/jagran-public-school-lucknow-campus.jpg",
      "contact@jpslucknow.org"⟩,
    ⟨"Seth Anandram Jaipuria", "Gomti Nagar", "Lucknow", "Uttar Pradesh", "+91 93456 78901",
      "https://jaipuriaschoolgn.in/wp-content/uploads/2020/05/school.jpg",
      "info@jaipuriaschool.edu"⟩,
    ⟨"Lucknow Public School", "Vinay Khand, Gomti Nagar", "Lucknow", "Uttar Pradesh",
      "+91 94567 89012",
      "https://www.uniformapp.in/images/school/lucknow-public-school-campus.jpg",
      "admin@lpslucknow.org"⟩,
    ⟨"Delhi Public School", "Sector 30", "Noida", "Uttar Pradesh", "+91 95678 90123",
      "https://www.dpsnoida.co.in/images/school_building.jpg", "contact@dpsnoida.edu"⟩,
    ⟨"The Doon School", "Mall Road", "Dehradun", "Uttarakhand", "+91 96789 01234",
      "https://www.doonschool.com/wp-content/uploads/2018/12/DoonSchool-Campus.jpg",
      "info@doonschool.edu"⟩,
    ⟨"Modern School", "Barakhamba Road", "New Delhi", "Delhi", "+91 97890 12345",
      "https://modernschool.net/wp-content/uploads/2019/04/campus.jpg",
      "admissions@modernschool.edu"⟩,
    ⟨"St. Xavier’s Collegiate School", "Park Street", "Kolkata", "West Bengal",
      "+91 98901 23456", "https://stxavierskolkata.org/assets/images/school-campus.jpg",
      "office@stxaviers.edu"⟩,
    ⟨"Ryan International School", "Kandivali East", "Mumbai", "Maharashtra",
      "+91 99012 34567", "https://ryaninternational.org/images/school-campus.jpg",
      "ryan@ris.edu"⟩,
    ⟨"Bishop Cotton School", "Mall Road", "Shimla", "Himachal Pradesh", "+91 90123 45678",
      "https://bishopcottonshimla.com/wp-content/uploads/2021/04/campus.jpg",
      "contact@bishopcotton.edu"⟩ ]

/-- A row of the table that the `CREATE TABLE IF NOT EXISTS schools` of
`initializeDatabase` describes, under its own column names. -/
structure SeededSchool where
  id : Nat
  school_name : String
  address : String
  city : String
  state : String
  contact_number : String
  image : Option String
  email_address : String
  status : String
  created_at : Nat
  updated_at : Nat
  deriving DecidableEq, Repr

/-- A row that the seed `INSERT` writes into the table of `initializeDatabase`:
the seven columns it names take the values of the seed array, the id comes
from `AUTO_INCREMENT`, `status` takes its default `pending`, and the two
timestamps default to the time of the statement. -/
def seedRow (now : Nat) (p : Nat × SeedRow) : SeededSchool :=
  { id := p.1, school_name := p.2.school_name, address := p.2.address, city := p.2.city,
    state := p.2.state, contact_number := p.2.contact_number, image := some p.2.image,
    email_address := p.2.email_address, status := "pending",
    created_at := now, updated_at := now }

/-- The function `initializeDatabase` of `src/lib/db.js` run against a store
whose table `schools` has the columns of the handlers. `CREATE TABLE IF NOT
EXISTS` leaves that table as it is and `SELECT COUNT(*)` counts its rows. With
a row present the seed is skipped and `true` is returned. With no row the seed
`INSERT` names school_name, contact_number and email_address, columns this
table lacks: the statement throws, the `catch` block returns `false`, and
nothing is inserted. On a store that is down the first statement throws. -/
def initializeDatabase (_now : Nat) (db : Db) : Bool × Db :=
  match db with
  | .down _ => (false, db)
  | .up rows _ =>
    if rows.length == 0 then (false, db)
    else (true, db)

/-! ## Sequences of calls -/

/-- A call that may change the store. -/
inductive Call where
  | seed : Call
  | post (body : Payload) : Call
  | put (id : Option String) (body : Payload) : Call
  | delete (id : Option String) : Call

/-- The store a call leaves behind when it runs at time `now`. -/
def Call.run (now : Nat) : Call → Db → Db
  | .seed, db => (initializeDatabase now db).2
  | .post body, db => (Schools.POST now body db).2
  | .put id body, db => (SchoolById.PUT now id body db).2
  | .delete id, db => (SchoolById.DELETE id db).2

/-- The stores reached from an empty table by calls made one after the other
under a clock that never goes backwards: `ReachableAt t db` says that `db` is
reached and the last call ran at time `t`. -/
inductive ReachableAt : Nat → Db → Prop where
  | empty (t nextId : Nat) : ReachableAt t (.up [] nextId)
  | step (t now : Nat) (call : Call) (db : Db) :
      ReachableAt t db → t ≤ now → ReachableAt now (call.run now db)

/-! ## The response envelope -/

/-- The envelope of the specification read on a response: the body has a
boolean `success` that is `true` exactly when the status is 2xx, and a failure
response has an `error` string. -/
def usesEnvelope (r : Response) : Bool :=
  r.success == some (decide (200 ≤ r.status ∧ r.status < 300)) &&
    (decide (200 ≤ r.status ∧ r.status < 300) || r.error.isSome)

/-- Whether every character of a string is a digit. -/
def digitsOnly (s : String) : Bool := s.data.all isJsDigit

/-! ## The client pages -/

namespace Regex

/-- The expression `r{0,k}`. -/
def upTo : Nat → Regex → Regex
  | 0, _ => eps
  | k + 1, r => alt eps (seq r (upTo k r))

/-- The expression `r{m,n}` for `m ≤ n`. -/
def repRange (m n : Nat) (r : Regex) : Regex := seq (rep m r) (upTo (n - m) r)

/-- The expression `r{m,}`. -/
def repAtLeast (m : Nat) (r : Regex) : Regex := seq (rep m r) (star r)

end Regex

/-- The letters `A` to `Z` and `a` to `z`: the class `[A-Z]` under the flag
`i`, whose case folding never maps a character beyond ASCII onto an ASCII
one. -/
def isAsciiLetter (c : Char) : Bool :=
  (0x41 ≤ c.toNat && c.toNat ≤ 0x5A) || (0x61 ≤ c.toNat && c.toNat ≤ 0x7A)

/-- The length of a JavaScript string: its number of UTF-16 code units. -/
def utf16Length (s : String) : Nat :=
  (s.data.map (fun c => if 0x10000 ≤ c.toNat then 2 else 1)).sum

namespace AddSchool

/-- The pattern `/^[0-9]{7,15}$/` registered for `contact`. -/
def contactPattern : Regex := .repRange 7 15 (.cls isJsDigit)

/-- The pattern `/^[^\s@]+@[^\s@]+\.[^\s@]+$/` registered for `email_id`. -/
def emailPattern : Regex := emailRegex

/-- The values of the add-school form that the rules look at. -/
structure FormData where
  name : String
  address : String
  city : String
  state : String
  contact : String
  email_id : String
  deriving DecidableEq, Repr

/-- The rules registered on the fields of the form: `required` refuses an
empty value, `minLength` compares the length of the value, `pattern` tests the
expression. `handleSubmit` calls `onSubmit` only when all of them pass. -/
def formValid (data : FormData) : Bool :=
  (data.name != "" && 2 ≤ utf16Length data.name) &&
  (data.address != "" && 8 ≤ utf16Length data.address) &&
  data.city != "" && data.state != "" &&
  (data.contact != "" && contactPattern.test data.contact) &&
  (data.email_id != "" && emailPattern.test data.email_id)

/-- The object `payload` that `onSubmit` sends to `POST /api/schools`; `image`
is what the file or the image URL gave, `null` when neither is set. -/
def payload (data : FormData) (image : Option String) : Payload :=
  { name := some data.name, address := some data.address, city := some data.city,
    state := some data.state, contact := some data.contact,
    email_id := some data.email_id, image := image }

end AddSchool

namespace EditSchool

/-- The class `[A-Z0-9._%+-]` under the flag `i`. -/
def isLocalChar (c : Char) : Bool :=
  isAsciiLetter c || isJsDigit c || c.toNat == 0x2E || c.toNat == 0x5F ||
    c.toNat == 0x25 || c.toNat == 0x2B || c.toNat == 0x2D

/-- The class `[A-Z0-9.-]` under the flag `i`. -/
def isDomainChar (c : Char) : Bool :=
  isAsciiLetter c || isJsDigit c || c.toNat == 0x2E || c.toNat == 0x2D

/-- The pattern `/^[A-Z0-9._%+-]+@[A-Z0-9.-]+\.[A-Z]{2,}$/i` registered for
`email_id` by the edit-school form. -/
def emailPattern : Regex :=
  .seq (.plus (.cls isLocalChar))
    (.seq (.chr '@')
      (.seq (.plus (.cls isDomainChar))
        (.seq (.chr '.') (.repAtLeast 2 (.cls isAsciiLetter)))))

end EditSchool

namespace ShowSchools

/-- An entry of the list held by the page, as the search reads it: a key that
is absent or `null` is `none`. -/
structure Entry where
  id : Nat
  name : Option String := none
  address : Option String := none
  city : Option String := none
  state : Option String := none
  contact : Option String := none
  email_id : Option String := none
  image : Option String := none
  deriving DecidableEq, Repr

/-- The method `trim`: white space and line terminators are removed at both
ends. -/
def trim (s : String) : String :=
  String.mk ((s.data.dropWhile isJsWhitespace).reverse.dropWhile isJsWhitespace).reverse

/-- Whether the first list starts the second. -/
def startsWith : List Char → List Char → Bool
  | [], _ => true
  | _ :: _, [] => false
  | a :: needle, b :: hay => a == b && startsWith needle hay

/-- Whether the first list occurs in the second as a run of adjacent
characters. -/
def occursIn (needle : List Char) : List Char → Bool
  | [] => startsWith needle []
  | b :: hay => startsWith needle (b :: hay) || occursIn needle hay

/-- The method `includes`: `v.includes(q)`. -/
def includes (v q : String) : Bool := occursIn q.data v.data

/-- The test of one entry: `[s.name, s.city, s.state, s.address]` mapped by
`String(v || "").toLowerCase()` has some member that includes `q`. -/
def entryMatches (toLowerCase : String → String) (q : String) (s : Entry) : Bool :=
  ([s.name, s.city, s.state, s.address].map (fun v => toLowerCase (strOf v))).any
    (fun v => includes v q)

/-- The memo `filtered` of `src/app/showSchools/page.jsx`. The method
`toLowerCase` is a parameter: its Unicode case mapping is not spelled out
here, and nothing below depends on it. -/
def filtered (toLowerCase : String → String) (schools : List Entry) (query : String) :
    List Entry :=
  let q := toLowerCase (trim query)
  if q == "" then schools
  else schools.filter (entryMatches toLowerCase q)

/-- Lower-casing of the letters `A` to `Z`, which is what `toLowerCase` does
on a string of ASCII characters. -/
def asciiLower (s : String) : String := String.mk (s.data.map Char.toLower)

end ShowSchools

/-! ## `initializeDatabase`, statement by statement -/

/-- Which steps of `initializeDatabase` throw when they are executed, each with
the message of its error: the creation of the pool, the `CREATE TABLE`, the
`SELECT COUNT(*)` and the seed `INSERT`. -/
structure InitFaults where
  createPool : Option String := none
  createTable : Option String := none
  countRows : Option String := none
  insertSeed : Option String := none
  deriving DecidableEq, Repr

/-- One awaited step: it throws the given error, or it completes. -/
def attempt (fault : Option String) : Except String Unit :=
  match fault with
  | some message => .error message
  | none => .ok ()

/-- The `try` block of `initializeDatabase`, on the rows and the next id of
the table that its own `CREATE TABLE` describes. `initializePool` creates the
pool only when the module holds none; the seed `INSERT` runs only when the
count is 0. -/
def initializeDatabaseTry (faults : InitFaults) (poolReady : Bool) (now : Nat)
    (rows : List SeededSchool) (nextId : Nat) : Except String (List SeededSchool × Nat) := do
  if !poolReady then attempt faults.createPool
  attempt faults.createTable
  attempt faults.countRows
  if rows.length == 0 then
    attempt faults.insertSeed
    pure (rows ++ (schools.enumFrom nextId).map (seedRow now), nextId + schools.length)
  else
    pure (rows, nextId)

/-- The function `initializeDatabase` with its `catch` block, on the table that
its own `CREATE TABLE` describes: an error of the `try` block is logged and
`false` is returned, the table being as it was. -/
def initializeDatabaseWith (faults : InitFaults) (poolReady : Bool) (now : Nat)
    (rows : List SeededSchool) (nextId : Nat) : Bool × (List SeededSchool × Nat) :=
  match initializeDatabaseTry faults poolReady now rows nextId with
  | .ok table => (true, table)
  | .error _ => (false, (rows, nextId))

/-! ## The update handler on the table of `initializeDatabase` -/

namespace SeedTable

/-- The handler `PUT` of `src/app/api/schools/[id]/route.js` run against the
table that `initializeDatabase` creates. The guards are those of the handler,
and `SELECT id FROM schools WHERE id = ?` names a column this table has. The
next statement, `SELECT id FROM schools WHERE email_id = ? AND id != ?`, names
`email_id`, which this table lacks: it throws and the `catch` block answers.
No statement that writes is reached, so the rows stay as they are. -/
def PUT (id : Option String) (body : Payload) (rows : List SeededSchool) : Response :=
  if !truthy id || missingRequired body then
    { status := 400, success := some false,
      error := some "All fields and ID are required for update" }
  else if isNaN (parseInt (strOf id)) then
    { status := 400, success := some false, error := some "Valid school ID is required" }
  else if !emailRegex.test (strOf body.email_id) then
    { status := 400, success := some false, error := some "Invalid email address format" }
  else
    let cleanPhone := stripNonDigits (strOf body.contact)
    if !phoneRegex.test cleanPhone then
      { status := 400, success := some false,
        error := some "Contact number must be a valid 10-digit number" }
    else
      match parseInt (strOf id) with
      | some n =>
        let existingSchool := rows.filter (fun r => (r.id : Int) == n)
        if existingSchool.length == 0 then
          { status := 404, success := some false, error := some "School not found" }
        else
          { status := 500, success := some false, error := some "Failed to update school" }
      | none => { status := 500, success := some false,
                  error := some "Failed to update school" }

end SeedTable

/-- The body that resubmits the values of a seeded row under the keys that the
update handler reads: school_name as name, contact_number as contact and
email_address as email_id. -/
def SeededSchool.resubmitted (r : SeededSchool) : Payload :=
  { name := some r.school_name, address := some r.address, city := some r.city,
    state := some r.state, contact := some r.contact_number,
    email_id := some r.email_address, image := r.image }

/-! ## The search rule in words -/

/-- The string `q` is a substring of the string `v`. -/
def IsSubstring (q v : String) : Prop :=
  ∃ before after : List Char, v.data = before ++ q.data ++ after

/-- The search rule as the specification words it: the query, trimmed and
lower-cased, is a substring of the lower-cased name, city, state or address of
the entry, a missing field counting as the empty string. -/
def SearchHit (toLowerCase : String → String) (query : String) (s : ShowSchools.Entry) :
    Prop :=
  IsSubstring (toLowerCase (ShowSchools.trim query)) (toLowerCase (s.name.getD "")) ∨
  IsSubstring (toLowerCase (ShowSchools.trim query)) (toLowerCase (s.city.getD "")) ∨
  IsSubstring (toLowerCase (ShowSchools.trim query)) (toLowerCase (s.state.getD "")) ∨
  IsSubstring (toLowerCase (ShowSchools.trim query)) (toLowerCase (s.address.getD ""))

/-! ## Resubmitting a row -/

/-- The body that resubmits the name, address, city, state, contact, email and
image of a row as they are stored. -/
def School.resubmitted (r : School) : Payload :=
  { name := some r.name, address := some r.address, city := some r.city,
    state := some r.state, contact := some r.contact, email_id := some r.email_id,
    image := r.image }

/-- What POST and PUT guarantee of a row they write: non-empty name, address,
city and state, an email that matches the email pattern, a contact that
matches `/^\d{10}$/`, and an image that is not the empty string. -/
def Resubmittable (r : School) : Prop :=
  r.name ≠ "" ∧ r.address ≠ "" ∧ r.city ≠ "" ∧ r.state ≠ "" ∧
    emailRegex.test r.email_id = true ∧ phoneRegex.test r.contact = true ∧
    r.image ≠ some ""

/-! ## Correctness of the derivative matcher -/

namespace Regex

theorem matches_empty_iff (u : List Char) : Matches empty u ↔ False := by
  constructor
  · intro h; cases h
  · intro h; exact h.elim

theorem matches_eps_iff (u : List Char) : Matches eps u ↔ u = [] := by
  constructor
  · intro h; cases h; rfl
  · intro h; subst h; exact Matches.eps

theorem matches_cls_iff (p : Char → Bool) (u : List Char) :
    Matches (cls p) u ↔ ∃ c, u = [c] ∧ p c = true := by
  constructor
  · intro h; cases h with
    | cls _ c hc => exact ⟨c, rfl, hc⟩
  · rintro ⟨c, rfl, hc⟩; exact Matches.cls p c hc

theorem matches_seq_iff (a b : Regex) (u : List Char) :
    Matches (seq a b) u ↔ ∃ s t, u = s ++ t ∧ Matches a s ∧ Matches b t := by
  constructor
  · intro h; cases h with
    | seq _ _ s t hs ht => exact ⟨s, t, rfl, hs, ht⟩
  · rintro ⟨s, t, rfl, hs, ht⟩; exact Matches.seq a b s t hs ht

theorem matches_alt_iff (a b : Regex) (u : List Char) :
    Matches (alt a b) u ↔ Matches a u ∨ Matches b u := by
  constructor
  · intro h; cases h with
    | altL _ _ _ h => exact Or.inl h
    | altR _ _ _ h => exact Or.inr h
  · rintro (h | h)
    · exact Matches.altL a b u h
    · exact Matches.altR a b u h

theorem matches_star_cons_aux (r : Regex) (w : List Char) (h : Matches r w) :
    ∀ (a : Regex) (c : Char) (u : List Char), r = star a → w = c :: u →
      ∃ s t, u = s ++ t ∧ Matches a (c :: s) ∧ Matches (star a) t := by
  induction h with
  | eps => intro a c u hr; cases hr
  | cls p c hc => intro a c u hr; cases hr
  | seq a b s t _ _ _ _ => intro a c u hr; cases hr
  | altL a b s _ _ => intro a c u hr; cases hr
  | altR a b s _ _ => intro a c u hr; cases hr
  | starNil a => intro a c u _ hw; cases hw
  | starCons a s t hs ht _ iht =>
    intro a' c u hr hw
    cases hr
    cases s with
    | nil => exact iht a c u rfl (by simpa using hw)
    | cons d s' =>
      simp only [List.cons_append, List.cons.injEq] at hw
      obtain ⟨rfl, rfl⟩ := hw
      exact ⟨s', t, rfl, hs, ht⟩

theorem matches_star_cons_iff (a : Regex) (c : Char) (u : List Char) :
    Matches (star a) (c :: u) ↔
      ∃ s t, u = s ++ t ∧ Matches a (c :: s) ∧ Matches (star a) t := by
  constructor
  · intro h; exact matches_star_cons_aux _ _ h a c u rfl rfl
  · rintro ⟨s, t, rfl, hs, ht⟩
    exact Matches.starCons a (c :: s) t hs ht

theorem nullable_iff (r : Regex) : r.nullable = true ↔ Matches r [] := by
  induction r with
  | empty => simp [nullable, matches_empty_iff]
  | eps => simp [nullable, matches_eps_iff]
  | cls p => simp [nullable, matches_cls_iff]
  | seq a b iha ihb =>
    simp only [nullable, Bool.and_eq_true, iha, ihb, matches_seq_iff]
    constructor
    · rintro ⟨ha, hb⟩; exact ⟨[], [], rfl, ha, hb⟩
    · rintro ⟨s, t, hst, ha, hb⟩
      have h := List.append_eq_nil.mp hst.symm
      rw [h.1] at ha; rw [h.2] at hb
      exact ⟨ha, hb⟩
  | alt a b iha ihb => simp [nullable, iha, ihb, matches_alt_iff]
  | star a _ => simp [nullable, Matches.starNil]

theorem deriv_iff (r : Regex) (c : Char) :
    ∀ u : List Char, Matches (r.deriv c) u ↔ Matches r (c :: u) := by
  induction r with
  | empty => intro u; simp [deriv, matches_empty_iff]
  | eps => intro u; simp [deriv, matches_empty_iff, matches_eps_iff]
  | cls p =>
    intro u
    by_cases hp : p c = true
    · simp only [deriv, hp, if_true, matches_eps_iff, matches_cls_iff]
      constructor
      · rintro rfl; exact ⟨c, rfl, hp⟩
      · rintro ⟨d, hd, _⟩
        simp only [List.cons.injEq] at hd
        exact hd.2
    · have hf : p c = false := by simpa using hp
      simp only [deriv, hf, Bool.false_eq_true, if_false, matches_empty_iff,
        matches_cls_iff, false_iff]
      rintro ⟨d, hd, hpd⟩
      simp only [List.cons.injEq] at hd
      rw [← hd.1] at hpd
      exact hp hpd
  | seq a b iha ihb =>
    intro u
    have key : Matches (seq a b) (c :: u) ↔
        (Matches a [] ∧ Matches b (c :: u)) ∨
          ∃ s t, u = s ++ t ∧ Matches a (c :: s) ∧ Matches b t := by
      rw [matches_seq_iff]
      constructor
      · rintro ⟨s, t, hst, ha, hb⟩
        cases s with
        | nil => left; simp only [List.nil_append] at hst; rw [hst]; exact ⟨ha, hb⟩
        | cons d s' =>
          simp only [List.cons_append, List.cons.injEq] at hst
          obtain ⟨rfl, rfl⟩ := hst
          right; exact ⟨s', t, rfl, ha, hb⟩
      · rintro (⟨ha, hb⟩ | ⟨s, t, rfl, ha, hb⟩)
        · exact ⟨[], c :: u, rfl, ha, hb⟩
        · exact ⟨c :: s, t, rfl, ha, hb⟩
    rw [key]
    by_cases hn : a.nullable = true
    · have hn' := (nullable_iff a).mp hn
      simp only [deriv, hn, if_true, matches_alt_iff, matches_seq_iff, iha, ihb]
      constructor
      · rintro (h | h)
        · exact Or.inr h
        · exact Or.inl ⟨hn', h⟩
      · rintro (⟨_, h⟩ | h)
        · exact Or.inr h
        · exact Or.inl h
    · have hn' : ¬ Matches a [] := fun h => hn ((nullable_iff a).mpr h)
      have hf : a.nullable = false := by simpa using hn
      simp only [deriv, hf, Bool.false_eq_true, if_false, matches_seq_iff, iha]
      constructor
      · intro h; exact Or.inr h
      · rintro (⟨h, _⟩ | h)
        · exact (hn' h).elim
        · exact h
  | alt a b iha ihb => intro u; simp [deriv, matches_alt_iff, iha, ihb]
  | star a iha =>
    intro u
    simp only [deriv, matches_seq_iff, iha, matches_star_cons_iff]

/-- The derivative matcher decides the declarative meaning. -/
theorem rmatch_iff (r : Regex) (u : List Char) : r.rmatch u = true ↔ Matches r u := by
  induction u generalizing r with
  | nil => simp [rmatch, nullable_iff]
  | cons c u ih => simp [rmatch, ih, deriv_iff]

theorem matches_star_cls_iff (p : Char → Bool) (u : List Char) :
    Matches (star (cls p)) u ↔ ∀ c ∈ u, p c = true := by
  induction u with
  | nil => simp [Matches.starNil]
  | cons d u ih =>
    rw [matches_star_cons_iff]
    constructor
    · rintro ⟨s, t, rfl, hs, ht⟩
      rw [matches_cls_iff] at hs
      obtain ⟨c, hc, hp⟩ := hs
      simp only [List.cons.injEq] at hc
      obtain ⟨rfl, rfl⟩ := hc
      intro x hx
      simp only [List.nil_append, List.mem_cons] at hx
      rcases hx with rfl | hx
      · exact hp
      · exact (ih.mp (by simpa using ht)) x hx
    · intro h
      refine ⟨[], u, rfl, (matches_cls_iff p [d]).mpr ⟨d, rfl, h d (by simp)⟩, ?_⟩
      exact ih.mpr (fun c hc => h c (List.mem_cons_of_mem d hc))

theorem matches_plus_cls_iff (p : Char → Bool) (u : List Char) :
    Matches (plus (cls p)) u ↔ u ≠ [] ∧ ∀ c ∈ u, p c = true := by
  unfold plus
  rw [matches_seq_iff]
  constructor
  · rintro ⟨s, t, rfl, hs, ht⟩
    rw [matches_cls_iff] at hs
    obtain ⟨c, rfl, hp⟩ := hs
    rw [matches_star_cls_iff] at ht
    refine ⟨by simp, ?_⟩
    intro x hx
    simp only [List.singleton_append, List.mem_cons] at hx
    rcases hx with rfl | hx
    · exact hp
    · exact ht x hx
  · rintro ⟨hne, h⟩
    cases u with
    | nil => exact (hne rfl).elim
    | cons d u =>
      refine ⟨[d], u, rfl, (matches_cls_iff p [d]).mpr ⟨d, rfl, h d (by simp)⟩, ?_⟩
      exact (matches_star_cls_iff p u).mpr (fun c hc => h c (List.mem_cons_of_mem d hc))

theorem matches_rep_cls_iff (p : Char → Bool) (n : Nat) (u : List Char) :
    Matches (rep n (cls p)) u ↔ u.length = n ∧ ∀ c ∈ u, p c = true := by
  induction n generalizing u with
  | zero =>
    simp only [rep, matches_eps_iff]
    constructor
    · rintro rfl; simp
    · rintro ⟨h, _⟩; exact List.length_eq_zero.mp h
  | succ n ih =>
    simp only [rep, matches_seq_iff, matches_cls_iff, ih]
    constructor
    · rintro ⟨s, t, rfl, ⟨c, rfl, hp⟩, hlen, ht⟩
      refine ⟨by simp [hlen], ?_⟩
      intro x hx
      simp only [List.singleton_append, List.mem_cons] at hx
      rcases hx with rfl | hx
      · exact hp
      · exact ht x hx
    · rintro ⟨hlen, h⟩
      cases u with
      | nil => simp at hlen
      | cons d u =>
        refine ⟨[d], u, rfl, ⟨d, rfl, h d (by simp)⟩, by simpa using hlen, ?_⟩
        exact fun c hc => h c (List.mem_cons_of_mem d hc)

end Regex

/-! ## The email pattern -/

theorem notSpaceAt_iff (c : Char) :
    notSpaceAt c = true ↔ isJsWhitespace c = false ∧ c ≠ '@' := by
  simp [notSpaceAt]

theorem split_at_sign (L R : List Char) (hL : ∀ c ∈ L, c ≠ '@') :
    (L ++ '@' :: R).takeWhile (fun c => c != '@') = L ∧
      ((L ++ '@' :: R).dropWhile (fun c => c != '@')).drop 1 = R := by
  induction L with
  | nil => simp [List.takeWhile, List.dropWhile]
  | cons d L ih =>
    have hd : (d != '@') = true := by simpa using hL d (by simp)
    have ih' := ih (fun c hc => hL c (List.mem_cons_of_mem d hc))
    rw [List.cons_append, List.takeWhile_cons, List.dropWhile_cons]
    simp only [hd, if_true]
    exact ⟨by rw [ih'.1], ih'.2⟩

theorem exists_split_of_count (u : List Char) (h : u.count '@' = 1) :
    ∃ L R, u = L ++ '@' :: R ∧ (∀ c ∈ L, c ≠ '@') ∧ (∀ c ∈ R, c ≠ '@') := by
  induction u with
  | nil => simp at h
  | cons d u ih =>
    by_cases hd : d = '@'
    · subst hd
      simp only [List.count_cons_self, Nat.add_left_eq_self] at h
      refine ⟨[], u, rfl, by simp, ?_⟩
      intro c hc hcat
      subst hcat
      exact (List.count_eq_zero.mp h) hc
    · rw [List.count_cons_of_ne (Ne.symm hd)] at h
      obtain ⟨L, R, rfl, hL, hR⟩ := ih h
      refine ⟨d :: L, R, rfl, ?_, hR⟩
      intro c hc
      simp only [List.mem_cons] at hc
      rcases hc with rfl | hc
      · exact hd
      · exact hL c hc

theorem emailRegex_matches_iff (u : List Char) :
    Regex.Matches emailRegex u ↔
      ∃ L D T, u = L ++ '@' :: (D ++ '.' :: T) ∧
        (L ≠ [] ∧ ∀ c ∈ L, notSpaceAt c = true) ∧
        (D ≠ [] ∧ ∀ c ∈ D, notSpaceAt c = true) ∧
        (T ≠ [] ∧ ∀ c ∈ T, notSpaceAt c = true) := by
  unfold emailRegex Regex.chr
  simp only [Regex.matches_seq_iff, Regex.matches_plus_cls_iff, Regex.matches_cls_iff]
  constructor
  · rintro ⟨L, r1, rfl, hL, a, r2, rfl, ⟨c, rfl, hc⟩, D, r3, rfl, hD, b, T, rfl,
      ⟨d, rfl, hd⟩, hT⟩
    simp only [beq_iff_eq] at hc hd
    subst hc hd
    exact ⟨L, D, T, by simp, hL, hD, hT⟩
  · rintro ⟨L, D, T, rfl, hL, hD, hT⟩
    exact ⟨L, '@' :: (D ++ '.' :: T), rfl, hL, ['@'], D ++ '.' :: T, rfl,
      ⟨'@', rfl, by simp⟩, D, '.' :: T, rfl, hD, ['.'], T, rfl, ⟨'.', rfl, by simp⟩, hT⟩

theorem emailRule_of_parts (L D T : List Char)
    (hL : L ≠ [] ∧ ∀ c ∈ L, notSpaceAt c = true)
    (hD : D ≠ [] ∧ ∀ c ∈ D, notSpaceAt c = true)
    (hT : T ≠ [] ∧ ∀ c ∈ T, notSpaceAt c = true) :
    emailRule (String.mk (L ++ '@' :: (D ++ '.' :: T))) = true := by
  have hLat : ∀ c ∈ L, c ≠ '@' := fun c hc => ((notSpaceAt_iff c).mp (hL.2 c hc)).2
  have hDat : ∀ c ∈ D, c ≠ '@' := fun c hc => ((notSpaceAt_iff c).mp (hD.2 c hc)).2
  have hTat : ∀ c ∈ T, c ≠ '@' := fun c hc => ((notSpaceAt_iff c).mp (hT.2 c hc)).2
  have hsp := split_at_sign L (D ++ '.' :: T) hLat
  obtain ⟨d, D', rfl⟩ := List.exists_cons_of_ne_nil hD.1
  unfold emailRule
  simp only [hsp.1, hsp.2, Bool.and_eq_true, List.all_eq_true, beq_iff_eq,
    Bool.not_eq_true', List.isEmpty_eq_false, List.contains_iff_exists_mem_beq,
    exists_eq_right]
  refine ⟨⟨⟨?_, ?_⟩, ?_⟩, ?_⟩
  · intro c hc
    simp only [List.mem_append, List.mem_cons] at hc
    rcases hc with hc | rfl | (rfl | hc) | rfl | hc
    · exact ((notSpaceAt_iff c).mp (hL.2 c hc)).1
    · decide
    · exact ((notSpaceAt_iff _).mp (hD.2 _ (by simp))).1
    · exact ((notSpaceAt_iff c).mp (hD.2 c (List.mem_cons_of_mem _ hc))).1
    · decide
    · exact ((notSpaceAt_iff c).mp (hT.2 c hc)).1
  · have h1 : L.count '@' = 0 := List.count_eq_zero.mpr (fun h => hLat _ h rfl)
    have h2 : (d :: D').count '@' = 0 := List.count_eq_zero.mpr (fun h => hDat _ h rfl)
    have h3 : T.count '@' = 0 := List.count_eq_zero.mpr (fun h => hTat _ h rfl)
    have h4 : ('.' :: T).count '@' = 0 := by
      rw [List.count_cons_of_ne (by decide)]; exact h3
    rw [List.count_append, List.count_cons_self, List.count_append, h1, h2, h4]
  · exact hL.1
  · have : (d :: D' ++ '.' :: T).drop 1 = D' ++ '.' :: T := by simp
    rw [this, List.dropLast_append_of_ne_nil _ (by simp), List.dropLast_cons_of_ne_nil hT.1]
    simp

theorem parts_of_emailRule (u : List Char) (h : emailRule (String.mk u) = true) :
    ∃ L D T, u = L ++ '@' :: (D ++ '.' :: T) ∧
      (L ≠ [] ∧ ∀ c ∈ L, notSpaceAt c = true) ∧
      (D ≠ [] ∧ ∀ c ∈ D, notSpaceAt c = true) ∧
      (T ≠ [] ∧ ∀ c ∈ T, notSpaceAt c = true) := by
  unfold emailRule at h
  simp only [Bool.and_eq_true, List.all_eq_true, beq_iff_eq,
    Bool.not_eq_true', List.isEmpty_eq_false, List.contains_iff_exists_mem_beq,
    exists_eq_right] at h
  obtain ⟨⟨⟨hws, hcount⟩, hbefore⟩, hdot⟩ := h
  obtain ⟨L, R, rfl, hL, hR⟩ := exists_split_of_count u hcount
  have hsp := split_at_sign L R hL
  rw [hsp.1] at hbefore
  rw [hsp.2] at hdot
  cases R with
  | nil => simp at hdot
  | cons a R1 =>
    have hR1 : R1 ≠ [] := by
      intro h0; subst h0; simp at hdot
    simp only [List.drop_succ_cons, List.drop_zero] at hdot
    have hmem : '.' ∈ R1.dropLast := by
      obtain ⟨x, hx, rfl⟩ := hdot
      exact hx
    obtain ⟨X, Y, hXY⟩ := List.append_of_mem hmem
    obtain ⟨z, hR1eq⟩ : ∃ z, R1 = X ++ '.' :: (Y ++ [z]) := by
      have := List.dropLast_append_getLast hR1
      rw [hXY] at this
      exact ⟨R1.getLast hR1, by simpa using this.symm⟩
    have hmemL : ∀ c ∈ L, c ∈ L ++ '@' :: a :: R1 := fun c hc => by simp [hc]
    have hmemR : ∀ c ∈ a :: R1, c ∈ L ++ '@' :: a :: R1 := fun c hc => by
      simp only [List.mem_append, List.mem_cons] at hc ⊢
      tauto
    have hRok : ∀ c ∈ a :: R1, notSpaceAt c = true := fun c hc =>
      (notSpaceAt_iff c).mpr ⟨hws c (hmemR c hc), hR c hc⟩
    refine ⟨L, a :: X, Y ++ [z], ?_, ⟨hbefore, ?_⟩, ⟨by simp, ?_⟩,
      ⟨by simp, ?_⟩⟩
    · rw [List.cons_append, ← hR1eq]
    · exact fun c hc => (notSpaceAt_iff c).mpr ⟨hws c (hmemL c hc), hL c hc⟩
    · intro c hc
      apply hRok
      rw [hR1eq]
      simp only [List.mem_cons, List.mem_append] at hc ⊢
      tauto
    · intro c hc
      apply hRok
      rw [hR1eq]
      simp only [List.mem_cons, List.mem_append] at hc ⊢
      tauto

theorem emailRegex_test_iff_rule (s : String) :
    emailRegex.test s = true ↔ emailRule s = true := by
  unfold Regex.test
  rw [Regex.rmatch_iff, emailRegex_matches_iff]
  constructor
  · rintro ⟨L, D, T, hs, hL, hD, hT⟩
    have : s = String.mk (L ++ '@' :: (D ++ '.' :: T)) := by
      rw [← hs]
    rw [this]
    exact emailRule_of_parts L D T hL hD hT
  · intro h
    exact parts_of_emailRule s.data h

/-! ## Validation lemmas -/

theorem truthy_some_iff (s : String) : truthy (some s) = true ↔ s ≠ "" := by
  simp [truthy]

theorem truthy_iff (x : Option String) :
    truthy x = false ↔ x = none ∨ x = some "" := by
  cases x with
  | none => simp [truthy]
  | some s => simp [truthy]

theorem missingRequired_iff (body : Payload) :
    missingRequired body = true ↔
      (body.name = none ∨ body.name = some "") ∨
      (body.address = none ∨ body.address = some "") ∨
      (body.city = none ∨ body.city = some "") ∨
      (body.state = none ∨ body.state = some "") ∨
      (body.contact = none ∨ body.contact = some "") ∨
      (body.email_id = none ∨ body.email_id = some "") := by
  simp only [missingRequired, Bool.or_eq_true, Bool.not_eq_true', truthy_iff]
  tauto

theorem phoneRegex_test_iff (s : String) :
    phoneRegex.test s = true ↔ s.data.length = 10 ∧ ∀ c ∈ s.data, isJsDigit c = true := by
  unfold Regex.test phoneRegex
  rw [Regex.rmatch_iff, Regex.matches_rep_cls_iff]

theorem emailRegex_test_empty : emailRegex.test "" = false := by decide

theorem phoneRegex_test_empty : phoneRegex.test "" = false := by decide

theorem POST_of_valid (now : Nat) (body : Payload) (rows : List School) (nextId : Nat)
    (hreq : missingRequired body = false)
    (hemail : emailRegex.test (strOf body.email_id) = true)
    (hphone : phoneRegex.test (strOf body.contact) = true) :
    Schools.POST now body (.up rows nextId) =
      if (rows.filter (fun r => r.email_id == strOf body.email_id)).length > 0 then
        ({ status := 409, error := some "A school with this email already exists" },
          .up rows nextId)
      else
        ({ status := 201, success := some true,
           message := some "School added successfully",
           school := some
             { id := nextId, name := strOf body.name, address := strOf body.address,
               city := strOf body.city, state := strOf body.state,
               contact := strOf body.contact, email_id := strOf body.email_id,
               image := orNull body.image } },
         .up (rows ++ [{ id := nextId, name := strOf body.name,
                         address := strOf body.address, city := strOf body.city,
                         state := strOf body.state, contact := strOf body.contact,
                         email_id := strOf body.email_id, image := orNull body.image,
                         created_at := now, updated_at := now }]) (nextId + 1)) := by
  simp [Schools.POST, hreq, hemail, hphone]

theorem filter_email_eq_nil (rows : List School) (email : String)
    (h : ∀ r ∈ rows, r.email_id ≠ email) :
    rows.filter (fun r => r.email_id == email) = [] := by
  rw [List.filter_eq_nil_iff]
  intro r hr
  simpa using h r hr

theorem filter_email_pos (rows : List School) (email : String)
    (h : ∃ r ∈ rows, r.email_id = email) :
    (rows.filter (fun r => r.email_id == email)).length > 0 := by
  obtain ⟨r, hr, he⟩ := h
  apply List.length_pos_of_mem (a := r)
  simp [List.mem_filter, hr, he]

theorem orNull_eq (image : Option String) :
    orNull image = if image = some "" then none else image := by
  cases image with
  | none => simp [orNull, truthy]
  | some s =>
    by_cases h : s = ""
    · simp [orNull, truthy, h]
    · simp [orNull, truthy, h]

/-! ## `parseInt` reads back the decimal text of an id -/

theorem digitChar_decimal (d : Nat) (h : d < 10) :
    isRadixDigit 10 (Nat.digitChar d) = true ∧
      digitValue (Nat.digitChar d) = some d ∧
      isJsWhitespace (Nat.digitChar d) = false ∧
      Nat.digitChar d ≠ '-' ∧ Nat.digitChar d ≠ '+' ∧
      (Nat.digitChar d = '0' → d = 0) := by
  interval_cases d <;> decide

theorem digitsValue_append_singleton (radix : Nat) (l : List Char) (c : Char) :
    digitsValue radix (l ++ [c]) = digitsValue radix l * radix + (digitValue c).getD 0 := by
  simp [digitsValue, List.foldl_append]

theorem toDigitsCore_decimal :
    ∀ (fuel n : Nat) (ds : List Char), n < fuel →
      ∃ l, Nat.toDigitsCore 10 fuel n ds = l ++ ds ∧ l ≠ [] ∧
        (∀ c ∈ l, isRadixDigit 10 c = true) ∧ digitsValue 10 l = n ∧
        (∀ c, l.head? = some c →
          isJsWhitespace c = false ∧ c ≠ '-' ∧ c ≠ '+' ∧ (c = '0' → l = ['0'])) := by
  intro fuel
  induction fuel with
  | zero => intro n ds h; omega
  | succ fuel ih =>
    intro n ds h
    have hd := digitChar_decimal (n % 10) (Nat.mod_lt n (by decide))
    by_cases h0 : n / 10 = 0
    · refine ⟨[Nat.digitChar (n % 10)], by simp [Nat.toDigitsCore, h0], by simp, ?_, ?_, ?_⟩
      · intro c hc
        simp only [List.mem_singleton] at hc
        subst hc
        exact hd.1
      · simp only [digitsValue, List.foldl_cons, List.foldl_nil, hd.2.1, Option.getD_some]
        omega
      · intro c hc
        simp only [List.head?_cons, Option.some.injEq] at hc
        subst hc
        exact ⟨hd.2.2.1, hd.2.2.2.1, hd.2.2.2.2.1, fun hz => by rw [hz]⟩
    · obtain ⟨l, hl, hne, hall, hval, hhead⟩ :=
        ih (n / 10) (Nat.digitChar (n % 10) :: ds) (by omega)
      refine ⟨l ++ [Nat.digitChar (n % 10)], ?_, by simp, ?_, ?_, ?_⟩
      · simp only [Nat.toDigitsCore, h0, if_false, hl, List.append_assoc,
          List.singleton_append]
      · intro c hc
        simp only [List.mem_append, List.mem_singleton] at hc
        rcases hc with hc | rfl
        · exact hall c hc
        · exact hd.1
      · rw [digitsValue_append_singleton, hval, hd.2.1]
        simp only [Option.getD_some]
        omega
      · intro c hc
        obtain ⟨x, t, rfl⟩ := List.exists_cons_of_ne_nil hne
        simp only [List.cons_append, List.head?_cons, Option.some.injEq] at hc
        subst hc
        obtain ⟨hw, hm, hp, hz⟩ := hhead x (by simp)
        refine ⟨hw, hm, hp, ?_⟩
        intro hx
        have hlz := hz hx
        rw [hlz] at hval
        have : digitsValue 10 ['0'] = 0 := by decide
        omega

theorem parseSign_of_digit (c : Char) (t : List Char) (hm : c ≠ '-') (hp : c ≠ '+') :
    parseSign (c :: t) = (false, c :: t) := by
  unfold parseSign
  split
  · rename_i heq
    simp only [List.cons.injEq] at heq
    exact (hm heq.1).elim
  · rename_i heq
    simp only [List.cons.injEq] at heq
    exact (hp heq.1).elim
  · rfl

theorem parseRadix_of_decimal (c : Char) (t : List Char)
    (h : c = '0' → t = []) : parseRadix (c :: t) = (10, c :: t) := by
  unfold parseRadix
  split
  · rename_i heq
    simp only [List.cons.injEq] at heq
    have := h heq.1
    rw [this] at heq
    exact absurd heq.2 (by simp)
  · rename_i heq
    simp only [List.cons.injEq] at heq
    have := h heq.1
    rw [this] at heq
    exact absurd heq.2 (by simp)
  · rfl

/-- The decimal text of a natural number, as in a URL built from a row id, is
parsed back to the number. -/
theorem parseInt_repr (n : Nat) : parseInt (Nat.repr n) = some (n : Int) := by
  obtain ⟨l, hl, hne, hall, hval, hhead⟩ := toDigitsCore_decimal (n + 1) n [] (by omega)
  obtain ⟨c, t, rfl⟩ := List.exists_cons_of_ne_nil hne
  obtain ⟨hw, hm, hp, hz⟩ := hhead c (by simp)
  have hdata : (Nat.repr n).data = c :: t := by
    simp only [Nat.repr, Nat.toDigits, List.asString, hl, List.append_nil]
  have hzero : c = '0' → t = [] := by
    intro hc
    have := hz hc
    simp only [List.cons.injEq] at this
    exact this.2
  have htake : (c :: t).takeWhile (isRadixDigit 10) = c :: t :=
    List.takeWhile_eq_self_iff.mpr hall
  unfold parseInt
  simp only [hdata]
  rw [List.dropWhile_cons_of_neg (by simp [hw])]
  simp only [parseSign_of_digit c t hm hp, parseRadix_of_decimal c t hzero, htake, hval]
  simp

/-! ## Create, then read back -/

theorem path_ne_empty_of_parseInt (path : String) (n : Int)
    (h : parseInt path = some n) : path ≠ "" := by
  rintro rfl
  have : parseInt "" = none := by decide
  rw [this] at h
  cases h

theorem filter_id_append_new (rows : List School) (row : School)
    (h : ∀ r ∈ rows, r.id < row.id) :
    (rows ++ [row]).filter (fun r => (r.id : Int) == (row.id : Int)) = [row] := by
  rw [List.filter_append]
  have h1 : rows.filter (fun r => (r.id : Int) == (row.id : Int)) = [] := by
    rw [List.filter_eq_nil_iff]
    intro r hr
    have := h r hr
    simp only [beq_iff_eq, Nat.cast_inj]
    omega
  rw [h1]
  simp

theorem GET_of_parsed (path : String) (n : Int) (rows : List School) (nextId : Nat)
    (h : parseInt path = some n) :
    SchoolById.GET (some path) (.up rows nextId) =
      match rows.filter (fun r => (r.id : Int) == n) with
      | [] => ({ status := 404, success := some false,
                 error := some "School not found" }, .up rows nextId)
      | school :: _ =>
        ({ status := 200, success := some true, data := some school }, .up rows nextId) := by
  have hne := path_ne_empty_of_parseInt path n h
  simp [SchoolById.GET, truthy, strOf, isNaN, h, hne]

/-- C1 (as amended). A valid create payload with a fresh email is answered 201
with `success: true` and a `school` object that carries the assigned id and the
submitted fields, the image being `null` when it is absent or the empty string;
exactly one row is appended, and reading the assigned id back, by its decimal
text or by any path text that `parseInt` reads as the id, returns 200 with that
row, whose two timestamps are equal. -/
theorem post_then_get_round_trip
    (now : Nat) (name address city state contact email : String)
    (image : Option String) (rows : List School) (nextId : Nat)
    (hwf : (Db.up rows nextId).WellFormed)
    (hname : name ≠ "") (haddress : address ≠ "") (hcity : city ≠ "")
    (hstate : state ≠ "")
    (hemail : emailRegex.test email = true)
    (hcontact : contact.data.length = 10 ∧ ∀ c ∈ contact.data, isJsDigit c = true)
    (hfresh : ∀ r ∈ rows, r.email_id ≠ email) :
    let body : Payload :=
      { name := some name, address := some address, city := some city,
        state := some state, contact := some contact, email_id := some email,
        image := image }
    let stored : Option String := if image = some "" then none else image
    let row : School :=
      { id := nextId, name := name, address := address, city := city, state := state,
        contact := contact, email_id := email, image := stored,
        created_at := now, updated_at := now }
    Schools.POST now body (.up rows nextId) =
        ({ status := 201, success := some true,
           message := some "School added successfully",
           school := some
             { id := nextId, name := name, address := address, city := city,
               state := state, contact := contact, email_id := email,
               image := stored } },
         .up (rows ++ [row]) (nextId + 1)) ∧
      (rows ++ [row]).length = rows.length + 1 ∧
      SchoolById.GET (some (Nat.repr nextId)) (Schools.POST now body (.up rows nextId)).2 =
        ({ status := 200, success := some true, data := some row },
         .up (rows ++ [row]) (nextId + 1)) ∧
      (∀ path : String, parseInt path = some (nextId : Int) →
        SchoolById.GET (some path) (Schools.POST now body (.up rows nextId)).2 =
          ({ status := 200, success := some true, data := some row },
           .up (rows ++ [row]) (nextId + 1))) ∧
      row.created_at = row.updated_at := by
  intro body stored row
  have hemail_ne : email ≠ "" := by
    rintro rfl
    rw [emailRegex_test_empty] at hemail
    cases hemail
  have hcontact_ne : contact ≠ "" := by
    rintro rfl
    simp at hcontact
  have hreq : missingRequired body = false := by
    simp [missingRequired, truthy, body, hname, haddress, hcity, hstate, hemail_ne,
      hcontact_ne]
  have hphone : phoneRegex.test (strOf body.contact) = true :=
    (phoneRegex_test_iff contact).mpr hcontact
  have hpost := POST_of_valid now body rows nextId hreq hemail hphone
  rw [filter_email_eq_nil rows (strOf body.email_id) hfresh] at hpost
  simp only [List.length_nil, gt_iff_lt, lt_self_iff_false, if_false, orNull_eq] at hpost
  have hpost' : Schools.POST now body (.up rows nextId) =
      ({ status := 201, success := some true,
         message := some "School added successfully",
         school := some
           { id := nextId, name := name, address := address, city := city,
             state := state, contact := contact, email_id := email,
             image := stored } },
       .up (rows ++ [row]) (nextId + 1)) := hpost
  have hget : ∀ path : String, parseInt path = some (nextId : Int) →
      SchoolById.GET (some path) (Schools.POST now body (.up rows nextId)).2 =
        ({ status := 200, success := some true, data := some row },
         .up (rows ++ [row]) (nextId + 1)) := by
    intro path hpath
    rw [hpost']
    show SchoolById.GET (some path) (.up (rows ++ [row]) (nextId + 1)) = _
    rw [GET_of_parsed path nextId (rows ++ [row]) (nextId + 1) hpath]
    have hlt : ∀ r ∈ rows, r.id < row.id := hwf.2
    have := filter_id_append_new rows row hlt
    simp only [row] at this ⊢
    rw [this]
  exact ⟨hpost', by simp, hget _ (parseInt_repr nextId), hget, rfl⟩

/-- Witness of C1: the contact `9876543210` is created and read back as is. -/
theorem post_then_get_round_trip_witness :
    Schools.POST 5
        { name := some "X", address := some "Y", city := some "Z", state := some "W",
          contact := some "9876543210", email_id := some "x@y.com", image := none }
        (.up [] 1) =
        ({ status := 201, success := some true,
           message := some "School added successfully",
           school := some
             { id := 1, name := "X", address := "Y", city := "Z", state := "W",
               contact := "9876543210", email_id := "x@y.com", image := none } },
         .up [{ id := 1, name := "X", address := "Y", city := "Z", state := "W",
                contact := "9876543210", email_id := "x@y.com", image := none,
                created_at := 5, updated_at := 5 }] 2) ∧
      SchoolById.GET (some "1")
          (Schools.POST 5
            { name := some "X", address := some "Y", city := some "Z", state := some "W",
              contact := some "9876543210", email_id := some "x@y.com", image := none }
            (.up [] 1)).2 =
        ({ status := 200, success := some true,
           data := some
             { id := 1, name := "X", address := "Y", city := "Z", state := "W",
               contact := "9876543210", email_id := "x@y.com", image := none,
               created_at := 5, updated_at := 5 } },
         .up [{ id := 1, name := "X", address := "Y", city := "Z", state := "W",
                contact := "9876543210", email_id := "x@y.com", image := none,
                created_at := 5, updated_at := 5 }] 2) :=
  have h := post_then_get_round_trip 5 "X" "Y" "Z" "W" "9876543210" "x@y.com" none [] 1
    ⟨by simp, by simp⟩ (by decide) (by decide) (by decide) (by decide) (by decide)
    (by decide) (by simp)
  ⟨h.1, h.2.2.2.1 "1" (by decide)⟩

/-- Counterexample to C1 as stated: a create payload whose image is the empty
string is answered 201 with a `school` object whose image is `null`, and the
row read back has a `null` image too, so neither carries the submitted image. -/
theorem post_empty_image_not_carried :
    (Schools.POST 5 { samplePayload with image := some "" } (.up [] 1)).1.status = 201 ∧
      Option.map SchoolBody.image
          (Schools.POST 5 { samplePayload with image := some "" } (.up [] 1)).1.school =
        some none ∧
      Option.map School.image
          (SchoolById.GET (some "1")
            (Schools.POST 5 { samplePayload with image := some "" } (.up [] 1)).2).1.data =
        some none := by
  decide

/-! ## Duplicate email on create -/

/-- C2. A create payload that passes validation and whose email belongs to a
row of the store is answered 409 with the duplicate-email error and the store
is left as it was; and a create that was answered 201 is answered 409 when it
is repeated, at whatever time. -/
theorem post_duplicate_email_conflict (now : Nat) (body : Payload)
    (rows : List School) (nextId : Nat)
    (hreq : missingRequired body = false)
    (hemail : emailRegex.test (strOf body.email_id) = true)
    (hphone : phoneRegex.test (strOf body.contact) = true) :
    ((∃ r ∈ rows, r.email_id = strOf body.email_id) →
      Schools.POST now body (.up rows nextId) =
        ({ status := 409, error := some "A school with this email already exists" },
         .up rows nextId) ∧
      (Schools.POST now body (.up rows nextId)).2.rows.length = rows.length) ∧
    ((Schools.POST now body (.up rows nextId)).1.status = 201 →
      ∀ later : Nat,
        Schools.POST later body (Schools.POST now body (.up rows nextId)).2 =
          ({ status := 409, error := some "A school with this email already exists" },
           (Schools.POST now body (.up rows nextId)).2)) := by
  have hpost := POST_of_valid now body rows nextId hreq hemail hphone
  constructor
  · intro hdup
    have hpos := filter_email_pos rows _ hdup
    rw [if_pos hpos] at hpost
    rw [hpost]
    exact ⟨rfl, rfl⟩
  · intro hstatus later
    by_cases hpos : (rows.filter (fun r => r.email_id == strOf body.email_id)).length > 0
    · rw [if_pos hpos] at hpost
      rw [hpost] at hstatus
      simp at hstatus
    · rw [if_neg hpos] at hpost
      rw [hpost]
      simp only
      rw [POST_of_valid later body _ (nextId + 1) hreq hemail hphone]
      rw [if_pos]
      apply filter_email_pos
      exact ⟨_, List.mem_append_right _ (List.mem_singleton_self _), rfl⟩

/-- Witness of C2: the sample payload is created, then refused as a duplicate. -/
theorem post_duplicate_email_conflict_witness :
    Schools.POST 9 samplePayload (.up [sampleRow] 2) =
        ({ status := 409, error := some "A school with this email already exists" },
         .up [sampleRow] 2) ∧
      Schools.POST 9 samplePayload (Schools.POST 5 samplePayload (.up [] 1)).2 =
        ({ status := 409, error := some "A school with this email already exists" },
         (Schools.POST 5 samplePayload (.up [] 1)).2) :=
  ⟨((post_duplicate_email_conflict 9 samplePayload [sampleRow] 2 (by decide) (by decide)
      (by decide)).1 ⟨sampleRow, by simp, by decide⟩).1,
   (post_duplicate_email_conflict 5 samplePayload [] 1 (by decide) (by decide)
      (by decide)).2 (by decide) 9⟩

/-! ## Required fields -/

theorem POST_of_missing (now : Nat) (body : Payload) (db : Db)
    (h : missingRequired body = true) :
    Schools.POST now body db =
      ({ status := 400, error := some "All required fields must be provided" }, db) := by
  simp [Schools.POST, h]

theorem PUT_of_missing (now : Nat) (id : Option String) (body : Payload) (db : Db)
    (h : (!truthy id || missingRequired body) = true) :
    SchoolById.PUT now id body db =
      ({ status := 400, success := some false,
         error := some "All fields and ID are required for update" }, db) := by
  simp only [SchoolById.PUT, h, if_true]

theorem POST_response_of_present (now : Nat) (body : Payload) (db : Db)
    (h : missingRequired body = false) :
    (Schools.POST now body db).1 ≠
      { status := 400, error := some "All required fields must be provided" } := by
  unfold Schools.POST
  simp only [h, Bool.false_eq_true, if_false]
  split
  · simp
  · split
    · simp
    · cases db with
      | down message => simp
      | up rows nextId =>
        simp only
        split
        · simp
        · simp

theorem PUT_response_of_present (now : Nat) (id : Option String) (body : Payload) (db : Db)
    (hid : truthy id = true) (h : missingRequired body = false) :
    (SchoolById.PUT now id body db).1 ≠
      { status := 400, success := some false,
        error := some "All fields and ID are required for update" } := by
  unfold SchoolById.PUT
  simp only [hid, h, Bool.not_true, Bool.or_self, Bool.false_eq_true, if_false]
  split
  · simp
  · split
    · simp
    · split
      · simp
      · split
        · split
          · simp
          · split
            · simp
            · simp
        · simp

/-- C3. When one of name, address, city, state, contact, email_id is missing
or is the empty string, POST and PUT answer 400 and leave the store as it was.
Conversely, when all six are non-empty strings the required-field guard does
not fire: POST does not answer with its required-field rejection, and neither
does PUT once the path id is non-empty (the same guard of PUT also rejects an
empty path id). -/
theorem required_fields_checked (now : Nat) (id : Option String) (body : Payload)
    (db : Db) :
    (((body.name = none ∨ body.name = some "") ∨
      (body.address = none ∨ body.address = some "") ∨
      (body.city = none ∨ body.city = some "") ∨
      (body.state = none ∨ body.state = some "") ∨
      (body.contact = none ∨ body.contact = some "") ∨
      (body.email_id = none ∨ body.email_id = some "")) →
      ((Schools.POST now body db).1.status = 400 ∧ (Schools.POST now body db).2 = db) ∧
      ((SchoolById.PUT now id body db).1.status = 400 ∧
        (SchoolById.PUT now id body db).2 = db)) ∧
    ((∃ name address city state contact email : String,
        body.name = some name ∧ name ≠ "" ∧ body.address = some address ∧ address ≠ "" ∧
        body.city = some city ∧ city ≠ "" ∧ body.state = some state ∧ state ≠ "" ∧
        body.contact = some contact ∧ contact ≠ "" ∧
        body.email_id = some email ∧ email ≠ "") →
      missingRequired body = false ∧
      (Schools.POST now body db).1 ≠
        { status := 400, error := some "All required fields must be provided" } ∧
      (truthy id = true →
        (SchoolById.PUT now id body db).1 ≠
          { status := 400, success := some false,
            error := some "All fields and ID are required for update" })) := by
  constructor
  · intro h
    have hm := (missingRequired_iff body).mpr h
    rw [POST_of_missing now body db hm, PUT_of_missing now id body db (by simp [hm])]
    exact ⟨⟨rfl, rfl⟩, rfl, rfl⟩
  · rintro ⟨name, address, city, state, contact, email, h1, h1', h2, h2', h3, h3', h4,
      h4', h5, h5', h6, h6'⟩
    have hm : missingRequired body = false := by
      simp [missingRequired, truthy, h1, h1', h2, h2', h3, h3', h4, h4', h5, h5', h6, h6']
    exact ⟨hm, POST_response_of_present now body db hm,
      fun hid => PUT_response_of_present now id body db hid hm⟩

/-- Witness of C3: a create and an update without a city are answered 400,
while the complete sample payload passes the required-field guard. -/
theorem required_fields_checked_witness :
    (((Schools.POST 5 { samplePayload with city := none } (.up [sampleRow] 2)).1.status = 400 ∧
        (Schools.POST 5 { samplePayload with city := none } (.up [sampleRow] 2)).2 =
          .up [sampleRow] 2) ∧
      ((SchoolById.PUT 5 (some "1") { samplePayload with city := none }
          (.up [sampleRow] 2)).1.status = 400 ∧
        (SchoolById.PUT 5 (some "1") { samplePayload with city := none } (.up [sampleRow] 2)).2 =
          .up [sampleRow] 2)) ∧
    (missingRequired samplePayload = false ∧
      (Schools.POST 5 samplePayload (.up [sampleRow] 2)).1 ≠
        { status := 400, error := some "All required fields must be provided" } ∧
      (SchoolById.PUT 5 (some "1") samplePayload (.up [sampleRow] 2)).1 ≠
        { status := 400, success := some false,
          error := some "All fields and ID are required for update" }) :=
  ⟨(required_fields_checked 5 (some "1") { samplePayload with city := none }
      (.up [sampleRow] 2)).1 (by decide),
   have h := (required_fields_checked 5 (some "1") samplePayload (.up [sampleRow] 2)).2
     ⟨"X", "Y", "Z", "W", "1234567890", "x@y.com", rfl, by decide, rfl, by decide, rfl,
       by decide, rfl, by decide, rfl, by decide, rfl, by decide⟩
   ⟨h.1, h.2.1, h.2.2 (by decide)⟩⟩

/-! ## The email check -/

theorem POST_of_bad_email (now : Nat) (body : Payload) (db : Db)
    (h : emailRegex.test (strOf body.email_id) = false) :
    (Schools.POST now body db).1.status = 400 ∧ (Schools.POST now body db).2 = db := by
  unfold Schools.POST
  split
  · exact ⟨rfl, rfl⟩
  · simp [h]

theorem PUT_of_bad_email (now : Nat) (id : Option String) (body : Payload) (db : Db)
    (h : emailRegex.test (strOf body.email_id) = false) :
    (SchoolById.PUT now id body db).1.status = 400 ∧ (SchoolById.PUT now id body db).2 = db := by
  unfold SchoolById.PUT
  split
  · exact ⟨rfl, rfl⟩
  · split
    · exact ⟨rfl, rfl⟩
    · simp [h]

/-- C4. The email pattern of POST and PUT accepts a string exactly when the
string has no white space, has exactly one `@`, has a non-empty part before
the `@`, and has in the part after the `@` a `.` that is neither its first nor
its last character; a request whose email is any other string is answered 400
by both handlers, the store being left as it was. -/
theorem email_check_characterised (s : String) :
    (emailRegex.test s = true ↔ emailRule s = true) ∧
    (emailRule s = false →
      ∀ (now : Nat) (id : Option String) (body : Payload) (db : Db),
        body.email_id = some s →
        ((Schools.POST now body db).1.status = 400 ∧ (Schools.POST now body db).2 = db) ∧
        ((SchoolById.PUT now id body db).1.status = 400 ∧
          (SchoolById.PUT now id body db).2 = db)) := by
  refine ⟨emailRegex_test_iff_rule s, ?_⟩
  intro hrule now id body db hbody
  have htest : emailRegex.test (strOf body.email_id) = false := by
    rw [hbody]
    show emailRegex.test s = false
    cases ht : emailRegex.test s with
    | false => rfl
    | true =>
      rw [(emailRegex_test_iff_rule s).mp ht] at hrule
      cases hrule
  exact ⟨POST_of_bad_email now body db htest, PUT_of_bad_email now id body db htest⟩

/-- Witness of C4: `x@y` has no `.` after the `@` and is refused with 400. -/
theorem email_check_characterised_witness :
    emailRule "x@y" = false ∧
      ((Schools.POST 5 { samplePayload with email_id := some "x@y" } (.up [sampleRow] 2)).1.status
          = 400 ∧
        (Schools.POST 5 { samplePayload with email_id := some "x@y" } (.up [sampleRow] 2)).2 =
          .up [sampleRow] 2) ∧
      ((SchoolById.PUT 5 (some "1") { samplePayload with email_id := some "x@y" }
          (.up [sampleRow] 2)).1.status = 400 ∧
        (SchoolById.PUT 5 (some "1") { samplePayload with email_id := some "x@y" }
          (.up [sampleRow] 2)).2 = .up [sampleRow] 2) :=
  ⟨by decide,
   (email_check_characterised "x@y").2 (by decide) 5 (some "1")
     { samplePayload with email_id := some "x@y" } (.up [sampleRow] 2) rfl⟩

/-! ## The contact check -/

theorem all_digits_stripNonDigits (s : String) :
    ∀ c ∈ (stripNonDigits s).data, isJsDigit c = true := by
  intro c hc
  simp only [stripNonDigits, List.mem_filter] at hc
  exact hc.2

theorem phoneRegex_test_strip_iff (s : String) :
    phoneRegex.test (stripNonDigits s) = true ↔ (stripNonDigits s).length = 10 := by
  rw [phoneRegex_test_iff]
  constructor
  · intro h; exact h.1
  · intro h; exact ⟨h, all_digits_stripNonDigits s⟩

theorem stripNonDigits_of_digits (s : String) (h : ∀ c ∈ s.data, isJsDigit c = true) :
    stripNonDigits s = s := by
  unfold stripNonDigits
  rw [List.filter_eq_self.mpr h]

theorem PUT_of_valid (now : Nat) (idText : String) (n : Int) (body : Payload)
    (rows : List School) (nextId : Nat)
    (hid : parseInt idText = some n)
    (hreq : missingRequired body = false)
    (hemail : emailRegex.test (strOf body.email_id) = true)
    (hphone : phoneRegex.test (stripNonDigits (strOf body.contact)) = true) :
    SchoolById.PUT now (some idText) body (.up rows nextId) =
      if (rows.filter (fun r => (r.id : Int) == n)).length = 0 then
        ({ status := 404, success := some false, error := some "School not found" },
         .up rows nextId)
      else if (rows.filter
          (fun r => r.email_id == strOf body.email_id && (r.id : Int) != n)).length > 0 then
        ({ status := 409, success := some false,
           error := some "A school with this email already exists" }, .up rows nextId)
      else
        ({ status := 200, success := some true,
           message := some "School updated successfully" },
         .up (rows.map (updateRow now n body (stripNonDigits (strOf body.contact))))
           nextId) := by
  have hne := path_ne_empty_of_parseInt idText n hid
  have ht : truthy (some idText) = true := (truthy_some_iff idText).mpr hne
  have hs : strOf (some idText) = idText := rfl
  simp [SchoolById.PUT, ht, hs, isNaN, hid, hreq, hemail, hphone]

theorem POST_of_invalid (body : Payload) (h : postInvalid body = true) :
    ∃ resp : Response, resp.status = 400 ∧
      ∀ (now : Nat) (db : Db), Schools.POST now body db = (resp, db) := by
  unfold postInvalid at h
  by_cases h1 : missingRequired body = true
  · exact ⟨{ status := 400, error := some "All required fields must be provided" }, rfl,
      fun now db => by simp [Schools.POST, h1]⟩
  · by_cases h2 : emailRegex.test (strOf body.email_id) = true
    · have h3 : phoneRegex.test (strOf body.contact) = false := by
        simpa [h1, h2] using h
      exact ⟨{ status := 400, error := some "Contact must be a valid 10-digit number" },
        rfl, fun now db => by simp [Schools.POST, h1, h2, h3]⟩
    · exact ⟨{ status := 400, error := some "Invalid email address" }, rfl,
        fun now db => by simp [Schools.POST, h1, h2]⟩

theorem PUT_of_invalid (id : Option String) (body : Payload)
    (h : putInvalid id body = true) :
    ∃ resp : Response, resp.status = 400 ∧
      ∀ (now : Nat) (db : Db), SchoolById.PUT now id body db = (resp, db) := by
  unfold putInvalid at h
  by_cases h1 : (!truthy id || missingRequired body) = true
  · exact ⟨{ status := 400, success := some false,
             error := some "All fields and ID are required for update" }, rfl,
      fun now db => by simp only [SchoolById.PUT, h1, if_true]⟩
  · by_cases h2 : isNaN (parseInt (strOf id)) = true
    · exact ⟨{ status := 400, success := some false,
               error := some "Valid school ID is required" }, rfl,
        fun now db => by
          simp only [SchoolById.PUT, h1, h2, if_true, if_false, Bool.false_eq_true]⟩
    · by_cases h3 : emailRegex.test (strOf body.email_id) = true
      · have h4 : phoneRegex.test (stripNonDigits (strOf body.contact)) = false := by
          simp only [Bool.or_eq_true, Bool.not_eq_true'] at h h1
          simp only [Bool.not_eq_true] at h2
          rcases h with (((h | h) | h) | h) | h
          · exact (h1 (Or.inl h)).elim
          · exact (h1 (Or.inr h)).elim
          · rw [h2] at h; cases h
          · rw [h3] at h; cases h
          · exact h
        exact ⟨{ status := 400, success := some false,
                 error := some "Contact number must be a valid 10-digit number" }, rfl,
          fun now db => by
            simp only [SchoolById.PUT, h1, h2, h3, h4, if_false, Bool.not_true, Bool.not_false,
              if_true, Bool.false_eq_true]⟩
      · exact ⟨{ status := 400, success := some false,
                 error := some "Invalid email address format" }, rfl,
          fun now db => by
            have h3' : emailRegex.test (strOf body.email_id) = false := by simpa using h3
            simp only [SchoolById.PUT, h1, h2, h3', if_false, Bool.not_false, if_true,
              Bool.false_eq_true]⟩

theorem putInvalid_eq_false (id : Option String) (body : Payload)
    (h : putInvalid id body = false) :
    ∃ idText n, id = some idText ∧ parseInt idText = some n ∧
      missingRequired body = false ∧
      emailRegex.test (strOf body.email_id) = true ∧
      phoneRegex.test (stripNonDigits (strOf body.contact)) = true := by
  simp only [putInvalid, Bool.or_eq_false_iff, Bool.not_eq_false'] at h
  obtain ⟨⟨⟨⟨h1, h2⟩, h3⟩, h4⟩, h5⟩ := h
  cases id with
  | none => simp [truthy] at h1
  | some idText =>
    cases hp : parseInt idText with
    | none => simp [isNaN, strOf, hp] at h3
    | some n => exact ⟨idText, n, rfl, hp, h2, h4, h5⟩


theorem PUT_down_of_valid (now : Nat) (id : Option String) (body : Payload)
    (message : String) (h : putInvalid id body = false) :
    SchoolById.PUT now id body (.down message) =
      ({ status := 500, success := some false, error := some "Failed to update school" },
       .down message) := by
  obtain ⟨idText, n, rfl, hid, hreq, hemail, hphone⟩ := putInvalid_eq_false id body h
  have hne := path_ne_empty_of_parseInt idText n hid
  have ht : truthy (some idText) = true := (truthy_some_iff idText).mpr hne
  have hs : strOf (some idText) = idText := rfl
  simp [SchoolById.PUT, ht, hs, isNaN, hid, hreq, hemail, hphone]

theorem updateRow_id (now : Nat) (n : Int) (body : Payload) (cleanPhone : String)
    (r : School) : (updateRow now n body cleanPhone r).id = r.id := by
  unfold updateRow
  split <;> rfl

theorem PUT_status_200 (now : Nat) (id : Option String) (body : Payload) (db : Db)
    (h : (SchoolById.PUT now id body db).1.status = 200) :
    ∃ idText n rows nextId, id = some idText ∧ parseInt idText = some n ∧
      db = .up rows nextId ∧ putInvalid id body = false ∧
      (∃ r ∈ rows, (r.id : Int) = n) ∧
      (∀ r ∈ rows, r.email_id = strOf body.email_id → (r.id : Int) = n) ∧
      SchoolById.PUT now id body db =
        ({ status := 200, success := some true,
           message := some "School updated successfully" },
         .up (rows.map (updateRow now n body (stripNonDigits (strOf body.contact))))
           nextId) := by
  cases hinv : putInvalid id body with
  | true =>
    obtain ⟨resp, hresp, hall⟩ := PUT_of_invalid id body hinv
    rw [hall now db] at h
    simp only at h
    rw [hresp] at h
    cases h
  | false =>
    cases db with
    | down message =>
      rw [PUT_down_of_valid now id body message hinv] at h
      cases h
    | up rows nextId =>
      obtain ⟨idText, n, rfl, hid, hreq, hemail, hphone⟩ := putInvalid_eq_false id body hinv
      have hput := PUT_of_valid now idText n body rows nextId hid hreq hemail hphone
      rw [hput] at h ⊢
      by_cases h1 : (rows.filter (fun r => (r.id : Int) == n)).length = 0
      · rw [if_pos h1] at h; cases h
      · rw [if_neg h1] at h ⊢
        by_cases h2 : (rows.filter
            (fun r => r.email_id == strOf body.email_id && (r.id : Int) != n)).length > 0
        · rw [if_pos h2] at h; cases h
        · rw [if_neg h2]
          refine ⟨idText, n, rows, nextId, rfl, hid, rfl, rfl, ?_, ?_, rfl⟩
          · obtain ⟨r, hr⟩ := List.exists_mem_of_length_pos (Nat.pos_of_ne_zero h1)
            simp only [List.mem_filter, beq_iff_eq] at hr
            exact ⟨r, hr.1, hr.2⟩
          · intro r hr he
            by_contra hne
            apply h2
            apply List.length_pos_of_mem (a := r)
            simp [List.mem_filter, hr, he, hne]

/-- C5. PUT accepts the contact exactly when deleting its non-digit characters
leaves 10 characters: otherwise it answers 400 and leaves the store as it was;
when the path id, the required fields and the email pass their checks, 400 is
answered only in that case; and after an update answered 200 the row of the
given id holds the 10-digit string, whatever text was submitted. -/
theorem put_contact_check (now : Nat) (id : Option String) (body : Payload) (db : Db) :
    ((stripNonDigits (strOf body.contact)).length ≠ 10 →
      (SchoolById.PUT now id body db).1.status = 400 ∧ (SchoolById.PUT now id body db).2 = db) ∧
    (truthy id = true → missingRequired body = false →
      isNaN (parseInt (strOf id)) = false →
      emailRegex.test (strOf body.email_id) = true →
      ((SchoolById.PUT now id body db).1.status = 400 ↔
        (stripNonDigits (strOf body.contact)).length ≠ 10)) ∧
    ((SchoolById.PUT now id body db).1.status = 200 →
      (stripNonDigits (strOf body.contact)).length = 10 ∧
      ∃ n, parseInt (strOf id) = some n ∧
        (∃ r ∈ (SchoolById.PUT now id body db).2.rows, (r.id : Int) = n) ∧
        ∀ r ∈ (SchoolById.PUT now id body db).2.rows, (r.id : Int) = n →
          r.contact = stripNonDigits (strOf body.contact)) := by
  have hbad : (stripNonDigits (strOf body.contact)).length ≠ 10 →
      (SchoolById.PUT now id body db).1.status = 400 ∧
        (SchoolById.PUT now id body db).2 = db := by
    intro hlen
    have hphone : phoneRegex.test (stripNonDigits (strOf body.contact)) = false := by
      cases ht : phoneRegex.test (stripNonDigits (strOf body.contact)) with
      | false => rfl
      | true => exact (hlen ((phoneRegex_test_strip_iff _).mp ht)).elim
    obtain ⟨resp, hresp, hall⟩ := PUT_of_invalid id body (by simp [putInvalid, hphone])
    rw [hall now db]
    exact ⟨hresp, rfl⟩
  refine ⟨hbad, ?_, ?_⟩
  · intro hid hreq hnan hemail
    constructor
    · intro hstatus hlen
      have hphone : phoneRegex.test (stripNonDigits (strOf body.contact)) = true :=
        (phoneRegex_test_strip_iff _).mpr hlen
      have hinv : putInvalid id body = false := by
        simp [putInvalid, hid, hreq, hnan, hemail, hphone]
      obtain ⟨idText, n, rfl, hparse, -, -, -⟩ := putInvalid_eq_false id body hinv
      cases db with
      | down message =>
        rw [PUT_down_of_valid now _ body message hinv] at hstatus
        cases hstatus
      | up rows nextId =>
        rw [PUT_of_valid now idText n body rows nextId hparse hreq hemail hphone] at hstatus
        split at hstatus
        · cases hstatus
        · split at hstatus
          · cases hstatus
          · cases hstatus
    · intro hlen
      exact (hbad hlen).1
  · intro hstatus
    obtain ⟨idText, n, rows, nextId, rfl, hparse, rfl, hinv, hex, -, hput⟩ :=
      PUT_status_200 now id body db hstatus
    obtain ⟨-, -, -, -, -, -, hphone⟩ := putInvalid_eq_false _ body hinv
    refine ⟨(phoneRegex_test_strip_iff _).mp hphone, n, hparse, ?_, ?_⟩
    · obtain ⟨r, hr, hrn⟩ := hex
      rw [hput]
      refine ⟨updateRow now n body (stripNonDigits (strOf body.contact)) r,
        List.mem_map_of_mem _ hr, ?_⟩
      rw [updateRow_id]
      exact hrn
    · rw [hput]
      intro r' hr' hn
      simp only [Db.rows, List.mem_map] at hr'
      obtain ⟨r, -, rfl⟩ := hr'
      rw [updateRow_id] at hn
      simp [updateRow, hn]

/-- Witness of C5: `12345-67890` is accepted and stored as `1234567890`, while
`12345` is refused with 400. -/
theorem put_contact_check_witness :
    ((SchoolById.PUT 9 (some "1") { samplePayload with contact := some "12345" }
        (.up [sampleRow] 2)).1.status = 400 ∧
      (SchoolById.PUT 9 (some "1") { samplePayload with contact := some "12345" }
        (.up [sampleRow] 2)).2 = .up [sampleRow] 2) ∧
    ((stripNonDigits "12345-67890").length = 10 ∧
      ∃ n, parseInt "1" = some n ∧
        (∃ r ∈ (SchoolById.PUT 9 (some "1") { samplePayload with contact := some "12345-67890" }
            (.up [sampleRow] 2)).2.rows, (r.id : Int) = n) ∧
        ∀ r ∈ (SchoolById.PUT 9 (some "1") { samplePayload with contact := some "12345-67890" }
            (.up [sampleRow] 2)).2.rows, (r.id : Int) = n →
          r.contact = stripNonDigits "12345-67890") :=
  ⟨(put_contact_check 9 (some "1") { samplePayload with contact := some "12345" }
      (.up [sampleRow] 2)).1 (by decide),
   (put_contact_check 9 (some "1") { samplePayload with contact := some "12345-67890" }
      (.up [sampleRow] 2)).2.2 (by decide)⟩

/-- Counterexample to C6 as stated: POST refuses a 7-digit and a 15-digit
contact with 400 although both lie between 7 and 15 digits, and it refuses
`12345-67890`, which PUT accepts, so its check is not the looser one. -/
theorem post_refuses_seven_digits :
    (Schools.POST 5 { samplePayload with contact := some "1234567" } (.up [] 1)).1 =
        { status := 400, error := some "Contact must be a valid 10-digit number" } ∧
      (Schools.POST 5 { samplePayload with contact := some "123456789012345" } (.up [] 1)).1 =
        { status := 400, error := some "Contact must be a valid 10-digit number" } ∧
      (Schools.POST 5 { samplePayload with contact := some "12345-67890" } (.up [] 1)).1.status
        = 400 ∧
      (SchoolById.PUT 9 (some "1") { samplePayload with contact := some "12345-67890" }
        (.up [sampleRow] 2)).1.status = 200 := by
  decide

/-- C6 (as amended). The create path's phone check is stricter than the update
path's: POST accepts a contact exactly when it is a string of exactly 10
digits. Any other contact is answered 400 with the store left as it was; when
the required fields and the email pass, 400 is answered only in that case; and
every contact the check of POST accepts is accepted by the check of PUT. -/
theorem post_contact_check (now : Nat) (body : Payload) (db : Db) :
    (¬ ((strOf body.contact).length = 10 ∧
        ∀ c ∈ (strOf body.contact).data, isJsDigit c = true) →
      (Schools.POST now body db).1.status = 400 ∧ (Schools.POST now body db).2 = db) ∧
    (missingRequired body = false → emailRegex.test (strOf body.email_id) = true →
      ((Schools.POST now body db).1.status = 400 ↔
        ¬ ((strOf body.contact).length = 10 ∧
          ∀ c ∈ (strOf body.contact).data, isJsDigit c = true))) ∧
    (phoneRegex.test (strOf body.contact) = true →
      phoneRegex.test (stripNonDigits (strOf body.contact)) = true) := by
  have hbad : ¬ ((strOf body.contact).length = 10 ∧
        ∀ c ∈ (strOf body.contact).data, isJsDigit c = true) →
      (Schools.POST now body db).1.status = 400 ∧ (Schools.POST now body db).2 = db := by
    intro hnot
    have hphone : phoneRegex.test (strOf body.contact) = false := by
      cases ht : phoneRegex.test (strOf body.contact) with
      | false => rfl
      | true => exact (hnot ((phoneRegex_test_iff _).mp ht)).elim
    obtain ⟨resp, hresp, hall⟩ := POST_of_invalid body (by simp [postInvalid, hphone])
    rw [hall now db]
    exact ⟨hresp, rfl⟩
  refine ⟨hbad, ?_, ?_⟩
  · intro hreq hemail
    constructor
    · intro hstatus hgood
      have hphone : phoneRegex.test (strOf body.contact) = true :=
        (phoneRegex_test_iff _).mpr hgood
      cases db with
      | down message =>
        simp [Schools.POST, hreq, hemail, hphone] at hstatus
      | up rows nextId =>
        rw [POST_of_valid now body rows nextId hreq hemail hphone] at hstatus
        split at hstatus
        · cases hstatus
        · cases hstatus
    · intro hnot
      exact (hbad hnot).1
  · intro hphone
    have h := (phoneRegex_test_iff _).mp hphone
    rw [stripNonDigits_of_digits _ h.2]
    exact hphone

/-- Witness of C6 as amended: an 11-digit contact is refused by POST, and the
10-digit contact of the sample payload passes both checks. -/
theorem post_contact_check_witness :
    ((Schools.POST 5 { samplePayload with contact := some "12345678901" }
        (.up [sampleRow] 2)).1.status = 400 ∧
      (Schools.POST 5 { samplePayload with contact := some "12345678901" }
        (.up [sampleRow] 2)).2 = .up [sampleRow] 2) ∧
    phoneRegex.test (stripNonDigits "1234567890") = true :=
  ⟨(post_contact_check 5 { samplePayload with contact := some "12345678901" }
      (.up [sampleRow] 2)).1 (by decide),
   (post_contact_check 5 samplePayload (.up [sampleRow] 2)).2.2 (by decide)⟩

/-! ## Validation precedes every query -/

/-- C7. A create or update that fails the required-field, email, phone or
identifier check is answered 400 before any query is sent: the response is
the same for every two stores, up or down, and at every two times, and the
store is left as it was. -/
theorem validation_before_store (now₁ now₂ : Nat) (id : Option String)
    (body : Payload) (db₁ db₂ : Db) :
    ((missingRequired body = true ∨ emailRegex.test (strOf body.email_id) = false ∨
        phoneRegex.test (strOf body.contact) = false) →
      (Schools.POST now₁ body db₁).1.status = 400 ∧
      (Schools.POST now₁ body db₁).1 = (Schools.POST now₂ body db₂).1 ∧
      (Schools.POST now₁ body db₁).2 = db₁) ∧
    ((truthy id = false ∨ missingRequired body = true ∨
        isNaN (parseInt (strOf id)) = true ∨
        emailRegex.test (strOf body.email_id) = false ∨
        phoneRegex.test (stripNonDigits (strOf body.contact)) = false) →
      (SchoolById.PUT now₁ id body db₁).1.status = 400 ∧
      (SchoolById.PUT now₁ id body db₁).1 = (SchoolById.PUT now₂ id body db₂).1 ∧
      (SchoolById.PUT now₁ id body db₁).2 = db₁) := by
  constructor
  · intro h
    have hinv : postInvalid body = true := by
      simp only [postInvalid, Bool.or_eq_true, Bool.not_eq_true']
      tauto
    obtain ⟨resp, hresp, hall⟩ := POST_of_invalid body hinv
    rw [hall now₁ db₁, hall now₂ db₂]
    exact ⟨hresp, rfl, rfl⟩
  · intro h
    have hinv : putInvalid id body = true := by
      simp only [putInvalid, Bool.or_eq_true, Bool.not_eq_true']
      tauto
    obtain ⟨resp, hresp, hall⟩ := PUT_of_invalid id body hinv
    rw [hall now₁ db₁, hall now₂ db₂]
    exact ⟨hresp, rfl, rfl⟩

/-- Witness of C7: an update with the path id `abc` gets the same 400 from a
store that is up and from one that is down. -/
theorem validation_before_store_witness :
    ((Schools.POST 5 { samplePayload with email_id := some "x y@z.w" } (.up [sampleRow] 2)).1.status
        = 400 ∧
      (Schools.POST 5 { samplePayload with email_id := some "x y@z.w" } (.up [sampleRow] 2)).1 =
        (Schools.POST 9 { samplePayload with email_id := some "x y@z.w" }
          (.down "connect ETIMEDOUT")).1 ∧
      (Schools.POST 5 { samplePayload with email_id := some "x y@z.w" } (.up [sampleRow] 2)).2 =
        .up [sampleRow] 2) ∧
    ((SchoolById.PUT 5 (some "abc") samplePayload (.up [sampleRow] 2)).1.status = 400 ∧
      (SchoolById.PUT 5 (some "abc") samplePayload (.up [sampleRow] 2)).1 =
        (SchoolById.PUT 9 (some "abc") samplePayload (.down "connect ETIMEDOUT")).1 ∧
      (SchoolById.PUT 5 (some "abc") samplePayload (.up [sampleRow] 2)).2 = .up [sampleRow] 2) :=
  ⟨(validation_before_store 5 9 none { samplePayload with email_id := some "x y@z.w" }
      (.up [sampleRow] 2) (.down "connect ETIMEDOUT")).1 (Or.inr (Or.inl (by decide))),
   (validation_before_store 5 9 (some "abc") samplePayload (.up [sampleRow] 2)
      (.down "connect ETIMEDOUT")).2 (Or.inr (Or.inr (Or.inl (by decide))))⟩

/-! ## Update: unknown id, duplicate email, full replace -/

/-- C8. An update whose payload passes validation and whose id matches no row
is answered 404 with `School not found`, and the store is left as it was. -/
theorem put_unknown_id_not_found (now : Nat) (idText : String) (n : Int)
    (body : Payload) (rows : List School) (nextId : Nat)
    (hid : parseInt idText = some n)
    (hreq : missingRequired body = false)
    (hemail : emailRegex.test (strOf body.email_id) = true)
    (hphone : phoneRegex.test (stripNonDigits (strOf body.contact)) = true)
    (hnone : ∀ r ∈ rows, (r.id : Int) ≠ n) :
    SchoolById.PUT now (some idText) body (.up rows nextId) =
      ({ status := 404, success := some false, error := some "School not found" },
       .up rows nextId) := by
  rw [PUT_of_valid now idText n body rows nextId hid hreq hemail hphone]
  have hfilter : rows.filter (fun r => (r.id : Int) == n) = [] := by
    rw [List.filter_eq_nil_iff]
    intro r hr
    simpa using hnone r hr
  rw [hfilter]
  rfl

/-- Witness of C8: an update of id 7 in a table that holds only id 1. -/
theorem put_unknown_id_not_found_witness :
    SchoolById.PUT 9 (some "7") samplePayload (.up [sampleRow] 2) =
      ({ status := 404, success := some false, error := some "School not found" },
       .up [sampleRow] 2) :=
  put_unknown_id_not_found 9 "7" 7 samplePayload [sampleRow] 2 (by decide) (by decide)
    (by decide) (by decide) (by decide)

/-- C9. For an update whose payload passes validation and whose id matches a
row, the answer is 409 exactly when a row with a different id has the
submitted email, and then the store is left as it was; when the emails of the
store are pairwise distinct, resubmitting the email of the target row is not a
conflict and the update is answered 200. -/
theorem put_conflict_iff (now : Nat) (idText : String) (n : Int)
    (body : Payload) (rows : List School) (nextId : Nat)
    (hid : parseInt idText = some n)
    (hreq : missingRequired body = false)
    (hemail : emailRegex.test (strOf body.email_id) = true)
    (hphone : phoneRegex.test (stripNonDigits (strOf body.contact)) = true)
    (hrow : ∃ r ∈ rows, (r.id : Int) = n) :
    ((SchoolById.PUT now (some idText) body (.up rows nextId)).1.status = 409 ↔
      ∃ r ∈ rows, (r.id : Int) ≠ n ∧ r.email_id = strOf body.email_id) ∧
    ((SchoolById.PUT now (some idText) body (.up rows nextId)).1.status = 409 →
      SchoolById.PUT now (some idText) body (.up rows nextId) =
        ({ status := 409, success := some false,
           error := some "A school with this email already exists" }, .up rows nextId)) ∧
    (EmailsUnique rows →
      (∃ r ∈ rows, (r.id : Int) = n ∧ r.email_id = strOf body.email_id) →
      (SchoolById.PUT now (some idText) body (.up rows nextId)).1.status = 200) := by
  have hput := PUT_of_valid now idText n body rows nextId hid hreq hemail hphone
  have h1 : ¬ (rows.filter (fun r => (r.id : Int) == n)).length = 0 := by
    obtain ⟨r, hr, hrn⟩ := hrow
    apply Nat.ne_of_gt
    apply List.length_pos_of_mem (a := r)
    simp [List.mem_filter, hr, hrn]
  rw [if_neg h1] at hput
  have hdup : (rows.filter
        (fun r => r.email_id == strOf body.email_id && (r.id : Int) != n)).length > 0 ↔
      ∃ r ∈ rows, (r.id : Int) ≠ n ∧ r.email_id = strOf body.email_id := by
    constructor
    · intro h
      obtain ⟨r, hr⟩ := List.exists_mem_of_length_pos h
      simp only [List.mem_filter, Bool.and_eq_true, beq_iff_eq, bne_iff_ne] at hr
      exact ⟨r, hr.1, hr.2.2, hr.2.1⟩
    · rintro ⟨r, hr, hne, he⟩
      apply List.length_pos_of_mem (a := r)
      simp [List.mem_filter, hr, he, hne]
  refine ⟨?_, ?_, ?_⟩
  · rw [hput, ← hdup]
    constructor
    · intro h
      by_contra hn
      rw [if_neg hn] at h
      cases h
    · intro h
      rw [if_pos h]
  · intro h
    rw [hput] at h ⊢
    by_cases hd : (rows.filter
        (fun r => r.email_id == strOf body.email_id && (r.id : Int) != n)).length > 0
    · rw [if_pos hd]
    · rw [if_neg hd] at h
      cases h
  · intro huniq hown
    rw [hput]
    have hno : ¬ (rows.filter
        (fun r => r.email_id == strOf body.email_id && (r.id : Int) != n)).length > 0 := by
      rw [hdup]
      rintro ⟨r, hr, hne, he⟩
      obtain ⟨t, ht, htn, hte⟩ := hown
      have := List.inj_on_of_nodup_map huniq hr ht (he.trans hte.symm)
      subst this
      exact hne htn
    rw [if_neg hno]

/-- Witness of C9: resubmitting the email of row 1 to row 1 is answered 200,
while it conflicts when another row holds that email. -/
theorem put_conflict_iff_witness :
    ((SchoolById.PUT 9 (some "2") samplePayload
        (.up [sampleRow, { sampleRow with id := 2, email_id := "a@b.c" }] 3)).1.status
        = 409 ↔
      ∃ r ∈ [sampleRow, { sampleRow with id := 2, email_id := "a@b.c" }],
        (r.id : Int) ≠ 2 ∧ r.email_id = strOf samplePayload.email_id) ∧
    (SchoolById.PUT 9 (some "1") samplePayload (.up [sampleRow] 2)).1.status = 200 :=
  ⟨(put_conflict_iff 9 "2" 2 samplePayload
      [sampleRow, { sampleRow with id := 2, email_id := "a@b.c" }] 3 (by decide)
      (by decide) (by decide) (by decide)
      ⟨{ sampleRow with id := 2, email_id := "a@b.c" }, by simp, by decide⟩).1,
   (put_conflict_iff 9 "1" 1 samplePayload [sampleRow] 2 (by decide) (by decide)
      (by decide) (by decide) ⟨sampleRow, by simp, by decide⟩).2.2
      (by simp [EmailsUnique]) ⟨sampleRow, by simp, by decide, by decide⟩⟩

theorem some_strOf_of_truthy (x : Option String) (h : truthy x = true) :
    some (strOf x) = x := by
  cases x with
  | none => simp [truthy] at h
  | some s => rfl

/-- Counterexample to C10 as stated: an update answered 200 whose image is the
empty string leaves the row with a `null` image, not with the submitted one. -/
theorem put_empty_image_not_stored :
    (SchoolById.PUT 9 (some "1") { samplePayload with image := some "" }
        (.up [{ sampleRow with image := some "https://old.example/a.png" }] 2)).1.status
      = 200 ∧
    (SchoolById.PUT 9 (some "1") { samplePayload with image := some "" }
        (.up [{ sampleRow with image := some "https://old.example/a.png" }] 2)).2.rows.map
        School.image = [none] := by
  decide

/-- C10 (as amended). After an update answered 200 the store has the same next
id and the same number of rows, a row of the given id exists, and row by row:
the row of the given id keeps its id and created timestamp, has the submitted
name, address, city, state and email, has the digits of the submitted contact,
has the submitted image or `null` when the image is absent or the empty
string, and has the time of the update as updated timestamp; every other row
is unchanged. -/
theorem put_full_replace (now : Nat) (id : Option String) (body : Payload) (db : Db)
    (h : (SchoolById.PUT now id body db).1.status = 200) :
    ∃ (n : Int) (rows rows' : List School) (nextId : Nat),
      parseInt (strOf id) = some n ∧ db = .up rows nextId ∧
      (SchoolById.PUT now id body db).2 = .up rows' nextId ∧
      rows'.length = rows.length ∧ (∃ r ∈ rows, (r.id : Int) = n) ∧
      List.Forall₂
        (fun r r' =>
          if (r.id : Int) = n then
            r'.id = r.id ∧ r'.created_at = r.created_at ∧
            some r'.name = body.name ∧ some r'.address = body.address ∧
            some r'.city = body.city ∧ some r'.state = body.state ∧
            some r'.email_id = body.email_id ∧
            r'.contact = stripNonDigits (strOf body.contact) ∧
            r'.image = (if body.image = some "" then none else body.image) ∧
            r'.updated_at = now
          else r' = r)
        rows rows' := by
  obtain ⟨idText, n, rows, nextId, rfl, hparse, rfl, hinv, hex, -, hput⟩ :=
    PUT_status_200 now id body db h
  obtain ⟨-, -, -, -, hreq, -, -⟩ := putInvalid_eq_false _ body hinv
  simp only [missingRequired, Bool.or_eq_false_iff, Bool.not_eq_false'] at hreq
  obtain ⟨⟨⟨⟨⟨h1, h2⟩, h3⟩, h4⟩, -⟩, h6⟩ := hreq
  refine ⟨n, rows, _, nextId, hparse, rfl, by rw [hput], by simp, hex, ?_⟩
  rw [List.forall₂_map_right_iff]
  apply List.forall₂_same.mpr
  intro r _
  by_cases hr : (r.id : Int) = n
  · simp only [hr, if_true, updateRow, beq_self_eq_true, some_strOf_of_truthy, h1, h2, h3,
      h4, h6, orNull_eq, and_self]
  · simp [updateRow, hr]

/-- Witness of C10 as amended: row 1 is replaced and row 2 is left alone. -/
theorem put_full_replace_witness :
    ∃ (n : Int) (rows rows' : List School) (nextId : Nat),
      parseInt (strOf (some "1")) = some n ∧
      Db.up [sampleRow, { sampleRow with id := 2, email_id := "a@b.c" }] 3 =
        .up rows nextId ∧
      (SchoolById.PUT 9 (some "1") { samplePayload with name := some "New", image := some "u" }
        (.up [sampleRow, { sampleRow with id := 2, email_id := "a@b.c" }] 3)).2 =
        .up rows' nextId ∧
      rows'.length = rows.length ∧ (∃ r ∈ rows, (r.id : Int) = n) ∧
      List.Forall₂
        (fun r r' =>
          if (r.id : Int) = n then
            r'.id = r.id ∧ r'.created_at = r.created_at ∧
            some r'.name = some "New" ∧ some r'.address = some "Y" ∧
            some r'.city = some "Z" ∧ some r'.state = some "W" ∧
            some r'.email_id = some "x@y.com" ∧
            r'.contact = stripNonDigits "1234567890" ∧
            r'.image = (if some "u" = some "" then none else some "u") ∧
            r'.updated_at = 9
          else r' = r)
        rows rows' :=
  put_full_replace 9 (some "1") { samplePayload with name := some "New", image := some "u" }
    (.up [sampleRow, { sampleRow with id := 2, email_id := "a@b.c" }] 3) (by decide)

/-! ## The handlers keep the store well formed -/

theorem POST_wellFormed (now : Nat) (body : Payload) (db : Db) (h : db.WellFormed) :
    (Schools.POST now body db).2.WellFormed := by
  cases hinv : postInvalid body with
  | true =>
    obtain ⟨resp, -, hall⟩ := POST_of_invalid body hinv
    rw [hall now db]
    exact h
  | false =>
    simp only [postInvalid, Bool.or_eq_false_iff, Bool.not_eq_false'] at hinv
    obtain ⟨⟨hreq, hemail⟩, hphone⟩ := hinv
    cases db with
    | down message =>
      simp [Schools.POST, hreq, hemail, hphone, Db.WellFormed]
    | up rows nextId =>
      rw [POST_of_valid now body rows nextId hreq hemail hphone]
      split
      · exact h
      · obtain ⟨hnodup, hlt⟩ := h
        constructor
        · rw [List.map_append, List.nodup_append]
          refine ⟨hnodup, by simp, ?_⟩
          intro a ha hb
          simp only [List.map_cons, List.map_nil, List.mem_singleton] at hb
          simp only [List.mem_map] at ha
          obtain ⟨r, hr, rfl⟩ := ha
          have := hlt r hr
          omega
        · intro r hr
          simp only [List.mem_append, List.mem_singleton] at hr
          rcases hr with hr | rfl
          · have := hlt r hr
            omega
          · simp

theorem map_id_updateRow (now : Nat) (n : Int) (body : Payload) (cleanPhone : String)
    (rows : List School) :
    (rows.map (updateRow now n body cleanPhone)).map School.id = rows.map School.id := by
  rw [List.map_map]
  apply List.map_congr_left
  intro r _
  exact updateRow_id now n body cleanPhone r

theorem PUT_wellFormed (now : Nat) (id : Option String) (body : Payload) (db : Db)
    (h : db.WellFormed) : (SchoolById.PUT now id body db).2.WellFormed := by
  cases hinv : putInvalid id body with
  | true =>
    obtain ⟨resp, -, hall⟩ := PUT_of_invalid id body hinv
    rw [hall now db]
    exact h
  | false =>
    cases db with
    | down message =>
      rw [PUT_down_of_valid now id body message hinv]
      exact h
    | up rows nextId =>
      obtain ⟨idText, n, rfl, hid, hreq, hemail, hphone⟩ := putInvalid_eq_false id body hinv
      rw [PUT_of_valid now idText n body rows nextId hid hreq hemail hphone]
      split
      · exact h
      · split
        · exact h
        · obtain ⟨hnodup, hlt⟩ := h
          constructor
          · rw [map_id_updateRow]
            exact hnodup
          · intro r hr
            simp only [List.mem_map] at hr
            obtain ⟨r0, hr0, rfl⟩ := hr
            rw [updateRow_id]
            exact hlt r0 hr0

/-! ## Delete -/

theorem DELETE_of_parsed (path : String) (n : Int) (rows : List School) (nextId : Nat)
    (h : parseInt path = some n) :
    SchoolById.DELETE (some path) (.up rows nextId) =
      match rows.filter (fun r => (r.id : Int) == n) with
      | [] => ({ status := 404, success := some false,
                 error := some "School not found" }, .up rows nextId)
      | school :: _ =>
        ({ status := 200, success := some true,
           message := some ("School \"" ++ school.name ++ "\" deleted successfully") },
         .up (rows.filter (fun r => !((r.id : Int) == n))) nextId) := by
  have hne := path_ne_empty_of_parseInt path n h
  simp [SchoolById.DELETE, truthy, strOf, isNaN, h, hne]

theorem parseInt_of_path (path : String) (k : Nat)
    (h : path = Nat.repr k ∨ parseInt path = some (k : Int)) :
    parseInt path = some (k : Int) := by
  rcases h with rfl | h
  · exact parseInt_repr k
  · exact h

theorem filter_id_of_removed (rows : List School) (n : Int) :
    (rows.filter (fun r => !((r.id : Int) == n))).filter (fun r => (r.id : Int) == n)
      = [] := by
  rw [List.filter_eq_nil_iff]
  intro x hx
  simp only [List.mem_filter, Bool.not_eq_true', beq_eq_false_iff_ne, ne_eq] at hx
  simpa using hx.2

theorem filter_id_ne_nil (rows : List School) (n : Int) (r : School) (hr : r ∈ rows)
    (hn : (r.id : Int) = n) :
    ∃ school rest, rows.filter (fun x => (x.id : Int) == n) = school :: rest := by
  have hmem : r ∈ rows.filter (fun x => (x.id : Int) == n) := by
    simp [List.mem_filter, hr, hn]
  exact List.exists_cons_of_ne_nil (List.ne_nil_of_mem hmem)

/-- C11. Deleting the id of a row of the store, given by its decimal text or by
any path text that `parseInt` reads as the id, is answered 200 and leaves no
row of that id; afterwards reading that id is answered 404, and deleting it a
second time is answered 404 with the store left as it was. -/
theorem delete_then_gone (rows : List School) (nextId : Nat) (r : School)
    (path : String) (hr : r ∈ rows)
    (hpath : path = Nat.repr r.id ∨ parseInt path = some (r.id : Int)) :
    (SchoolById.DELETE (some path) (.up rows nextId)).1.status = 200 ∧
    (∀ x ∈ (SchoolById.DELETE (some path) (.up rows nextId)).2.rows, x.id ≠ r.id) ∧
    (SchoolById.GET (some path) (SchoolById.DELETE (some path) (.up rows nextId)).2).1 =
      { status := 404, success := some false, error := some "School not found" } ∧
    SchoolById.DELETE (some path) (SchoolById.DELETE (some path) (.up rows nextId)).2 =
      ({ status := 404, success := some false, error := some "School not found" },
       (SchoolById.DELETE (some path) (.up rows nextId)).2) := by
  have hparse := parseInt_of_path path r.id hpath
  obtain ⟨school, rest, hfilter⟩ := filter_id_ne_nil rows (r.id : Int) r hr rfl
  have hdel := DELETE_of_parsed path (r.id : Int) rows nextId hparse
  rw [hfilter] at hdel
  simp only at hdel
  rw [hdel]
  refine ⟨rfl, ?_, ?_, ?_⟩
  · intro x hx
    simp only [Db.rows, List.mem_filter, Bool.not_eq_true', beq_eq_false_iff_ne, ne_eq,
      Nat.cast_inj] at hx
    exact hx.2
  · simp only
    rw [GET_of_parsed path (r.id : Int) _ nextId hparse, filter_id_of_removed]
  · simp only
    rw [DELETE_of_parsed path (r.id : Int) _ nextId hparse, filter_id_of_removed]

/-- Witness of C11: row 1 is deleted, then neither read nor deleted again. -/
theorem delete_then_gone_witness :
    (SchoolById.DELETE (some "1") (.up [sampleRow] 2)).1.status = 200 ∧
    (∀ x ∈ (SchoolById.DELETE (some "1") (.up [sampleRow] 2)).2.rows, x.id ≠ sampleRow.id) ∧
    (SchoolById.GET (some "1") (SchoolById.DELETE (some "1") (.up [sampleRow] 2)).2).1 =
      { status := 404, success := some false, error := some "School not found" } ∧
    SchoolById.DELETE (some "1") (SchoolById.DELETE (some "1") (.up [sampleRow] 2)).2 =
      ({ status := 404, success := some false, error := some "School not found" },
       (SchoolById.DELETE (some "1") (.up [sampleRow] 2)).2) :=
  delete_then_gone [sampleRow] 2 sampleRow "1" (by simp) (Or.inr (by decide))

theorem filter_id_eq_erase (rows : List School) (r : School)
    (hnodup : (rows.map School.id).Nodup) (hr : r ∈ rows) :
    rows.filter (fun x => !((x.id : Int) == (r.id : Int))) = rows.erase r ∧
      rows.filter (fun x => (x.id : Int) == (r.id : Int)) = [r] := by
  induction rows with
  | nil => simp at hr
  | cons a rows ih =>
    simp only [List.map_cons, List.nodup_cons, List.mem_map, not_exists, not_and] at hnodup
    obtain ⟨hnot, hnodup'⟩ := hnodup
    by_cases ha : a = r
    · subst ha
      have hkeep : rows.filter (fun x => !((x.id : Int) == (a.id : Int))) = rows := by
        rw [List.filter_eq_self]
        intro x hx
        have := hnot x hx
        simpa using this
      have hnone : rows.filter (fun x => (x.id : Int) == (a.id : Int)) = [] := by
        rw [List.filter_eq_nil_iff]
        intro x hx
        have := hnot x hx
        simpa using this
      simp [List.filter_cons, hkeep, hnone]
    · have hr' : r ∈ rows := by
        simp only [List.mem_cons] at hr
        rcases hr with rfl | hr
        · exact (ha rfl).elim
        · exact hr
      have hid : a.id ≠ r.id := fun h => hnot r hr' h.symm
      obtain ⟨ih1, ih2⟩ := ih hnodup' hr'
      have hbeq : (a == r) = false := by simpa using ha
      simp [List.filter_cons, hid, ih1, ih2, List.erase_cons, hbeq]

/-- C12. In a store whose ids are pairwise distinct, deleting the id of a row
removes that row and no other, the remaining rows staying as they were and in
their order, and the message names the deleted row; deleting an id that
matches no row is answered 404 and leaves the store as it was. -/
theorem delete_exactly_one (rows : List School) (nextId : Nat) (path : String) (n : Int)
    (hparse : parseInt path = some n) :
    (∀ r ∈ rows, (r.id : Int) = n → (Db.up rows nextId).WellFormed →
      SchoolById.DELETE (some path) (.up rows nextId) =
        ({ status := 200, success := some true,
           message := some ("School \"" ++ r.name ++ "\" deleted successfully") },
         .up (rows.erase r) nextId) ∧
      r ∉ rows.erase r ∧ (∀ x ∈ rows, x ≠ r → x ∈ rows.erase r) ∧
      (rows.erase r).length + 1 = rows.length) ∧
    ((∀ r ∈ rows, (r.id : Int) ≠ n) →
      SchoolById.DELETE (some path) (.up rows nextId) =
        ({ status := 404, success := some false, error := some "School not found" },
         .up rows nextId)) := by
  have hdel := DELETE_of_parsed path n rows nextId hparse
  constructor
  · intro r hr hn hwf
    subst hn
    obtain ⟨h1, h2⟩ := filter_id_eq_erase rows r hwf.1 hr
    rw [h2] at hdel
    simp only at hdel
    rw [h1] at hdel
    have hnd : rows.Nodup := List.Nodup.of_map _ hwf.1
    refine ⟨hdel, ?_, ?_, ?_⟩
    · exact fun h => (List.Nodup.mem_erase_iff hnd).mp h |>.1 rfl
    · intro x hx hne
      exact (List.mem_erase_of_ne hne).mpr hx
    · rw [List.length_erase_of_mem hr]
      have := List.length_pos_of_mem hr
      omega
  · intro hnone
    have hfilter : rows.filter (fun r => (r.id : Int) == n) = [] := by
      rw [List.filter_eq_nil_iff]
      intro r hr
      simpa using hnone r hr
    rw [hfilter] at hdel
    exact hdel

/-- Witness of C12: of two rows, the one with id 2 is deleted and named. -/
theorem delete_exactly_one_witness :
    (SchoolById.DELETE (some "2")
        (.up [sampleRow, { sampleRow with id := 2, name := "Doon", email_id := "a@b.c" }] 3) =
      ({ status := 200, success := some true,
         message := some ("School \"" ++ "Doon" ++ "\" deleted successfully") },
       .up ([sampleRow, { sampleRow with id := 2, name := "Doon", email_id := "a@b.c" }].erase
         { sampleRow with id := 2, name := "Doon", email_id := "a@b.c" }) 3)) ∧
    SchoolById.DELETE (some "7") (.up [sampleRow] 2) =
      ({ status := 404, success := some false, error := some "School not found" },
       .up [sampleRow] 2) :=
  ⟨((delete_exactly_one
      [sampleRow, { sampleRow with id := 2, name := "Doon", email_id := "a@b.c" }] 3 "2" 2
      (by decide)).1 { sampleRow with id := 2, name := "Doon", email_id := "a@b.c" }
      (by simp) (by decide) ⟨by decide, by decide⟩).1,
   (delete_exactly_one [sampleRow] 2 "7" 7 (by decide)).2 (by decide)⟩

/-! ## The identifier check -/

theorem parseInt_of_not_truthy (id : Option String) (h : truthy id = false) :
    parseInt (strOf id) = none := by
  rcases (truthy_iff id).mp h with rfl | rfl <;> decide

theorem GET_of_bad_id (id : Option String) (h : parseInt (strOf id) = none) (db : Db) :
    SchoolById.GET id db =
      ({ status := 400, success := some false,
         error := some "Valid school ID is required" }, db) := by
  simp [SchoolById.GET, isNaN, h]

theorem DELETE_of_bad_id (id : Option String) (h : parseInt (strOf id) = none) (db : Db) :
    SchoolById.DELETE id db =
      ({ status := 400, success := some false,
         error := some "Valid school ID is required for deletion" }, db) := by
  simp [SchoolById.DELETE, isNaN, h]

theorem GET_status_of_good_id (id : Option String) (n : Int)
    (h : parseInt (strOf id) = some n) (db : Db) :
    (SchoolById.GET id db).1.status ≠ 400 ∧ (SchoolById.GET id db).2 = db := by
  have ht : truthy id = true := by
    cases hid : truthy id with
    | true => rfl
    | false =>
      rw [parseInt_of_not_truthy id hid] at h
      cases h
  unfold SchoolById.GET
  simp only [ht, isNaN, h, Option.isNone_some, Bool.not_true, Bool.or_self,
    Bool.false_eq_true, if_false]
  cases db with
  | down message => simp
  | up rows nextId =>
    simp only
    split <;> simp

theorem DELETE_status_of_good_id (id : Option String) (n : Int)
    (h : parseInt (strOf id) = some n) (db : Db) :
    (SchoolById.DELETE id db).1.status ≠ 400 := by
  have ht : truthy id = true := by
    cases hid : truthy id with
    | true => rfl
    | false =>
      rw [parseInt_of_not_truthy id hid] at h
      cases h
  unfold SchoolById.DELETE
  simp only [ht, isNaN, h, Option.isNone_some, Bool.not_true, Bool.or_self,
    Bool.false_eq_true, if_false]
  cases db with
  | down message => simp
  | up rows nextId =>
    simp only
    split <;> simp

/-- Counterexample to C13 as stated: the path ids `12abc`, `3.7` and `-5` are
not decimal texts of non-negative integers, yet none is answered 400: `12abc`
reads and deletes row 12, `3.7` reads row 3, and `-5` is looked up and answered
404. -/
theorem lenient_path_ids_reach_store :
    (SchoolById.GET (some "12abc") (.up [{ sampleRow with id := 12 }] 13)).1 =
      { status := 200, success := some true, data := some { sampleRow with id := 12 } } ∧
    (SchoolById.DELETE (some "12abc") (.up [{ sampleRow with id := 12 }] 13)).2 =
      .up [] 13 ∧
    (SchoolById.GET (some "3.7") (.up [{ sampleRow with id := 3 }] 13)).1.status = 200 ∧
    (SchoolById.GET (some "-5") (.up [sampleRow] 2)).1.status = 404 ∧
    (SchoolById.PUT 9 (some "12abc") samplePayload
      (.up [{ sampleRow with id := 12 }] 13)).1.status = 200 := by
  decide

/-- C13 (as amended). For GET, PUT and DELETE on a school id, a path id that
is absent or empty, or in which `parseInt` finds no number, is answered 400
before any query is sent: the response is the same for every two stores and
the store is left as it was. GET and DELETE answer 400 in no other case, so an
id that starts with a number passes the check. -/
theorem path_id_check (id : Option String) (now₁ now₂ : Nat) (body : Payload)
    (db₁ db₂ : Db) :
    ((truthy id = false ∨ parseInt (strOf id) = none) →
      ((SchoolById.GET id db₁).1.status = 400 ∧
        (SchoolById.GET id db₁).1 = (SchoolById.GET id db₂).1 ∧
        (SchoolById.GET id db₁).2 = db₁) ∧
      ((SchoolById.PUT now₁ id body db₁).1.status = 400 ∧
        (SchoolById.PUT now₁ id body db₁).1 = (SchoolById.PUT now₂ id body db₂).1 ∧
        (SchoolById.PUT now₁ id body db₁).2 = db₁) ∧
      ((SchoolById.DELETE id db₁).1.status = 400 ∧
        (SchoolById.DELETE id db₁).1 = (SchoolById.DELETE id db₂).1 ∧
        (SchoolById.DELETE id db₁).2 = db₁)) ∧
    ((SchoolById.GET id db₁).1.status = 400 ↔
      (truthy id = false ∨ parseInt (strOf id) = none)) ∧
    ((SchoolById.DELETE id db₁).1.status = 400 ↔
      (truthy id = false ∨ parseInt (strOf id) = none)) := by
  have hnone : (truthy id = false ∨ parseInt (strOf id) = none) →
      parseInt (strOf id) = none := by
    rintro (h | h)
    · exact parseInt_of_not_truthy id h
    · exact h
  refine ⟨?_, ?_, ?_⟩
  · intro h
    have hp := hnone h
    have hinv : putInvalid id body = true := by
      simp [putInvalid, isNaN, hp]
    obtain ⟨resp, hresp, hall⟩ := PUT_of_invalid id body hinv
    rw [GET_of_bad_id id hp db₁, GET_of_bad_id id hp db₂, DELETE_of_bad_id id hp db₁,
      DELETE_of_bad_id id hp db₂, hall now₁ db₁, hall now₂ db₂]
    exact ⟨⟨rfl, rfl, rfl⟩, ⟨hresp, rfl, rfl⟩, ⟨rfl, rfl, rfl⟩⟩
  · constructor
    · intro hstatus
      cases hp : parseInt (strOf id) with
      | none => exact Or.inr rfl
      | some n => exact absurd hstatus (GET_status_of_good_id id n hp db₁).1
    · intro h
      rw [GET_of_bad_id id (hnone h) db₁]
  · constructor
    · intro hstatus
      cases hp : parseInt (strOf id) with
      | none => exact Or.inr rfl
      | some n => exact absurd hstatus (DELETE_status_of_good_id id n hp db₁)
    · intro h
      rw [DELETE_of_bad_id id (hnone h) db₁]

/-- Witness of C13 as amended: the path id `abc` is answered 400 by the three
handlers, by a store that is up as by one that is down. -/
theorem path_id_check_witness :
    ((SchoolById.GET (some "abc") (.up [sampleRow] 2)).1.status = 400 ∧
      (SchoolById.GET (some "abc") (.up [sampleRow] 2)).1 =
        (SchoolById.GET (some "abc") (.down "connect ETIMEDOUT")).1 ∧
      (SchoolById.GET (some "abc") (.up [sampleRow] 2)).2 = .up [sampleRow] 2) ∧
    ((SchoolById.PUT 5 (some "abc") samplePayload (.up [sampleRow] 2)).1.status = 400 ∧
      (SchoolById.PUT 5 (some "abc") samplePayload (.up [sampleRow] 2)).1 =
        (SchoolById.PUT 9 (some "abc") samplePayload (.down "connect ETIMEDOUT")).1 ∧
      (SchoolById.PUT 5 (some "abc") samplePayload (.up [sampleRow] 2)).2 =
        .up [sampleRow] 2) ∧
    ((SchoolById.DELETE (some "abc") (.up [sampleRow] 2)).1.status = 400 ∧
      (SchoolById.DELETE (some "abc") (.up [sampleRow] 2)).1 =
        (SchoolById.DELETE (some "abc") (.down "connect ETIMEDOUT")).1 ∧
      (SchoolById.DELETE (some "abc") (.up [sampleRow] 2)).2 = .up [sampleRow] 2) :=
  (path_id_check (some "abc") 5 9 samplePayload (.up [sampleRow] 2)
    (.down "connect ETIMEDOUT")).1 (Or.inr (by decide))

/-! ## Reads -/

/-- C14. For every store that is up, `GET /api/schools` answers 200 with
`success: true` and a list whose entries are the id, name, address, city,
state, contact, email_id and image of the rows, taken from a rearrangement of
the rows that holds every row once and no other entry and is ordered by
created timestamp, latest first; for an empty table the list is empty. -/
theorem get_list_newest_first (rows : List School) (nextId : Nat) :
    (∃ sorted : List School,
      sorted.Perm rows ∧
      sorted.Sorted (fun a b => b.created_at ≤ a.created_at) ∧
      Schools.GET (.up rows nextId) =
        ({ status := 200, success := some true,
           schools := some (sorted.map (fun r =>
             ({ id := r.id, name := r.name, address := r.address, city := r.city,
                state := r.state, contact := r.contact, email_id := r.email_id,
                image := r.image } : SchoolBody))) },
         .up rows nextId)) ∧
    Schools.GET (.up [] nextId) =
      ({ status := 200, success := some true, schools := some [] }, .up [] nextId) := by
  refine ⟨⟨orderByCreatedAtDesc rows, List.perm_insertionSort CreatedDesc rows, ?_, rfl⟩,
    rfl⟩
  exact List.sorted_insertionSort CreatedDesc rows

theorem GET_list_store (db : Db) : (Schools.GET db).2 = db := by
  unfold Schools.GET
  split <;> rfl

theorem GET_store (id : Option String) (db : Db) : (SchoolById.GET id db).2 = db := by
  cases hp : parseInt (strOf id) with
  | none => rw [GET_of_bad_id id hp db]
  | some n => exact (GET_status_of_good_id id n hp db).2

/-- C15. Reads never mutate: `GET /api/schools` and `GET /api/schools/[id]`
leave the store as it was, whatever they answer. -/
theorem reads_never_mutate (id : Option String) (db : Db) :
    (Schools.GET db).2 = db ∧ (SchoolById.GET id db).2 = db :=
  ⟨GET_list_store db, GET_store id db⟩

/-! ## What each call does to the store -/

theorem POST_store_cases (now : Nat) (body : Payload) (db : Db) :
    (Schools.POST now body db).2 = db ∨
    ∃ rows nextId row, db = .up rows nextId ∧
      row.id = nextId ∧ row.email_id = strOf body.email_id ∧
      row.contact = strOf body.contact ∧
      phoneRegex.test (strOf body.contact) = true ∧
      row.created_at = now ∧ row.updated_at = now ∧
      (∀ r ∈ rows, r.email_id ≠ strOf body.email_id) ∧
      (Schools.POST now body db).2 = .up (rows ++ [row]) (nextId + 1) := by
  cases hinv : postInvalid body with
  | true =>
    obtain ⟨resp, -, hall⟩ := POST_of_invalid body hinv
    rw [hall now db]
    exact Or.inl rfl
  | false =>
    simp only [postInvalid, Bool.or_eq_false_iff, Bool.not_eq_false'] at hinv
    obtain ⟨⟨hreq, hemail⟩, hphone⟩ := hinv
    cases db with
    | down message =>
      left
      simp [Schools.POST, hreq, hemail, hphone]
    | up rows nextId =>
      rw [POST_of_valid now body rows nextId hreq hemail hphone]
      by_cases hdup :
          (rows.filter (fun r => r.email_id == strOf body.email_id)).length > 0
      · rw [if_pos hdup]
        exact Or.inl rfl
      · rw [if_neg hdup]
        right
        refine ⟨rows, nextId, _, rfl, rfl, rfl, rfl, hphone, rfl, rfl, ?_, rfl⟩
        intro r hr he
        apply hdup
        exact filter_email_pos rows _ ⟨r, hr, he⟩

theorem PUT_store_cases (now : Nat) (id : Option String) (body : Payload) (db : Db) :
    (SchoolById.PUT now id body db).2 = db ∨
    ∃ (n : Int) (rows : List School) (nextId : Nat), db = .up rows nextId ∧
      phoneRegex.test (stripNonDigits (strOf body.contact)) = true ∧
      (∀ r ∈ rows, r.email_id = strOf body.email_id → (r.id : Int) = n) ∧
      (SchoolById.PUT now id body db).2 =
        .up (rows.map (updateRow now n body (stripNonDigits (strOf body.contact))))
          nextId := by
  cases hinv : putInvalid id body with
  | true =>
    obtain ⟨resp, -, hall⟩ := PUT_of_invalid id body hinv
    rw [hall now db]
    exact Or.inl rfl
  | false =>
    cases db with
    | down message =>
      rw [PUT_down_of_valid now id body message hinv]
      exact Or.inl rfl
    | up rows nextId =>
      obtain ⟨idText, n, rfl, hid, hreq, hemail, hphone⟩ := putInvalid_eq_false id body hinv
      rw [PUT_of_valid now idText n body rows nextId hid hreq hemail hphone]
      by_cases h1 : (rows.filter (fun r => (r.id : Int) == n)).length = 0
      · rw [if_pos h1]
        exact Or.inl rfl
      · rw [if_neg h1]
        by_cases h2 : (rows.filter
            (fun r => r.email_id == strOf body.email_id && (r.id : Int) != n)).length > 0
        · rw [if_pos h2]
          exact Or.inl rfl
        · rw [if_neg h2]
          right
          refine ⟨n, rows, nextId, rfl, hphone, ?_, rfl⟩
          intro r hr he
          by_contra hne
          apply h2
          apply List.length_pos_of_mem (a := r)
          simp [List.mem_filter, hr, he, hne]

theorem DELETE_store_cases (id : Option String) (db : Db) :
    (SchoolById.DELETE id db).2 = db ∨
    ∃ (n : Int) (rows : List School) (nextId : Nat), db = .up rows nextId ∧
      (SchoolById.DELETE id db).2 =
        .up (rows.filter (fun r => !((r.id : Int) == n))) nextId := by
  cases hp : parseInt (strOf id) with
  | none =>
    rw [DELETE_of_bad_id id hp db]
    exact Or.inl rfl
  | some n =>
    have ht : truthy id = true := by
      cases hid : truthy id with
      | true => rfl
      | false =>
        rw [parseInt_of_not_truthy id hid] at hp
        cases hp
    cases db with
    | down message =>
      left
      simp [SchoolById.DELETE, ht, isNaN, hp]
    | up rows nextId =>
      unfold SchoolById.DELETE
      simp only [ht, isNaN, hp, Option.isNone_some, Bool.not_true, Bool.or_self,
        Bool.false_eq_true, if_false]
      split
      · exact Or.inl rfl
      · exact Or.inr ⟨n, rows, nextId, rfl, rfl⟩

theorem initializeDatabase_store (now : Nat) (db : Db) :
    (initializeDatabase now db).2 = db := by
  unfold initializeDatabase
  split
  · rfl
  · split <;> rfl

theorem seed_emails (now nextId : Nat) :
    ((schools.enumFrom nextId).map (seedRow now)).map SeededSchool.email_address =
      schools.map SeedRow.email_address := by
  simp [schools, List.enumFrom, seedRow]

theorem seed_emails_nodup : (schools.map SeedRow.email_address).Nodup := by
  decide

theorem initializeDatabaseWith_table_cases (faults : InitFaults) (poolReady : Bool)
    (now : Nat) (rows : List SeededSchool) (nextId : Nat) :
    (initializeDatabaseWith faults poolReady now rows nextId).2 = (rows, nextId) ∨
    (rows = [] ∧
      initializeDatabaseWith faults poolReady now rows nextId =
        (true, ((schools.enumFrom nextId).map (seedRow now), nextId + schools.length))) := by
  obtain ⟨f1, f2, f3, f4⟩ := faults
  cases poolReady <;> cases f1 <;> cases f2 <;> cases f3 <;> cases f4 <;>
    cases rows <;>
    simp [initializeDatabaseWith, initializeDatabaseTry, attempt, bind, Except.bind,
      pure, Except.pure]

/-! ## Email uniqueness -/

theorem updateRow_emails_nodup (now : Nat) (n : Int) (body : Payload)
    (cleanPhone : String) (rows : List School)
    (hids : (rows.map School.id).Nodup) (hemails : EmailsUnique rows)
    (hfree : ∀ r ∈ rows, r.email_id = strOf body.email_id → (r.id : Int) = n) :
    EmailsUnique (rows.map (updateRow now n body cleanPhone)) := by
  unfold EmailsUnique at hemails ⊢
  rw [List.map_map]
  rw [List.nodup_map_iff_inj_on (List.Nodup.of_map _ hids)]
  intro a ha b hb hab
  have hinj_id := List.inj_on_of_nodup_map hids
  have hinj_em := List.inj_on_of_nodup_map hemails
  simp only [Function.comp_apply, updateRow] at hab
  by_cases h1 : (a.id : Int) = n
  · by_cases h2 : (b.id : Int) = n
    · apply hinj_id ha hb
      have : (a.id : Int) = (b.id : Int) := h1.trans h2.symm
      exact_mod_cast this
    · simp only [h1, h2, beq_self_eq_true, if_true, beq_iff_eq, if_false] at hab
      exact absurd (hfree b hb hab.symm) h2
  · by_cases h2 : (b.id : Int) = n
    · simp only [h1, h2, beq_self_eq_true, if_true, beq_iff_eq, if_false] at hab
      exact absurd (hfree a ha hab) h1
    · simp only [h1, h2, beq_iff_eq, if_false] at hab
      exact hinj_em ha hb hab

/-- C16. Email uniqueness is kept by every call. In a store of the handlers
whose ids are pairwise distinct and whose rows have pairwise distinct emails,
the rows still have pairwise distinct emails after `initializeDatabase`, POST,
PUT or DELETE, whatever the call answers; and in the table that
`initializeDatabase` creates, rows with pairwise distinct email_address still
have pairwise distinct email_address after `initializeDatabase`, whichever of
its steps throws. -/
theorem emails_stay_unique (now : Nat) (id : Option String) (body : Payload) (db : Db)
    (faults : InitFaults) (poolReady : Bool) (seeded : List SeededSchool) (nextId : Nat)
    (hwf : db.WellFormed) (h : EmailsUnique db.rows)
    (hseeded : (seeded.map SeededSchool.email_address).Nodup) :
    EmailsUnique (initializeDatabase now db).2.rows ∧
    EmailsUnique (Schools.POST now body db).2.rows ∧
    EmailsUnique (SchoolById.PUT now id body db).2.rows ∧
    EmailsUnique (SchoolById.DELETE id db).2.rows ∧
    ((initializeDatabaseWith faults poolReady now seeded nextId).2.1.map
      SeededSchool.email_address).Nodup := by
  refine ⟨?_, ?_, ?_, ?_, ?_⟩
  · rw [initializeDatabase_store]
    exact h
  · rcases POST_store_cases now body db with heq |
      ⟨rows, nextId, row, rfl, -, hrow, -, -, -, -, hfresh, heq⟩
    · rw [heq]; exact h
    · rw [heq]
      unfold EmailsUnique at h ⊢
      simp only [Db.rows] at h ⊢
      rw [List.map_append, List.nodup_append]
      refine ⟨h, by simp, ?_⟩
      intro e he hb
      simp only [List.map_cons, List.map_nil, List.mem_singleton] at hb
      simp only [List.mem_map] at he
      obtain ⟨r, hr, rfl⟩ := he
      exact hfresh r hr (hb.trans hrow)
  · rcases PUT_store_cases now id body db with heq | ⟨n, rows, nextId, rfl, -, hfree, heq⟩
    · rw [heq]; exact h
    · rw [heq]
      exact updateRow_emails_nodup now n body _ rows hwf.1 h hfree
  · rcases DELETE_store_cases id db with heq | ⟨n, rows, nextId, rfl, heq⟩
    · rw [heq]; exact h
    · rw [heq]
      unfold EmailsUnique at h ⊢
      simp only [Db.rows] at h ⊢
      exact List.Nodup.sublist (List.Sublist.map _ (List.filter_sublist rows)) h
  · rcases initializeDatabaseWith_table_cases faults poolReady now seeded nextId with
      heq | ⟨-, heq⟩
    · rw [heq]; exact hseeded
    · rw [heq]
      simp only
      rw [seed_emails]
      exact seed_emails_nodup

/-- Witness of C16: after each of the four calls on a table of two rows, made
with an email that another row holds, the emails are still pairwise distinct,
and so are the ten email_address of a freshly seeded table. -/
theorem emails_stay_unique_witness :
    EmailsUnique (initializeDatabase 9
      (.up [sampleRow, { sampleRow with id := 2, email_id := "a@b.c" }] 3)).2.rows ∧
    EmailsUnique (Schools.POST 9 samplePayload
      (.up [sampleRow, { sampleRow with id := 2, email_id := "a@b.c" }] 3)).2.rows ∧
    EmailsUnique (SchoolById.PUT 9 (some "2") samplePayload
      (.up [sampleRow, { sampleRow with id := 2, email_id := "a@b.c" }] 3)).2.rows ∧
    EmailsUnique (SchoolById.DELETE (some "2")
      (.up [sampleRow, { sampleRow with id := 2, email_id := "a@b.c" }] 3)).2.rows ∧
    ((initializeDatabaseWith {} false 9 [] 1).2.1.map SeededSchool.email_address).Nodup :=
  emails_stay_unique 9 (some "2") samplePayload
    (.up [sampleRow, { sampleRow with id := 2, email_id := "a@b.c" }] 3) {} false [] 1
    ⟨by decide, by decide⟩ (by unfold EmailsUnique; decide) (by decide)

/-! ## Contacts of stored rows -/

theorem digitsOnly_of_phoneRegex (s : String) (h : phoneRegex.test s = true) :
    digitsOnly s = true := by
  unfold digitsOnly
  rw [List.all_eq_true]
  exact ((phoneRegex_test_iff s).mp h).2

/-- The three handlers that write keep contacts made of digits: what POST
inserts passed `/^\d{10}$/`, and what PUT writes is the stripped contact. -/
theorem handlers_keep_digitsOnly (now : Nat) (id : Option String) (body : Payload)
    (db : Db) (h : ∀ r ∈ db.rows, digitsOnly r.contact = true) :
    (∀ r ∈ (Schools.POST now body db).2.rows, digitsOnly r.contact = true) ∧
    (∀ r ∈ (SchoolById.PUT now id body db).2.rows, digitsOnly r.contact = true) ∧
    (∀ r ∈ (SchoolById.DELETE id db).2.rows, digitsOnly r.contact = true) := by
  refine ⟨?_, ?_, ?_⟩
  · rcases POST_store_cases now body db with heq |
      ⟨rows, nextId, row, rfl, -, -, hcontact, hphone, -, -, -, heq⟩
    · rw [heq]; exact h
    · rw [heq]
      intro r hr
      simp only [Db.rows, List.mem_append, List.mem_singleton] at hr
      rcases hr with hr | rfl
      · exact h r hr
      · rw [hcontact]
        exact digitsOnly_of_phoneRegex _ hphone
  · rcases PUT_store_cases now id body db with heq | ⟨n, rows, nextId, rfl, hphone, -, heq⟩
    · rw [heq]; exact h
    · rw [heq]
      intro r' hr'
      simp only [Db.rows, List.mem_map] at hr'
      obtain ⟨r, hr, rfl⟩ := hr'
      unfold updateRow
      split
      · exact digitsOnly_of_phoneRegex _ hphone
      · exact h r hr
  · rcases DELETE_store_cases id db with heq | ⟨n, rows, nextId, rfl, heq⟩
    · rw [heq]; exact h
    · rw [heq]
      intro r hr
      simp only [Db.rows, List.mem_filter] at hr
      exact h r hr.1

/-- C17, the code at the failing input: `initializeDatabase` on the empty
table that it creates returns `true` and persists ten rows, the first of which
holds `+91 91234 56789` as contact_number, a contact that is not made of
digits only; whereas on an empty table with the columns of the handlers its
seed `INSERT` throws and no row is persisted. -/
theorem seeded_contact_has_non_digits :
    (initializeDatabaseWith {} false 0 [] 1).1 = true ∧
    (∃ r ∈ (initializeDatabaseWith {} false 0 [] 1).2.1,
      r.id = 1 ∧ r.school_name = "La Martiniere College" ∧
      r.contact_number = "+91 91234 56789" ∧ digitsOnly r.contact_number = false) ∧
    (∀ r ∈ (initializeDatabaseWith {} false 0 [] 1).2.1,
      digitsOnly r.contact_number = false) ∧
    initializeDatabase 0 (.up [] 1) = (false, .up [] 1) :=
  ⟨by decide,
   ⟨seedRow 0 (1, ⟨"La Martiniere College", "Hazratganj", "Lucknow", "Uttar Pradesh",
      "+91 91234 56789",
      "https://upload.wikimedia.org/wikipedia/commons/0/0a/La_Martiniere_College%2C_Lucknow.jpg",
      "info@lamartiniere.edu.in"⟩),
    by decide, by decide, by decide, by decide, by decide⟩,
   by decide, by decide⟩

/-! ## Timestamps -/

theorem reachable_timestamps (t : Nat) (db : Db) (h : ReachableAt t db) :
    ∀ r ∈ db.rows, r.created_at ≤ r.updated_at ∧ r.updated_at ≤ t := by
  induction h with
  | empty t nextId => intro r hr; simp [Db.rows] at hr
  | step t now call db _ hle ih =>
    have ih' : ∀ r ∈ db.rows, r.created_at ≤ r.updated_at ∧ r.updated_at ≤ now :=
      fun r hr => ⟨(ih r hr).1, Nat.le_trans (ih r hr).2 hle⟩
    cases call with
    | seed =>
      show ∀ r ∈ (initializeDatabase now db).2.rows, _
      rw [initializeDatabase_store]
      exact ih'
    | post body =>
      show ∀ r ∈ (Schools.POST now body db).2.rows, _
      rcases POST_store_cases now body db with heq |
        ⟨rows, nextId, row, rfl, -, -, -, -, hc, hu, -, heq⟩
      · rw [heq]; exact ih'
      · rw [heq]
        intro r hr
        simp only [Db.rows, List.mem_append, List.mem_singleton] at hr
        rcases hr with hr | rfl
        · exact ih' r hr
        · omega
    | put id body =>
      show ∀ r ∈ (SchoolById.PUT now id body db).2.rows, _
      rcases PUT_store_cases now id body db with heq | ⟨n, rows, nextId, rfl, -, -, heq⟩
      · rw [heq]; exact ih'
      · rw [heq]
        intro r' hr'
        simp only [Db.rows, List.mem_map] at hr'
        obtain ⟨r, hr, rfl⟩ := hr'
        have := ih r hr
        unfold updateRow
        split
        · simp only
          omega
        · exact ih' r hr
    | delete id =>
      show ∀ r ∈ (SchoolById.DELETE id db).2.rows, _
      rcases DELETE_store_cases id db with heq | ⟨n, rows, nextId, rfl, heq⟩
      · rw [heq]; exact ih'
      · rw [heq]
        intro r hr
        simp only [Db.rows, List.mem_filter] at hr
        exact ih' r hr.1

/-- C18. Under a clock that never goes backwards, every row of every store
reached from an empty table by calls of POST, PUT and DELETE (and of
`initializeDatabase`) has an updated timestamp that is not before its created
timestamp: a create that inserts a row sets both timestamps to the time of the
call, and an update keeps the created timestamp of every row and changes an
updated timestamp only to the time of the call. -/
theorem timestamps_ordered :
    (∀ (t : Nat) (db : Db), ReachableAt t db →
      ∀ r ∈ db.rows, r.created_at ≤ r.updated_at) ∧
    (∀ (now : Nat) (body : Payload) (db : Db),
      (Schools.POST now body db).2 = db ∨
      ∃ row, (Schools.POST now body db).2.rows = db.rows ++ [row] ∧
        row.created_at = now ∧ row.updated_at = now) ∧
    (∀ (now : Nat) (id : Option String) (body : Payload) (db : Db),
      List.Forall₂
        (fun r r' => r'.created_at = r.created_at ∧
          (r'.updated_at = r.updated_at ∨ r'.updated_at = now))
        db.rows (SchoolById.PUT now id body db).2.rows) := by
  refine ⟨fun t db h r hr => (reachable_timestamps t db h r hr).1, ?_, ?_⟩
  · intro now body db
    rcases POST_store_cases now body db with heq |
      ⟨rows, nextId, row, rfl, -, -, -, -, hc, hu, -, heq⟩
    · exact Or.inl heq
    · right
      rw [heq]
      exact ⟨row, rfl, hc, hu⟩
  · intro now id body db
    rcases PUT_store_cases now id body db with heq | ⟨n, rows, nextId, rfl, -, -, heq⟩
    · rw [heq]
      exact List.forall₂_same.mpr (fun r _ => ⟨rfl, Or.inl rfl⟩)
    · rw [heq]
      simp only [Db.rows]
      rw [List.forall₂_map_right_iff]
      apply List.forall₂_same.mpr
      intro r _
      unfold updateRow
      split
      · exact ⟨rfl, Or.inr rfl⟩
      · exact ⟨rfl, Or.inl rfl⟩

/-- Witness of C18: a row created at time 5 and updated at time 9. -/
theorem timestamps_ordered_witness :
    ∀ r ∈ (SchoolById.PUT 9 (some "1") samplePayload
        (Schools.POST 5 samplePayload (.up [] 1)).2).2.rows,
      r.created_at ≤ r.updated_at :=
  timestamps_ordered.1 9
    (SchoolById.PUT 9 (some "1") samplePayload (Schools.POST 5 samplePayload (.up [] 1)).2).2
    (ReachableAt.step 5 9 (.put (some "1") samplePayload)
      (Schools.POST 5 samplePayload (.up [] 1)).2
      (ReachableAt.step 0 5 (.post samplePayload) (.up [] 1) (ReachableAt.empty 0 1)
        (by decide))
      (by decide))

/-! ## Store failures -/

/-- The handlers other than POST answer a store that is down with a fixed
message: the text of the error does not reach the response. -/
theorem generic_failure_responses (now : Nat) (id : Option String) (body : Payload)
    (m₁ m₂ : String) :
    (Schools.GET (.down m₁)).1 =
      { status := 500, error := some "Failed to fetch schools" } ∧
    (SchoolById.GET id (.down m₁)).1 = (SchoolById.GET id (.down m₂)).1 ∧
    (SchoolById.PUT now id body (.down m₁)).1 =
      (SchoolById.PUT now id body (.down m₂)).1 ∧
    (SchoolById.DELETE id (.down m₁)).1 = (SchoolById.DELETE id (.down m₂)).1 := by
  refine ⟨rfl, ?_, ?_, ?_⟩
  · cases hp : parseInt (strOf id) with
    | none => rw [GET_of_bad_id id hp, GET_of_bad_id id hp]
    | some n =>
      have ht : truthy id = true := by
        cases hid : truthy id with
        | true => rfl
        | false =>
          rw [parseInt_of_not_truthy id hid] at hp
          cases hp
      simp [SchoolById.GET, ht, isNaN, hp]
  · cases hinv : putInvalid id body with
    | true =>
      obtain ⟨resp, -, hall⟩ := PUT_of_invalid id body hinv
      rw [hall now (.down m₁), hall now (.down m₂)]
    | false =>
      rw [PUT_down_of_valid now id body m₁ hinv, PUT_down_of_valid now id body m₂ hinv]
  · cases hp : parseInt (strOf id) with
    | none => rw [DELETE_of_bad_id id hp, DELETE_of_bad_id id hp]
    | some n =>
      have ht : truthy id = true := by
        cases hid : truthy id with
        | true => rfl
        | false =>
          rw [parseInt_of_not_truthy id hid] at hp
          cases hp
      simp [SchoolById.DELETE, ht, isNaN, hp]

/-- C19, the code at the failing input: a valid create sent to a store that is
down is answered 500 with the message of the error as `error`, so two failures
that differ only in their error text get different response bodies. -/
theorem post_failure_carries_error_text :
    (Schools.POST 5 samplePayload (.down "connect ECONNREFUSED 10.0.0.5:3306")).1 =
      { status := 500, error := some "connect ECONNREFUSED 10.0.0.5:3306" } ∧
    (Schools.POST 5 samplePayload (.down "Access denied for user root@10.0.0.7")).1 =
      { status := 500, error := some "Access denied for user root@10.0.0.7" } ∧
    (Schools.POST 5 samplePayload (.down "connect ECONNREFUSED 10.0.0.5:3306")).1 ≠
      (Schools.POST 5 samplePayload (.down "Access denied for user root@10.0.0.7")).1 := by
  decide

/-! ## The envelope -/

/-- The handlers of `[id]/route.js` use the envelope on every response, and so
do the success responses of `route.js`. -/
theorem envelope_where_used (now : Nat) (id : Option String) (body : Payload) (db : Db) :
    usesEnvelope (SchoolById.GET id db).1 = true ∧
    usesEnvelope (SchoolById.PUT now id body db).1 = true ∧
    usesEnvelope (SchoolById.DELETE id db).1 = true ∧
    ((Schools.POST now body db).1.status = 201 →
      usesEnvelope (Schools.POST now body db).1 = true) ∧
    ((Schools.GET db).1.status = 200 → usesEnvelope (Schools.GET db).1 = true) := by
  refine ⟨?_, ?_, ?_, ?_, ?_⟩
  · unfold SchoolById.GET
    split
    · rfl
    · split
      · split <;> rfl
      · rfl
  · unfold SchoolById.PUT
    dsimp only
    repeat' split
    all_goals rfl
  · unfold SchoolById.DELETE
    split
    · rfl
    · split
      · split <;> rfl
      · rfl
  · unfold Schools.POST
    dsimp only
    repeat' split
    all_goals first | (intro _; rfl) | (intro h; cases h)
  · unfold Schools.GET
    split
    · intro _; rfl
    · intro h; cases h

/-- C20, the code at the failing inputs: the failure responses of `route.js`
have no `success` key. A create without a name (400), a create with a known
email (409), a create on a store that is down (500) and a list read on a store
that is down (500) are answered with an `error` string alone. -/
theorem route_failures_lack_success :
    (Schools.POST 5 { samplePayload with name := none } (.up [] 1)).1 =
      { status := 400, success := none,
        error := some "All required fields must be provided" } ∧
    (Schools.POST 5 samplePayload (.up [sampleRow] 2)).1 =
      { status := 409, success := none,
        error := some "A school with this email already exists" } ∧
    (Schools.POST 5 samplePayload (.down "connect ETIMEDOUT")).1.success = none ∧
    (Schools.GET (.down "connect ETIMEDOUT")).1 =
      { status := 500, success := none, error := some "Failed to fetch schools" } ∧
    usesEnvelope (Schools.POST 5 { samplePayload with name := none } (.up [] 1)).1 = false ∧
    usesEnvelope (Schools.GET (.down "connect ETIMEDOUT")).1 = false := by
  decide

/-! ## The other calls keep the store well formed -/

theorem DELETE_wellFormed (id : Option String) (db : Db) (h : db.WellFormed) :
    (SchoolById.DELETE id db).2.WellFormed := by
  rcases DELETE_store_cases id db with heq | ⟨n, rows, nextId, rfl, heq⟩
  · rw [heq]; exact h
  · rw [heq]
    obtain ⟨hnodup, hlt⟩ := h
    constructor
    · exact List.Nodup.sublist (List.Sublist.map _ (List.filter_sublist rows)) hnodup
    · intro r hr
      exact hlt r (List.mem_of_mem_filter hr)

theorem seed_ids (now nextId : Nat) :
    ((schools.enumFrom nextId).map (seedRow now)).map SeededSchool.id =
      List.range' nextId schools.length := by
  simp [schools, List.enumFrom, seedRow, List.range']

theorem initializeDatabase_wellFormed (now : Nat) (db : Db) (h : db.WellFormed) :
    (initializeDatabase now db).2.WellFormed := by
  rw [initializeDatabase_store]
  exact h

/-! ## Seeding -/

theorem seed_length (now nextId : Nat) :
    ((schools.enumFrom nextId).map (seedRow now)).length = 10 := by
  simp [schools]

theorem seed_columns (now nextId : Nat) :
    ((schools.enumFrom nextId).map (seedRow now)).map
        (fun r => (r.school_name, r.address, r.city, r.state, r.contact_number, r.image,
          r.email_address)) =
      schools.map (fun s => (s.school_name, s.address, s.city, s.state, s.contact_number,
        some s.image, s.email_address)) := by
  simp [schools, List.enumFrom, seedRow]

theorem seed_defaults (now nextId : Nat) :
    ∀ r ∈ (schools.enumFrom nextId).map (seedRow now),
      r.status = "pending" ∧ r.created_at = now ∧ r.updated_at = now := by
  intro r hr
  simp only [List.mem_map] at hr
  obtain ⟨p, -, rfl⟩ := hr
  simp [seedRow]

theorem initializeDatabase_of_rows (now : Nat) (rows : List School) (nextId : Nat)
    (h : rows ≠ []) :
    initializeDatabase now (.up rows nextId) = (true, .up rows nextId) := by
  cases rows with
  | nil => exact (h rfl).elim
  | cons r rows => rfl

theorem initializeDatabaseWith_of_rows (faults : InitFaults) (poolReady : Bool) (now : Nat)
    (rows : List SeededSchool) (nextId : Nat) (h : rows ≠ []) :
    (initializeDatabaseWith faults poolReady now rows nextId).2 = (rows, nextId) := by
  rcases initializeDatabaseWith_table_cases faults poolReady now rows nextId with
    heq | ⟨hnil, -⟩
  · exact heq
  · exact (h hnil).elim

theorem initializeDatabaseWith_of_true (faults : InitFaults) (poolReady : Bool) (now : Nat)
    (nextId : Nat) (h : (initializeDatabaseWith faults poolReady now [] nextId).1 = true) :
    (initializeDatabaseWith faults poolReady now [] nextId).2 =
      ((schools.enumFrom nextId).map (seedRow now), nextId + 10) := by
  obtain ⟨f1, f2, f3, f4⟩ := faults
  revert h
  cases poolReady <;> cases f1 <;> cases f2 <;> cases f3 <;> cases f4 <;>
    simp [initializeDatabaseWith, initializeDatabaseTry, attempt, bind, Except.bind,
      pure, Except.pure, schools]

/-- C21. `initializeDatabase` seeds only an empty table. On the table that its
`CREATE TABLE` describes: called on no rows with no step throwing, it returns
`true` and inserts the 10 rows of the seed array, with fresh ids, the status
`pending` and both timestamps at the time of the call; whichever steps throw,
a call on no rows that returns `true` has inserted exactly these rows; called
on a table with a row it leaves the rows as they are; so a call made after a
call that returned `true` leaves what that call left. On a table with the
columns of the handlers that holds a row it returns `true` and leaves the rows
as they are, and a second call leaves what the first call left. -/
theorem initialize_seeds_once (faults again : InitFaults) (poolReady poolAgain : Bool)
    (now later : Nat) (rows : List SeededSchool) (nextId : Nat)
    (stored : List School) (storedNext : Nat) :
    (initializeDatabaseWith {} poolReady now [] nextId =
        (true, ((schools.enumFrom nextId).map (seedRow now), nextId + 10)) ∧
      ((schools.enumFrom nextId).map (seedRow now)).length = 10 ∧
      ((schools.enumFrom nextId).map (seedRow now)).map
          (fun r => (r.school_name, r.address, r.city, r.state, r.contact_number, r.image,
            r.email_address)) =
        schools.map (fun s => (s.school_name, s.address, s.city, s.state,
          s.contact_number, some s.image, s.email_address)) ∧
      ((schools.enumFrom nextId).map (seedRow now)).map SeededSchool.id =
        List.range' nextId 10 ∧
      (∀ r ∈ (schools.enumFrom nextId).map (seedRow now),
        r.status = "pending" ∧ r.created_at = now ∧ r.updated_at = now)) ∧
    ((initializeDatabaseWith faults poolReady now [] nextId).1 = true →
      (initializeDatabaseWith faults poolReady now [] nextId).2 =
        ((schools.enumFrom nextId).map (seedRow now), nextId + 10)) ∧
    (rows ≠ [] →
      (initializeDatabaseWith faults poolReady now rows nextId).2 = (rows, nextId)) ∧
    ((initializeDatabaseWith faults poolReady now rows nextId).1 = true →
      (initializeDatabaseWith again poolAgain later
          (initializeDatabaseWith faults poolReady now rows nextId).2.1
          (initializeDatabaseWith faults poolReady now rows nextId).2.2).2 =
        (initializeDatabaseWith faults poolReady now rows nextId).2) ∧
    (stored ≠ [] →
      initializeDatabase now (.up stored storedNext) = (true, .up stored storedNext)) ∧
    (initializeDatabase later (initializeDatabase now (.up stored storedNext)).2).2 =
      (initializeDatabase now (.up stored storedNext)).2 := by
  refine ⟨⟨?_, seed_length now nextId, seed_columns now nextId, seed_ids now nextId,
    seed_defaults now nextId⟩, initializeDatabaseWith_of_true faults poolReady now nextId,
    initializeDatabaseWith_of_rows faults poolReady now rows nextId, ?_,
    initializeDatabase_of_rows now stored storedNext, initializeDatabase_store later _⟩
  · cases poolReady <;> rfl
  · intro htrue
    cases rows with
    | nil =>
      rw [initializeDatabaseWith_of_true faults poolReady now nextId htrue]
      apply initializeDatabaseWith_of_rows
      intro hnil
      have hlen := congrArg List.length hnil
      rw [seed_length] at hlen
      cases hlen
    | cons r rows =>
      rw [initializeDatabaseWith_of_rows faults poolReady now (r :: rows) nextId (by simp)]
      exact initializeDatabaseWith_of_rows again poolAgain later (r :: rows) nextId (by simp)

/-- Witness of C21: a call on the freshly seeded table, made while the seed
`INSERT` would throw, leaves the ten rows as they are. -/
theorem initialize_seeds_once_witness :
    (initializeDatabaseWith { insertSeed := some "ER_DUP_ENTRY" } true 12
        (initializeDatabaseWith {} false 9 [] 1).2.1
        (initializeDatabaseWith {} false 9 [] 1).2.2).2 =
      (initializeDatabaseWith {} false 9 [] 1).2 :=
  (initialize_seeds_once {} { insertSeed := some "ER_DUP_ENTRY" } false true 9 12 [] 1
    [sampleRow] 2).2.2.2.1 (by decide)

/-! ## Failures of `initializeDatabase` -/

theorem initializeDatabase_flag (now : Nat) (rows : List School) (nextId : Nat) :
    (initializeDatabase now (.up rows nextId)).1 = true ↔ rows ≠ [] := by
  cases rows with
  | nil => simp [initializeDatabase]
  | cons r rows => simp [initializeDatabase]

/-- C22. `initializeDatabase` always returns a flag and never an error: the
flag is `true` exactly when no step that is executed throws, the creation of
the pool (executed when the module holds no pool), the `CREATE TABLE`, the
`SELECT COUNT(*)` and the seed `INSERT` (executed when the table has no row);
when the flag is `false` the table is as it was; on a store that is down,
where every statement throws, the flag is `false`; and on a table with the
columns of the handlers, where the seed `INSERT` throws whenever it is
executed, the flag is `true` exactly when the table holds a row, and the table
is as it was either way. -/
theorem initialize_returns_flag (faults : InitFaults) (poolReady : Bool) (now : Nat)
    (rows : List SeededSchool) (nextId : Nat) (message : String)
    (stored : List School) (storedNext : Nat) :
    ((initializeDatabaseWith faults poolReady now rows nextId).1 = true ↔
      ((poolReady = true ∨ faults.createPool = none) ∧ faults.createTable = none ∧
        faults.countRows = none ∧ (rows = [] → faults.insertSeed = none))) ∧
    ((initializeDatabaseWith faults poolReady now rows nextId).1 = false →
      (initializeDatabaseWith faults poolReady now rows nextId).2 = (rows, nextId)) ∧
    initializeDatabase now (.down message) = (false, .down message) ∧
    ((initializeDatabase now (.up stored storedNext)).1 = true ↔ stored ≠ []) ∧
    (initializeDatabase now (.up stored storedNext)).2 = .up stored storedNext := by
  refine ⟨?_, ?_, rfl, initializeDatabase_flag now stored storedNext,
    initializeDatabase_store now _⟩
  · obtain ⟨f1, f2, f3, f4⟩ := faults
    cases poolReady <;> cases f1 <;> cases f2 <;> cases f3 <;> cases f4 <;>
      cases rows <;>
      simp [initializeDatabaseWith, initializeDatabaseTry, attempt, bind, Except.bind,
        pure, Except.pure]
  · obtain ⟨f1, f2, f3, f4⟩ := faults
    cases poolReady <;> cases f1 <;> cases f2 <;> cases f3 <;> cases f4 <;>
      cases rows <;>
      simp [initializeDatabaseWith, initializeDatabaseTry, attempt, bind, Except.bind,
        pure, Except.pure]

/-- Witness of C22: when the seed `INSERT` throws on an empty table the flag
is `false` and the table is still empty. -/
theorem initialize_returns_flag_witness :
    (initializeDatabaseWith { insertSeed := some "ER_DUP_ENTRY" } false 9 [] 1).2 =
      ([], 1) :=
  (initialize_returns_flag { insertSeed := some "ER_DUP_ENTRY" } false 9 [] 1 ""
    [] 1).2.1 (by decide)

/-! ## The client-side search -/

theorem startsWith_iff (needle hay : List Char) :
    ShowSchools.startsWith needle hay = true ↔ ∃ after, hay = needle ++ after := by
  induction needle generalizing hay with
  | nil => simp [ShowSchools.startsWith]
  | cons a needle ih =>
    cases hay with
    | nil => simp [ShowSchools.startsWith]
    | cons b hay =>
      simp only [ShowSchools.startsWith, Bool.and_eq_true, beq_iff_eq, ih, List.cons_append,
        List.cons.injEq]
      constructor
      · rintro ⟨rfl, after, rfl⟩
        exact ⟨after, rfl, rfl⟩
      · rintro ⟨after, rfl, rfl⟩
        exact ⟨rfl, after, rfl⟩

theorem occursIn_iff (needle hay : List Char) :
    ShowSchools.occursIn needle hay = true ↔
      ∃ before after, hay = before ++ needle ++ after := by
  induction hay with
  | nil =>
    simp only [ShowSchools.occursIn, startsWith_iff]
    constructor
    · rintro ⟨after, h⟩
      exact ⟨[], after, by simpa using h⟩
    · rintro ⟨before, after, h⟩
      have h' := h.symm
      simp only [List.append_eq_nil, List.append_assoc] at h'
      exact ⟨[], by simp [h'.2.1]⟩
  | cons b hay ih =>
    simp only [ShowSchools.occursIn, Bool.or_eq_true, startsWith_iff, ih]
    constructor
    · rintro (⟨after, h⟩ | ⟨before, after, h⟩)
      · exact ⟨[], after, by simpa using h⟩
      · exact ⟨b :: before, after, by simp [h]⟩
    · rintro ⟨before, after, h⟩
      cases before with
      | nil => exact Or.inl ⟨after, by simpa using h⟩
      | cons c before =>
        simp only [List.cons_append, List.cons.injEq] at h
        exact Or.inr ⟨before, after, by simpa using h.2⟩

theorem includes_iff (v q : String) : ShowSchools.includes v q = true ↔ IsSubstring q v := by
  unfold ShowSchools.includes IsSubstring
  exact occursIn_iff q.data v.data

theorem includes_empty (v : String) : ShowSchools.includes v "" = true := by
  rw [includes_iff]
  exact ⟨[], v.data, rfl⟩

theorem isSubstring_trans (a b c : String) (hab : IsSubstring a b) (hbc : IsSubstring b c) :
    IsSubstring a c := by
  obtain ⟨p₁, s₁, h₁⟩ := hab
  obtain ⟨p₂, s₂, h₂⟩ := hbc
  exact ⟨p₂ ++ p₁, s₁ ++ s₂, by rw [h₂, h₁]; simp⟩

theorem entryMatches_iff (toLowerCase : String → String) (query : String)
    (s : ShowSchools.Entry) :
    ShowSchools.entryMatches toLowerCase (toLowerCase (ShowSchools.trim query)) s = true ↔
      SearchHit toLowerCase query s := by
  simp only [ShowSchools.entryMatches, List.map_cons, List.map_nil, List.any_cons,
    List.any_nil, Bool.or_false, Bool.or_eq_true, includes_iff, SearchHit, strOf]

theorem entryMatches_empty (toLowerCase : String → String) (s : ShowSchools.Entry) :
    ShowSchools.entryMatches toLowerCase "" s = true := by
  simp [ShowSchools.entryMatches, includes_empty]

theorem filtered_eq_filter (toLowerCase : String → String) (schools : List ShowSchools.Entry)
    (query : String) :
    ShowSchools.filtered toLowerCase schools query =
      schools.filter
        (ShowSchools.entryMatches toLowerCase (toLowerCase (ShowSchools.trim query))) := by
  unfold ShowSchools.filtered
  by_cases hq : toLowerCase (ShowSchools.trim query) = ""
  · simp only [hq, beq_self_eq_true, if_true]
    symm
    rw [List.filter_eq_self]
    intro s _
    exact entryMatches_empty toLowerCase s
  · have : (toLowerCase (ShowSchools.trim query) == "") = false := by simpa using hq
    simp only [this, Bool.false_eq_true, if_false]

theorem dropWhile_eq_nil_of_all (p : Char → Bool) (l : List Char)
    (h : ∀ c ∈ l, p c = true) : l.dropWhile p = [] := by
  induction l with
  | nil => rfl
  | cons a l ih =>
    rw [List.dropWhile_cons_of_pos (h a (by simp))]
    exact ih (fun c hc => h c (List.mem_cons_of_mem a hc))

theorem trim_of_blank (query : String) (h : ∀ c ∈ query.data, isJsWhitespace c = true) :
    ShowSchools.trim query = "" := by
  unfold ShowSchools.trim
  rw [dropWhile_eq_nil_of_all isJsWhitespace query.data h]
  rfl

/-- C23. The search result is the loaded list filtered, in its order, by a
test that holds of an entry exactly when the trimmed, lower-cased query is a
substring of the lower-cased name, city, state or address of the entry, a
missing field counting as the empty string; email and contact play no part,
and a blank or white-space-only query returns the whole list. -/
theorem search_filter_spec (toLowerCase : String → String)
    (schools : List ShowSchools.Entry) (query : String) :
    (∃ test : ShowSchools.Entry → Bool,
      (∀ s, test s = true ↔ SearchHit toLowerCase query s) ∧
      ShowSchools.filtered toLowerCase schools query = schools.filter test) ∧
    (ShowSchools.filtered toLowerCase schools query).Sublist schools ∧
    ((∀ c ∈ query.data, isJsWhitespace c = true) → toLowerCase "" = "" →
      ShowSchools.filtered toLowerCase schools query = schools) := by
  refine ⟨⟨_, fun s => entryMatches_iff toLowerCase query s,
    filtered_eq_filter toLowerCase schools query⟩, ?_, ?_⟩
  · rw [filtered_eq_filter]
    exact List.filter_sublist schools
  · intro hblank hlower
    unfold ShowSchools.filtered
    rw [trim_of_blank query hblank, hlower]
    rfl

/-- Witness of C23: over the list of the Delhi Public School in Noida and the
Doon School in Dehradun the query `noida` returns only the first, and a query
of two spaces returns both. -/
theorem search_filter_spec_witness :
    ShowSchools.filtered ShowSchools.asciiLower
        [{ id := 1, name := some "Delhi Public School", city := some "Noida" },
         { id := 2, name := some "Doon School", city := some "Dehradun" }] "noida" =
      [{ id := 1, name := some "Delhi Public School", city := some "Noida" }] ∧
    ShowSchools.filtered ShowSchools.asciiLower
        [{ id := 1, name := some "Delhi Public School", city := some "Noida" },
         { id := 2, name := some "Doon School", city := some "Dehradun" }] "  " =
      [{ id := 1, name := some "Delhi Public School", city := some "Noida" },
       { id := 2, name := some "Doon School", city := some "Dehradun" }] :=
  ⟨by decide,
   (search_filter_spec ShowSchools.asciiLower
      [{ id := 1, name := some "Delhi Public School", city := some "Noida" },
       { id := 2, name := some "Doon School", city := some "Dehradun" }] "  ").2.2
      (by decide) (by decide)⟩

/-- C27. The search is monotone in the query: when the trimmed, lower-cased
first query is a substring of the trimmed, lower-cased second query, the result
for the second query is a sub-list of the result for the first, so every entry
returned for the second is returned for the first; and both results are
sub-lists of the loaded list, in its order. -/
theorem search_monotone (toLowerCase : String → String)
    (schools : List ShowSchools.Entry) (q₁ q₂ : String)
    (h : IsSubstring (toLowerCase (ShowSchools.trim q₁))
      (toLowerCase (ShowSchools.trim q₂))) :
    (ShowSchools.filtered toLowerCase schools q₂).Sublist
        (ShowSchools.filtered toLowerCase schools q₁) ∧
      (∀ s ∈ ShowSchools.filtered toLowerCase schools q₂,
        s ∈ ShowSchools.filtered toLowerCase schools q₁) ∧
      (ShowSchools.filtered toLowerCase schools q₁).Sublist schools ∧
      (ShowSchools.filtered toLowerCase schools q₂).Sublist schools := by
  have hsub : (ShowSchools.filtered toLowerCase schools q₂).Sublist
      (ShowSchools.filtered toLowerCase schools q₁) := by
    rw [filtered_eq_filter, filtered_eq_filter]
    apply List.monotone_filter_right
    intro s hs
    rw [entryMatches_iff] at hs ⊢
    rcases hs with hs | hs | hs | hs
    · exact Or.inl (isSubstring_trans _ _ _ h hs)
    · exact Or.inr (Or.inl (isSubstring_trans _ _ _ h hs))
    · exact Or.inr (Or.inr (Or.inl (isSubstring_trans _ _ _ h hs)))
    · exact Or.inr (Or.inr (Or.inr (isSubstring_trans _ _ _ h hs)))
  refine ⟨hsub, fun s hs => hsub.subset hs, ?_, ?_⟩
  · rw [filtered_eq_filter]
    exact List.filter_sublist schools
  · rw [filtered_eq_filter]
    exact List.filter_sublist schools

/-- Witness of C27: `doon` is a substring of `doon school`, and what the longer
query returns is among what the shorter one returns. -/
theorem search_monotone_witness :
    (ShowSchools.filtered ShowSchools.asciiLower
        [{ id := 1, name := some "Delhi Public School", city := some "Noida" },
         { id := 2, name := some "Doon School", city := some "Dehradun" }]
        "Doon School").Sublist
      (ShowSchools.filtered ShowSchools.asciiLower
        [{ id := 1, name := some "Delhi Public School", city := some "Noida" },
         { id := 2, name := some "Doon School", city := some "Dehradun" }] " doon") :=
  (search_monotone ShowSchools.asciiLower
    [{ id := 1, name := some "Delhi Public School", city := some "Noida" },
     { id := 2, name := some "Doon School", city := some "Dehradun" }] " doon" "Doon School"
    ((includes_iff _ _).mp (by decide))).1

/-! ## The email rule of the edit-school form -/

theorem notSpaceAt_of_toNat (c : Char) (h₁ : 33 ≤ c.toNat) (h₂ : c.toNat ≤ 126)
    (h₃ : c.toNat ≠ 64) : notSpaceAt c = true := by
  rw [notSpaceAt_iff]
  constructor
  · simp only [isJsWhitespace, Bool.or_eq_false_iff, Bool.and_eq_false_iff,
      beq_eq_false_iff_ne, ne_eq, decide_eq_false_iff_not, not_le]
    omega
  · rintro rfl
    exact h₃ (by decide)

theorem notSpaceAt_of_letter (c : Char) (h : isAsciiLetter c = true) :
    notSpaceAt c = true := by
  simp only [isAsciiLetter, Bool.or_eq_true, Bool.and_eq_true, decide_eq_true_eq] at h
  apply notSpaceAt_of_toNat <;> omega

theorem notSpaceAt_of_digit (c : Char) (h : isJsDigit c = true) : notSpaceAt c = true := by
  simp only [isJsDigit, Bool.and_eq_true, decide_eq_true_eq] at h
  apply notSpaceAt_of_toNat <;> omega

theorem notSpaceAt_of_local (c : Char) (h : EditSchool.isLocalChar c = true) :
    notSpaceAt c = true := by
  simp only [EditSchool.isLocalChar, Bool.or_eq_true, beq_iff_eq] at h
  rcases h with (((((h | h) | h) | h) | h) | h) | h
  · exact notSpaceAt_of_letter c h
  · exact notSpaceAt_of_digit c h
  all_goals apply notSpaceAt_of_toNat <;> omega

theorem notSpaceAt_of_domain (c : Char) (h : EditSchool.isDomainChar c = true) :
    notSpaceAt c = true := by
  simp only [EditSchool.isDomainChar, Bool.or_eq_true, beq_iff_eq] at h
  rcases h with ((h | h) | h) | h
  · exact notSpaceAt_of_letter c h
  · exact notSpaceAt_of_digit c h
  all_goals apply notSpaceAt_of_toNat <;> omega

theorem matches_repAtLeast_two (p : Char → Bool) (u : List Char)
    (h : Regex.Matches (Regex.repAtLeast 2 (Regex.cls p)) u) :
    u ≠ [] ∧ ∀ c ∈ u, p c = true := by
  unfold Regex.repAtLeast at h
  rw [Regex.matches_seq_iff] at h
  obtain ⟨s, t, rfl, hs, ht⟩ := h
  rw [Regex.matches_rep_cls_iff] at hs
  rw [Regex.matches_star_cls_iff] at ht
  constructor
  · intro hnil
    have hlen := congrArg List.length hnil
    simp only [List.length_append, List.length_nil] at hlen
    omega
  · intro c hc
    rcases List.mem_append.mp hc with hc | hc
    · exact hs.2 c hc
    · exact ht c hc

/-- C26. Every string that the email pattern of the edit-school form accepts is
accepted by the email pattern of PUT: the rule of the form is at least as
strict as that of the server. -/
theorem edit_form_email_accepted_by_server (s : String)
    (h : EditSchool.emailPattern.test s = true) : emailRegex.test s = true := by
  unfold Regex.test at h ⊢
  rw [Regex.rmatch_iff] at h ⊢
  rw [emailRegex_matches_iff]
  unfold EditSchool.emailPattern Regex.chr at h
  simp only [Regex.matches_seq_iff, Regex.matches_plus_cls_iff, Regex.matches_cls_iff] at h
  obtain ⟨L, r1, hs, hL, a, r2, rfl, ⟨c, rfl, hc⟩, D, r3, rfl, hD, b, T, rfl,
    ⟨d, rfl, hd⟩, hmatch⟩ := h
  simp only [beq_iff_eq] at hc hd
  subst hc hd
  have hT := matches_repAtLeast_two isAsciiLetter T hmatch
  refine ⟨L, D, T, by rw [hs]; simp, ⟨hL.1, ?_⟩, ⟨hD.1, ?_⟩, ⟨hT.1, ?_⟩⟩
  · exact fun c hc => notSpaceAt_of_local c (hL.2 c hc)
  · exact fun c hc => notSpaceAt_of_domain c (hD.2 c hc)
  · exact fun c hc => notSpaceAt_of_letter c (hT.2 c hc)

/-- Witness of C26: an address that the edit-school form accepts. -/
theorem edit_form_email_accepted_by_server_witness :
    emailRegex.test "Info@Doon-School.edu" = true :=
  edit_form_email_accepted_by_server "Info@Doon-School.edu" (by decide)

/-! ## The add-school form against POST -/

theorem matches_upTo_cls (p : Char → Bool) (k : Nat) (u : List Char)
    (h : Regex.Matches (Regex.upTo k (Regex.cls p)) u) :
    u.length ≤ k ∧ ∀ c ∈ u, p c = true := by
  induction k generalizing u with
  | zero =>
    simp only [Regex.upTo, Regex.matches_eps_iff] at h
    subst h
    simp
  | succ k ih =>
    simp only [Regex.upTo, Regex.matches_alt_iff, Regex.matches_eps_iff,
      Regex.matches_seq_iff, Regex.matches_cls_iff] at h
    rcases h with rfl | ⟨s, t, rfl, ⟨c, rfl, hc⟩, ht⟩
    · simp
    · obtain ⟨hlen, hall⟩ := ih t ht
      constructor
      · simp only [List.singleton_append, List.length_cons]
        omega
      · intro x hx
        simp only [List.singleton_append, List.mem_cons] at hx
        rcases hx with rfl | hx
        · exact hc
        · exact hall x hx

theorem contactPattern_digits (s : String) (h : AddSchool.contactPattern.test s = true) :
    (7 ≤ s.length ∧ s.length ≤ 15) ∧ ∀ c ∈ s.data, isJsDigit c = true := by
  unfold Regex.test AddSchool.contactPattern Regex.repRange at h
  rw [Regex.rmatch_iff, Regex.matches_seq_iff] at h
  obtain ⟨u, v, huv, hu, hv⟩ := h
  rw [Regex.matches_rep_cls_iff] at hu
  obtain ⟨hvlen, hvall⟩ := matches_upTo_cls isJsDigit (15 - 7) v hv
  have hlen : s.length = u.length + v.length := by
    show s.data.length = _
    rw [huv, List.length_append]
  constructor
  · omega
  · intro c hc
    rw [huv] at hc
    rcases List.mem_append.mp hc with hc | hc
    · exact hu.2 c hc
    · exact hvall c hc

/-- What the add-school form does guarantee: values that pass its rules and
whose contact has exactly 10 characters pass every guard of POST. -/
theorem add_form_sufficient_for_ten_digits (data : AddSchool.FormData)
    (image : Option String) (h : AddSchool.formValid data = true)
    (hten : data.contact.length = 10) :
    postInvalid (AddSchool.payload data image) = false := by
  simp only [AddSchool.formValid, Bool.and_eq_true, bne_iff_ne, ne_eq,
    decide_eq_true_eq] at h
  obtain ⟨⟨⟨⟨⟨⟨hname, -⟩, ⟨haddress, -⟩⟩, hcity⟩, hstate⟩, ⟨hcontact, hpattern⟩⟩,
    ⟨hemail, hemailPattern⟩⟩ := h
  have hdigits := (contactPattern_digits data.contact hpattern).2
  have hphone : phoneRegex.test data.contact = true :=
    (phoneRegex_test_iff data.contact).mpr ⟨hten, hdigits⟩
  have hemail' : emailRegex.test data.email_id = true := hemailPattern
  simp [postInvalid, missingRequired, AddSchool.payload, truthy, strOf, hname, haddress,
    hcity, hstate, hcontact, hemail, hphone, hemail']

/-- C25, the code at the failing input: the values name `AB`, address
`12 Main Road`, city `Noida`, state `UP`, contact `1234567` and email `a@b.co`
pass every rule of the add-school form, and the payload built from them is
answered 400 by POST, because the contact has 7 digits and not 10. -/
theorem add_form_contact_refused_by_post :
    AddSchool.formValid ⟨"AB", "12 Main Road", "Noida", "UP", "1234567", "a@b.co"⟩ = true ∧
    Schools.POST 5
        (AddSchool.payload ⟨"AB", "12 Main Road", "Noida", "UP", "1234567", "a@b.co"⟩ none)
        (.up [] 1) =
      ({ status := 400, error := some "Contact must be a valid 10-digit number" },
       .up [] 1) := by
  decide

/-! ## Read, then write back -/

theorem strOf_ne_empty (x : Option String) (h : truthy x = true) : strOf x ≠ "" := by
  cases x with
  | none => simp [truthy] at h
  | some s => simpa [truthy, strOf] using h

theorem orNull_ne_empty (x : Option String) : orNull x ≠ some "" := by
  rw [orNull_eq]
  split
  · simp
  · assumption

theorem missingRequired_false (body : Payload) (h : missingRequired body = false) :
    truthy body.name = true ∧ truthy body.address = true ∧ truthy body.city = true ∧
      truthy body.state = true ∧ truthy body.contact = true ∧
      truthy body.email_id = true := by
  simp only [missingRequired, Bool.or_eq_false_iff, Bool.not_eq_false'] at h
  obtain ⟨⟨⟨⟨⟨h1, h2⟩, h3⟩, h4⟩, h5⟩, h6⟩ := h
  exact ⟨h1, h2, h3, h4, h5, h6⟩

/-- The rows that POST and PUT write can be resubmitted, and DELETE writes
none: the three handlers keep every row of the store resubmittable. -/
theorem handlers_keep_resubmittable (now : Nat) (id : Option String) (body : Payload)
    (db : Db) (h : ∀ r ∈ db.rows, Resubmittable r) :
    (∀ r ∈ (Schools.POST now body db).2.rows, Resubmittable r) ∧
    (∀ r ∈ (SchoolById.PUT now id body db).2.rows, Resubmittable r) ∧
    (∀ r ∈ (SchoolById.DELETE id db).2.rows, Resubmittable r) := by
  refine ⟨?_, ?_, ?_⟩
  · cases hinv : postInvalid body with
    | true =>
      obtain ⟨resp, -, hall⟩ := POST_of_invalid body hinv
      rw [hall now db]
      exact h
    | false =>
      simp only [postInvalid, Bool.or_eq_false_iff, Bool.not_eq_false'] at hinv
      obtain ⟨⟨hreq, hemail⟩, hphone⟩ := hinv
      obtain ⟨h1, h2, h3, h4, -, -⟩ := missingRequired_false body hreq
      cases db with
      | down message =>
        have : (Schools.POST now body (.down message)).2 = .down message := by
          simp [Schools.POST, hreq, hemail, hphone]
        rw [this]
        exact h
      | up rows nextId =>
        rw [POST_of_valid now body rows nextId hreq hemail hphone]
        split
        · exact h
        · intro r hr
          simp only [Db.rows, List.mem_append, List.mem_singleton] at hr
          rcases hr with hr | rfl
          · exact h r hr
          · exact ⟨strOf_ne_empty _ h1, strOf_ne_empty _ h2, strOf_ne_empty _ h3,
              strOf_ne_empty _ h4, hemail, hphone, orNull_ne_empty _⟩
  · cases hinv : putInvalid id body with
    | true =>
      obtain ⟨resp, -, hall⟩ := PUT_of_invalid id body hinv
      rw [hall now db]
      exact h
    | false =>
      cases db with
      | down message =>
        rw [PUT_down_of_valid now id body message hinv]
        exact h
      | up rows nextId =>
        obtain ⟨idText, n, rfl, hid, hreq, hemail, hphone⟩ :=
          putInvalid_eq_false id body hinv
        obtain ⟨h1, h2, h3, h4, -, -⟩ := missingRequired_false body hreq
        rw [PUT_of_valid now idText n body rows nextId hid hreq hemail hphone]
        split
        · exact h
        · split
          · exact h
          · intro r' hr'
            simp only [Db.rows, List.mem_map] at hr'
            obtain ⟨r, hr, rfl⟩ := hr'
            unfold updateRow
            split
            · exact ⟨strOf_ne_empty _ h1, strOf_ne_empty _ h2, strOf_ne_empty _ h3,
                strOf_ne_empty _ h4, hemail, hphone, orNull_ne_empty _⟩
            · exact h r hr
  · rcases DELETE_store_cases id db with heq | ⟨n, rows, nextId, rfl, heq⟩
    · rw [heq]; exact h
    · rw [heq]
      intro r hr
      simp only [Db.rows, List.mem_filter] at hr
      exact h r hr.1

/-- A resubmittable row of a well-formed store with pairwise distinct emails
is accepted when it is written back as it is: the update is answered 200, and
only the updated timestamp of that row changes. -/
theorem put_own_fields_accepted (now : Nat) (rows : List School) (nextId : Nat)
    (r : School) (hr : r ∈ rows) (hwf : (Db.up rows nextId).WellFormed)
    (huniq : EmailsUnique rows) (hok : Resubmittable r) :
    SchoolById.PUT now (some (Nat.repr r.id)) r.resubmitted (.up rows nextId) =
      ({ status := 200, success := some true,
         message := some "School updated successfully" },
       .up (rows.map (fun x => if x = r then { r with updated_at := now } else x))
         nextId) := by
  obtain ⟨hname, haddress, hcity, hstate, hemail, hphone, himage⟩ := hok
  have hdigits := ((phoneRegex_test_iff r.contact).mp hphone).2
  have hstrip : stripNonDigits r.contact = r.contact := stripNonDigits_of_digits _ hdigits
  have hcontact : r.contact ≠ "" := by
    intro h0
    rw [h0] at hphone
    exact absurd hphone (by decide)
  have hemail_ne : r.email_id ≠ "" := by
    intro h0
    rw [h0] at hemail
    exact absurd hemail (by decide)
  have hreq : missingRequired r.resubmitted = false := by
    simp [missingRequired, School.resubmitted, truthy, hname, haddress, hcity, hstate,
      hcontact, hemail_ne]
  have hphone' : phoneRegex.test (stripNonDigits (strOf r.resubmitted.contact)) = true := by
    show phoneRegex.test (stripNonDigits r.contact) = true
    rw [hstrip]
    exact hphone
  rw [PUT_of_valid now (Nat.repr r.id) (r.id : Int) r.resubmitted rows nextId
    (parseInt_repr r.id) hreq hemail hphone']
  have h1 : ¬ (rows.filter (fun x => (x.id : Int) == (r.id : Int))).length = 0 := by
    apply Nat.ne_of_gt
    apply List.length_pos_of_mem (a := r)
    simp [List.mem_filter, hr]
  have hsame : ∀ x ∈ rows, x.id = r.id → x = r := fun x hx hid =>
    List.inj_on_of_nodup_map hwf.1 hx hr hid
  have h2 : ¬ (rows.filter (fun x => x.email_id == strOf r.resubmitted.email_id &&
      (x.id : Int) != (r.id : Int))).length > 0 := by
    intro hpos
    obtain ⟨x, hx⟩ := List.exists_mem_of_length_pos hpos
    simp only [List.mem_filter, Bool.and_eq_true, beq_iff_eq, bne_iff_ne, ne_eq,
      Nat.cast_inj] at hx
    obtain ⟨hxmem, hxe, hxid⟩ := hx
    have : x = r := List.inj_on_of_nodup_map huniq hxmem hr hxe
    exact hxid (by rw [this])
  rw [if_neg h1, if_neg h2]
  congr 2
  apply List.map_congr_left
  intro x hx
  unfold updateRow
  by_cases hid : x.id = r.id
  · have hxr := hsame x hx hid
    rw [hxr]
    simp [School.resubmitted, strOf, hstrip, orNull_eq, himage]
  · have hne : x ≠ r := fun hxr => hid (by rw [hxr])
    have hbeq : ((x.id : Int) == (r.id : Int)) = false := by
      simpa using hid
    rw [if_neg hne]
    simp only [hbeq, Bool.false_eq_true, if_false]

/-! ## Stores reached on the table of the handlers -/

theorem handlers_keep_emailsUnique (now : Nat) (id : Option String) (body : Payload)
    (db : Db) (hwf : db.WellFormed) (h : EmailsUnique db.rows) :
    EmailsUnique (Schools.POST now body db).2.rows ∧
    EmailsUnique (SchoolById.PUT now id body db).2.rows ∧
    EmailsUnique (SchoolById.DELETE id db).2.rows := by
  refine ⟨?_, ?_, ?_⟩
  · rcases POST_store_cases now body db with heq |
      ⟨rows, nextId, row, rfl, -, hrow, -, -, -, -, hfresh, heq⟩
    · rw [heq]; exact h
    · rw [heq]
      unfold EmailsUnique at h ⊢
      simp only [Db.rows] at h ⊢
      rw [List.map_append, List.nodup_append]
      refine ⟨h, by simp, ?_⟩
      intro e he hb
      simp only [List.map_cons, List.map_nil, List.mem_singleton] at hb
      simp only [List.mem_map] at he
      obtain ⟨r, hr, rfl⟩ := he
      exact hfresh r hr (hb.trans hrow)
  · rcases PUT_store_cases now id body db with heq | ⟨n, rows, nextId, rfl, -, hfree, heq⟩
    · rw [heq]; exact h
    · rw [heq]
      exact updateRow_emails_nodup now n body _ rows hwf.1 h hfree
  · rcases DELETE_store_cases id db with heq | ⟨n, rows, nextId, rfl, heq⟩
    · rw [heq]; exact h
    · rw [heq]
      unfold EmailsUnique at h ⊢
      simp only [Db.rows] at h ⊢
      exact List.Nodup.sublist (List.Sublist.map _ (List.filter_sublist rows)) h

/-- On a table with the columns of the handlers, every store reached from an
empty table keeps the primary key and the distinct emails, and every row of it
holds a contact of digits and can be resubmitted: `initializeDatabase` inserts
nothing there, and POST, PUT and DELETE keep all four. -/
theorem reachable_invariants (t : Nat) (db : Db) (h : ReachableAt t db) :
    db.WellFormed ∧ EmailsUnique db.rows ∧
      (∀ r ∈ db.rows, digitsOnly r.contact = true) ∧ (∀ r ∈ db.rows, Resubmittable r) := by
  induction h with
  | empty t nextId =>
    refine ⟨⟨by simp, by simp⟩, by simp [EmailsUnique, Db.rows], ?_, ?_⟩ <;>
      intro r hr <;> simp [Db.rows] at hr
  | step t now call db _ _ ih =>
    obtain ⟨hwf, huniq, hdigits, hres⟩ := ih
    cases call with
    | seed =>
      have hrun : Call.run now .seed db = db := initializeDatabase_store now db
      rw [hrun]
      exact ⟨hwf, huniq, hdigits, hres⟩
    | post body =>
      exact ⟨POST_wellFormed now body db hwf,
        (handlers_keep_emailsUnique now none body db hwf huniq).1,
        (handlers_keep_digitsOnly now none body db hdigits).1,
        (handlers_keep_resubmittable now none body db hres).1⟩
    | put id body =>
      exact ⟨PUT_wellFormed now id body db hwf,
        (handlers_keep_emailsUnique now id body db hwf huniq).2.1,
        (handlers_keep_digitsOnly now id body db hdigits).2.1,
        (handlers_keep_resubmittable now id body db hres).2.1⟩
    | delete id =>
      exact ⟨DELETE_wellFormed id db hwf,
        (handlers_keep_emailsUnique now id samplePayload db hwf huniq).2.2,
        (handlers_keep_digitsOnly now id samplePayload db hdigits).2.2,
        (handlers_keep_resubmittable now id samplePayload db hres).2.2⟩

/-- On a table with the columns of the handlers, every row of a store reached
from an empty table is accepted when it is written back as it was read. -/
theorem reachable_put_own_fields (t now : Nat) (rows : List School) (nextId : Nat)
    (h : ReachableAt t (.up rows nextId)) (r : School) (hr : r ∈ rows) :
    SchoolById.PUT now (some (Nat.repr r.id)) r.resubmitted (.up rows nextId) =
      ({ status := 200, success := some true,
         message := some "School updated successfully" },
       .up (rows.map (fun x => if x = r then { r with updated_at := now } else x))
         nextId) := by
  obtain ⟨hwf, huniq, -, hres⟩ := reachable_invariants t _ h
  exact put_own_fields_accepted now rows nextId r hr hwf huniq (hres r hr)

theorem seedTable_PUT_never_200 (id : Option String) (body : Payload)
    (rows : List SeededSchool) : (SeedTable.PUT id body rows).status ≠ 200 := by
  unfold SeedTable.PUT
  dsimp only
  repeat' split
  all_goals simp

/-- C24, the code at the failing input: `initializeDatabase` on the empty
table that it creates persists a row of id 1 whose contact_number is
`+91 91234 56789`; the update of id 1 that resubmits the values of that row is
answered 400 on that table, and on every store of the handlers as well,
because stripping the contact leaves 12 digits and not 10; the same holds for
each of the ten seeded rows; on that table an update with a contact of 10
digits is answered 500, because the handler reads the column email_id, which
the table lacks; and no update of that table is answered 200, whatever the id,
the body and the rows. -/
theorem seeded_row_resubmit_refused :
    (∃ r ∈ (initializeDatabaseWith {} false 0 [] 1).2.1,
      r.id = 1 ∧ r.contact_number = "+91 91234 56789" ∧
      stripNonDigits r.contact_number = "919123456789" ∧
      SeedTable.PUT (some "1") r.resubmitted (initializeDatabaseWith {} false 0 [] 1).2.1 =
        { status := 400, success := some false,
          error := some "Contact number must be a valid 10-digit number" } ∧
      ∀ (now : Nat) (db : Db), SchoolById.PUT now (some "1") r.resubmitted db =
        ({ status := 400, success := some false,
           error := some "Contact number must be a valid 10-digit number" }, db)) ∧
    (∀ r ∈ (initializeDatabaseWith {} false 0 [] 1).2.1,
      SeedTable.PUT (some (toString r.id)) r.resubmitted
          (initializeDatabaseWith {} false 0 [] 1).2.1 =
        { status := 400, success := some false,
          error := some "Contact number must be a valid 10-digit number" }) ∧
    SeedTable.PUT (some "1") samplePayload (initializeDatabaseWith {} false 0 [] 1).2.1 =
      { status := 500, success := some false, error := some "Failed to update school" } ∧
    (∀ (id : Option String) (body : Payload) (rows : List SeededSchool),
      (SeedTable.PUT id body rows).status ≠ 200) :=
  ⟨⟨seedRow 0 (1, ⟨"La Martiniere College", "Hazratganj", "Lucknow", "Uttar Pradesh",
      "+91 91234 56789",
      "https://upload.wikimedia.org/wikipedia/commons/0/0a/La_Martiniere_College%2C_Lucknow.jpg",
      "info@lamartiniere.edu.in"⟩),
    by decide, by decide, by decide, by decide, by decide,
    fun now db => by cases db <;> rfl⟩,
   by decide, by decide, seedTable_PUT_never_200⟩

end SchoolManagement
